import Mathlib

/-!
Binding environment variables into Go values: `env.Unmarshal`

A shallow embedding of `env.go` (package `env`) and of the few standard-library
routines it calls (`strconv.ParseInt`, `strconv.ParseUint`,
`strconv.ParseFloat`, `strings.Split`, `os.Getenv`, and the parts of `reflect`
the program touches).

Conventions of the embedding.

* A Go `string` is a Lean `String`, read as its list of characters `s.data`.
  The Go loops below range over bytes; they only ever compare a byte with an
  ASCII character, and every byte of a multi-byte UTF-8 sequence is at least
  `0x80`, so a loop over characters takes the same branches.
* Machine integers are `Nat`/`Int` with the wrap-around written out
  (`% 2 ^ 64`).
* `Unmarshal` is embedded over values that own their targets (`Value`): the
  program only ever walks down one chain of pointers and interfaces.
* `indirect` is embedded a second time over addressed memory (`Memory`), where
  a pointer holds an address, a map a reference to its table, and `rv.Set`
  stores into a variable: this is where it shows what the caller reads through
  its own pointers after the call.
-/

namespace Env

/-! ## `reflect.Kind` -/

/-- The kinds of `reflect.Kind`, in the order of the Go declaration. -/
inductive Kind
  | Invalid | Bool
  | Int | Int8 | Int16 | Int32 | Int64
  | Uint | Uint8 | Uint16 | Uint32 | Uint64 | Uintptr
  | Float32 | Float64 | Complex64 | Complex128
  | Array | Chan | Func | Interface | Map | Ptr | Slice | String | Struct
  | UnsafePointer
  deriving DecidableEq, Repr

/-- The text `Kind.String()` prints. -/
def kindString : Kind → String
  | .Invalid => "invalid" | .Bool => "bool"
  | .Int => "int" | .Int8 => "int8" | .Int16 => "int16" | .Int32 => "int32"
  | .Int64 => "int64"
  | .Uint => "uint" | .Uint8 => "uint8" | .Uint16 => "uint16"
  | .Uint32 => "uint32" | .Uint64 => "uint64" | .Uintptr => "uintptr"
  | .Float32 => "float32" | .Float64 => "float64"
  | .Complex64 => "complex64" | .Complex128 => "complex128"
  | .Array => "array" | .Chan => "chan" | .Func => "func"
  | .Interface => "interface" | .Map => "map" | .Ptr => "ptr"
  | .Slice => "slice" | .String => "string" | .Struct => "struct"
  | .UnsafePointer => "unsafe.Pointer"

/-- Size in bits of a numeric kind, `Type.Bits()`; `intSize` is the width of
`int`, `uint` and `uintptr` on the platform. Go panics on the other kinds; the
program calls `Bits` on numeric kinds only, and the embedding answers `0`
elsewhere. -/
def Kind.Bits (intSize : Nat) : Kind → Nat
  | .Int | .Uint | .Uintptr => intSize
  | .Int8 | .Uint8 => 8
  | .Int16 | .Uint16 => 16
  | .Int32 | .Uint32 | .Float32 => 32
  | .Int64 | .Uint64 | .Float64 | .Complex64 => 64
  | .Complex128 => 128
  | _ => 0

/-! ## `strconv`: base-10 integer parsing -/

/-- The `Err` field of a `*strconv.NumError`. -/
inductive NumErr
  | ErrSyntax | ErrRange | ErrBitSize
  deriving DecidableEq, Repr

/-- Go: `lower(c) = c | ('x' - 'X')`, on a byte. -/
def lower (c : Nat) : Nat := c ||| 0x20

/-- The digit switch of `ParseUint`: the value a byte stands for, `none` in
the `default` case. -/
def digitVal (c : Nat) : Option Nat :=
  if 48 ≤ c ∧ c ≤ 57 then some (c - 48)
  else if 97 ≤ lower c ∧ lower c ≤ 122 then some (lower c - 97 + 10)
  else none

/-- The smallest number such that `cutoff * 10 > maxUint64`. -/
def cutoff10 : Nat := (2 ^ 64 - 1) / 10 + 1

/-- The digit loop of `strconv.ParseUint` for base 10, on 64-bit words;
`n` is the accumulator. -/
def parseUintLoop (maxVal : Nat) : List Char → Nat → Nat × Option NumErr
  | [], n => (n, none)
  | c :: cs, n =>
    match digitVal c.toNat with
    | none => (0, some .ErrSyntax)
    | some d =>
      if d ≥ 10 then (0, some .ErrSyntax)
      else if n ≥ cutoff10 then (maxVal, some .ErrRange)
      else
        let n10 := (n * 10) % 2 ^ 64
        let n1 := (n10 + d) % 2 ^ 64
        if n1 < n10 ∨ n1 > maxVal then (maxVal, some .ErrRange)
        else parseUintLoop maxVal cs n1

/-- Go: `strconv.ParseUint(s, 10, bitSize)`: the value and the error (`none`
is a nil error). Base 10 is the only base the program passes; what Go does
for base 0 alone (prefixes, underscores) is left out. -/
def ParseUint (intSize : Nat) (s : String) (bitSize : Nat) : Nat × Option NumErr :=
  if s = "" then (0, some .ErrSyntax)
  else
    let bitSize := if bitSize = 0 then intSize else bitSize
    if bitSize > 64 then (0, some .ErrBitSize)
    else
      let maxVal := ((2 ^ bitSize) % 2 ^ 64 + 2 ^ 64 - 1) % 2 ^ 64
      parseUintLoop maxVal s.data 0

/-- Conversion `int64(x)` of a 64-bit pattern, and wrap-around of `int64`
arithmetic. -/
def wrapInt64 (z : Int) : Int := (z + 2 ^ 63) % 2 ^ 64 - 2 ^ 63

/-- Go: `strconv.ParseInt(s, 10, bitSize)`. -/
def ParseInt (intSize : Nat) (s : String) (bitSize : Nat) : Int × Option NumErr :=
  match s.data with
  | [] => (0, some .ErrSyntax)
  | c :: rest =>
    -- pick off the leading sign
    let sb : Bool × List Char :=
      if c = '+' then (false, rest) else if c = '-' then (true, rest) else (false, c :: rest)
    let neg := sb.1
    -- convert unsigned and check range
    let r := ParseUint intSize (String.mk sb.2) bitSize
    if r.2 ≠ none ∧ r.2 ≠ some .ErrRange then (0, r.2)
    else
      let bitSize := if bitSize = 0 then intSize else bitSize
      let cutoff := (2 ^ (bitSize - 1)) % 2 ^ 64
      if neg = false ∧ r.1 ≥ cutoff then ((cutoff : Int) - 1, some .ErrRange)
      else if neg = true ∧ r.1 > cutoff then (wrapInt64 (-(cutoff : Int)), some .ErrRange)
      else
        let n := wrapInt64 r.1
        (if neg then wrapInt64 (-n) else n, none)

/-! ## `strconv.ParseFloat` -/

/-- Go: `floatInfo`: the number of mantissa bits and of exponent bits of a
floating-point format, and its bias as a positive number (`1023` for Go's
`-1023`). -/
structure floatInfo where
  mantbits : Nat
  expbits : Nat
  bias : Nat
  deriving DecidableEq, Repr

/-- Go: `float32info`. -/
def float32info : floatInfo := ⟨23, 8, 127⟩

/-- Go: `float64info`. -/
def float64info : floatInfo := ⟨52, 11, 1023⟩

/-- The position of the leading bit of `n`: `log2Loop n n` is the largest `k`
with `2^k ≤ n`, for `n` positive. -/
def log2Loop : Nat → Nat → Nat
  | 0, _ => 0
  | fuel + 1, n => if n < 2 then 0 else log2Loop fuel (n / 2) + 1

/-- Go: `float64(f)` for a `float32` given by its bit pattern: the bit
pattern of the same number as a `float64`. A NaN keeps its sign and the
leading bits of its payload. -/
def float32to64 (b : Nat) : Nat :=
  let sign := b / 2 ^ 31 % 2
  let e := b / 2 ^ 23 % 2 ^ 8
  let m := b % 2 ^ 23
  if e = 255 then sign * 2 ^ 63 + 2047 * 2 ^ 52 + m * 2 ^ 29
  else if e = 0 then
    if m = 0 then sign * 2 ^ 63
    else
      -- a denormal `m * 2^-149`, with leading bit at position `log2Loop m m`
      sign * 2 ^ 63 + (log2Loop m m + 1023 - 149) * 2 ^ 52 + (m * 2 ^ (52 - log2Loop m m)) % 2 ^ 52
  else sign * 2 ^ 63 + (e + 1023 - 127) * 2 ^ 52 + m * 2 ^ 29

/-- Go: `commonPrefixLenIgnoreCase(s, prefix)`, for a lower-case second
argument. -/
def commonPrefixLenIgnoreCase : List Char → List Char → Nat
  | c :: s, p :: ps =>
    let c1 := if 65 ≤ c.toNat ∧ c.toNat ≤ 90 then c.toNat + 32 else c.toNat
    if c1 ≠ p.toNat then 0 else commonPrefixLenIgnoreCase s ps + 1
  | _, _ => 0

/-- The infinity branch of `special`: the number of bytes of `s` that spell
`inf` or `infinity`, `none` when `s` begins with neither. -/
def specialInf (s : List Char) : Option Nat :=
  let n := commonPrefixLenIgnoreCase s "infinity".data
  let n := if 3 < n ∧ n < 8 then 3 else n
  if n = 3 ∨ n = 8 then some n else none

/-- Go: `special(s)`: for a text that begins with an infinity or a NaN, its
sign (`true` is negative), whether it is a NaN, and the number of bytes
read. -/
def special (s : List Char) : Option (Bool × Bool × Nat) :=
  match s with
  | [] => none
  | c :: rest =>
    if c = '+' ∨ c = '-' then
      match specialInf rest with
      | some n => some (decide (c = '-'), false, 1 + n)
      | none => none
    else if c = 'i' ∨ c = 'I' then
      match specialInf s with
      | some n => some (false, false, n)
      | none => none
    else if c = 'n' ∨ c = 'N' then
      if commonPrefixLenIgnoreCase s "nan".data = 3 then some (false, true, 3) else none
    else none

/-- The variables of the digit loop of `readFloat`; `full` is the number all
the digits counted by `nd` spell, which `mantissa` holds the first
`maxMantDigits` digits of. -/
structure digitState where
  sawdot : Bool
  sawdigits : Bool
  underscores : Bool
  trunc : Bool
  nd : Nat
  ndMant : Nat
  dp : Int
  mantissa : Nat
  full : Nat
  deriving DecidableEq, Repr

/-- The digit loop of `readFloat` in the given base: the variables when the
loop ends, and the text not read. -/
def readDigits (base maxMantDigits : Nat) : List Char → digitState → digitState × List Char
  | [], st => (st, [])
  | c :: cs, st =>
    if c = '_' then
      readDigits base maxMantDigits cs
        ⟨st.sawdot, st.sawdigits, true, st.trunc, st.nd, st.ndMant, st.dp, st.mantissa, st.full⟩
    else if c = '.' then
      if st.sawdot then (st, c :: cs)
      else
        readDigits base maxMantDigits cs
          ⟨true, st.sawdigits, st.underscores, st.trunc, st.nd, st.ndMant, st.nd, st.mantissa,
            st.full⟩
    else if 48 ≤ c.toNat ∧ c.toNat ≤ 57 then
      if c = '0' ∧ st.nd = 0 then
        -- ignore leading zeros
        readDigits base maxMantDigits cs
          ⟨st.sawdot, true, st.underscores, st.trunc, st.nd, st.ndMant, st.dp - 1, st.mantissa,
            st.full⟩
      else if st.ndMant < maxMantDigits then
        readDigits base maxMantDigits cs
          ⟨st.sawdot, true, st.underscores, st.trunc, st.nd + 1, st.ndMant + 1, st.dp,
            st.mantissa * base + (c.toNat - 48), st.full * base + (c.toNat - 48)⟩
      else
        readDigits base maxMantDigits cs
          ⟨st.sawdot, true, st.underscores, st.trunc || decide (c ≠ '0'), st.nd + 1, st.ndMant,
            st.dp, st.mantissa, st.full * base + (c.toNat - 48)⟩
    else if base = 16 ∧ 97 ≤ lower c.toNat ∧ lower c.toNat ≤ 102 then
      if st.ndMant < maxMantDigits then
        readDigits base maxMantDigits cs
          ⟨st.sawdot, true, st.underscores, st.trunc, st.nd + 1, st.ndMant + 1, st.dp,
            st.mantissa * 16 + (lower c.toNat - 97 + 10), st.full * 16 + (lower c.toNat - 97 + 10)⟩
      else
        readDigits base maxMantDigits cs
          ⟨st.sawdot, true, st.underscores, true, st.nd + 1, st.ndMant, st.dp, st.mantissa,
            st.full * 16 + (lower c.toNat - 97 + 10)⟩
    else (st, c :: cs)

/-- The digit loop of the exponent of `readFloat`: the exponent read, capped
as in Go (`if e < 10000`), whether an underscore was passed, and the text not
read. -/
def readExpDigits : List Char → Nat → Bool → Nat × Bool × List Char
  | [], e, u => (e, u, [])
  | c :: cs, e, u =>
    if c = '_' then readExpDigits cs e true
    else if 48 ≤ c.toNat ∧ c.toNat ≤ 57 then
      readExpDigits cs (if e < 10000 then e * 10 + (c.toNat - 48) else e) u
    else (e, u, c :: cs)

/-- The scan of `underscoreOK` over the number proper; `saw` is the last
character seen: `'0'` a digit or base prefix, `'_'` an underscore, `'!'`
another character, `'^'` the beginning. -/
def underscoreScan (hex : Bool) : List Char → Char → Bool
  | [], saw => decide (saw ≠ '_')
  | c :: cs, saw =>
    if (48 ≤ c.toNat ∧ c.toNat ≤ 57) ∨
        (hex = true ∧ 97 ≤ lower c.toNat ∧ lower c.toNat ≤ 102) then
      underscoreScan hex cs '0'
    else if c = '_' then
      if saw ≠ '0' then false else underscoreScan hex cs '_'
    else if saw = '_' then false
    else underscoreScan hex cs '!'

/-- Go: `underscoreOK(s)`: underscores appear only between digits or between
a base prefix and a digit. -/
def underscoreOK (s : List Char) : Bool :=
  let s1 := match s with
    | c :: rest => if c = '-' ∨ c = '+' then rest else s
    | [] => s
  match s1 with
  | c0 :: c1 :: rest =>
    if c0 = '0' ∧ (lower c1.toNat = 98 ∨ lower c1.toNat = 111 ∨ lower c1.toNat = 120) then
      underscoreScan (decide (lower c1.toNat = 120)) rest '0'
    else underscoreScan false s1 '^'
  | _ => underscoreScan false s1 '^'

/-- What `readFloat` answers when it reads the whole of a well-formed text:
Go's `mantissa`, `exp`, `neg`, `trunc` and `hex`, and for a decimal text the
number `full` that all its digits spell and the exponent `fullExp` of ten that
goes with it. -/
structure floatParts where
  mantissa : Nat
  exp : Int
  neg : Bool
  trunc : Bool
  hex : Bool
  full : Nat
  fullExp : Int
  deriving DecidableEq, Repr

/-- Go: `readFloat(s)` followed by the test `n == len(s)` of `ParseFloat`:
the parts of the number when `s` is, from its first byte to its last, a
decimal or hexadecimal floating-point number; `none` otherwise. -/
def readFloat (s : List Char) : Option floatParts :=
  match s with
  | [] => none
  | c :: rest =>
    -- optional sign
    let neg := decide (c = '-')
    let s1 := if c = '+' ∨ c = '-' then rest else s
    -- digits
    let hex : Bool :=
      match s1 with
      | c0 :: c1 :: _ :: _ => decide (c0 = '0' ∧ lower c1.toNat = 120)
      | _ => false
    let base := if hex then 16 else 10
    let maxMantDigits := if hex then 16 else 19
    let s2 := if hex then s1.drop 2 else s1
    let r := readDigits base maxMantDigits s2 ⟨false, false, false, false, 0, 0, 0, 0, 0⟩
    let st := r.1
    if st.sawdigits = false then none
    else
      let dp0 : Int := if st.sawdot = false then st.nd else st.dp
      let dp1 : Int := if hex then dp0 * 4 else dp0
      let ndMant : Int := if hex then st.ndMant * 4 else st.ndMant
      -- optional exponent moves decimal point
      let tail : Option (Int × Bool × List Char) :=
        match r.2 with
        | e :: es =>
          if lower e.toNat = (if hex then 112 else 101) then
            match es with
            | [] => none
            | g :: gs =>
              let esign : Int := if g = '-' then -1 else 1
              let ds := if g = '+' ∨ g = '-' then gs else es
              match ds with
              | [] => none
              | d :: _ =>
                if d.toNat < 48 ∨ d.toNat > 57 then none
                else
                  let x := readExpDigits ds 0 st.underscores
                  some (dp1 + x.1 * esign, x.2.1, x.2.2)
          else if hex then none
          else some (dp1, st.underscores, r.2)
        | [] => if hex then none else some (dp1, st.underscores, [])
      match tail with
      | none => none
      | some (dp, underscores, unread) =>
        if unread ≠ [] then none
        else if underscores = true ∧ underscoreOK s = false then none
        else
          some ⟨st.mantissa, if st.mantissa ≠ 0 then dp - ndMant else 0, neg, st.trunc, hex,
            st.full, dp - st.nd⟩

/-- One pass of the loops of `atofHex` that shift the mantissa right:
`mantissa = mantissa>>1 | mantissa&1`. -/
def shiftRightSticky (mantissa : Nat) : Nat := mantissa / 2 ||| mantissa % 2

/-- The first loop of `atofHex`: shift left until the mantissa has
`mantbits + 3` bits. -/
def hexShiftLeft (flt : floatInfo) : Nat → Nat → Int → Nat × Int
  | 0, mantissa, exp => (mantissa, exp)
  | fuel + 1, mantissa, exp =>
    if mantissa ≠ 0 ∧ mantissa / 2 ^ (flt.mantbits + 2) = 0 then
      hexShiftLeft flt fuel (mantissa * 2) (exp - 1)
    else (mantissa, exp)

/-- The second loop of `atofHex`: shift right while the mantissa has more
than `mantbits + 3` bits. -/
def hexShiftRight (flt : floatInfo) : Nat → Nat → Int → Nat × Int
  | 0, mantissa, exp => (mantissa, exp)
  | fuel + 1, mantissa, exp =>
    if mantissa / 2 ^ (1 + flt.mantbits + 2) ≠ 0 then
      hexShiftRight flt fuel (shiftRightSticky mantissa) (exp + 1)
    else (mantissa, exp)

/-- The third loop of `atofHex`: denormalize while the exponent is too
negative. -/
def hexDenormalize (minExp : Int) : Nat → Nat → Int → Nat × Int
  | 0, mantissa, exp => (mantissa, exp)
  | fuel + 1, mantissa, exp =>
    if mantissa > 1 ∧ exp < minExp - 2 then
      hexDenormalize minExp fuel (shiftRightSticky mantissa) (exp + 1)
    else (mantissa, exp)

/-- Go: `atofHex(s, flt, mantissa, exp, neg, trunc)`: the bit pattern in the
format `flt`, `none` for the range error. The mantissa is a 64-bit word, so
that 64 passes end each loop. -/
def atofHex (flt : floatInfo) (mantissa : Nat) (exp : Int) (neg trunc : Bool) : Option Nat :=
  let maxExp : Int := (2 ^ flt.expbits : Nat) - (flt.bias : Int) - 2
  let minExp : Int := -(flt.bias : Int) + 1
  let exp := exp + flt.mantbits
  let a := hexShiftLeft flt 64 mantissa exp
  let m1 := if trunc then a.1 ||| 1 else a.1
  let b := hexShiftRight flt 64 m1 a.2
  let c := hexDenormalize minExp 64 b.1 b.2
  -- round using two bottom bits
  let round := c.1 % 4 ||| (c.1 / 4) % 2
  let m2 := c.1 / 4
  let e2 := c.2 + 2
  let up : Nat × Int :=
    if round = 3 then
      if m2 + 1 = 2 ^ (1 + flt.mantbits) then ((m2 + 1) / 2, e2 + 1) else (m2 + 1, e2)
    else (m2, e2)
  let e3 : Int := if up.1 / 2 ^ flt.mantbits = 0 then -(flt.bias : Int) else up.2
  if e3 > maxExp then none
  else
    some (up.1 % 2 ^ flt.mantbits +
      ((e3 + flt.bias) % 2 ^ flt.expbits).toNat * 2 ^ flt.mantbits +
      (if neg then 2 ^ (flt.mantbits + flt.expbits) else 0))

/-- The floating-point number of the format `flt` nearest to `num / den`,
`num` and `den` positive, rounded to even when two are as near: its bit
pattern without the sign, `none` when the rounded number is too large for the
format (the range error of `ParseFloat`). A number too small for the format
rounds to a denormal or to zero. -/
def roundNearestEven (flt : floatInfo) (num den : Nat) : Option Nat :=
  -- `2^(l-1) < num/den < 2^(l+1)`
  let l : Int := (log2Loop num num : Int) - log2Loop den den
  let ge : Bool := if l ≥ 0 then decide (num ≥ den * 2 ^ l.toNat)
    else decide (num * 2 ^ (-l).toNat ≥ den)
  -- `2^e ≤ num/den < 2^(e+1)`
  let e : Int := if ge then l else l - 1
  let emin : Int := 1 - (flt.bias : Int)
  let e1 : Int := if e < emin then emin else e
  -- the unit in the last place is `2^t`
  let t : Int := e1 - flt.mantbits
  let n : Nat := if t ≥ 0 then num else num * 2 ^ (-t).toNat
  let d : Nat := if t ≥ 0 then den * 2 ^ t.toNat else den
  let q := n / d
  let r := n % d
  let m := if 2 * r > d ∨ (2 * r = d ∧ q % 2 = 1) then q + 1 else q
  let bits := (e1 - emin).toNat * 2 ^ flt.mantbits + m
  if bits ≥ (2 ^ flt.expbits - 1) * 2 ^ flt.mantbits then none else some bits

/-- The decimal conversion of `ParseFloat`: the number in the format `flt`
nearest to `full * 10^fullExp`, rounded using IEEE 754 unbiased rounding;
`none` for the range error. A decimal exponent beyond `400` in size decides
the answer without the division. -/
def atofDecimal (flt : floatInfo) (full : Nat) (fullExp : Int) (neg : Bool) : Option Nat :=
  let sign := if neg then 2 ^ (flt.mantbits + flt.expbits) else 0
  if full = 0 then some sign
  else if fullExp > 400 then none
  else if fullExp + (log2Loop full full : Int) < -1400 then some sign
  else
    let r := if fullExp ≥ 0 then roundNearestEven flt (full * 10 ^ fullExp.toNat) 1
      else roundNearestEven flt full (10 ^ (-fullExp).toNat)
    match r with
    | none => none
    | some bits => some (bits + sign)

/-- Go: `strconv.ParseFloat(s, bitSize)`, as of Go 1.13 (hexadecimal
numbers, underscores): the bit pattern of the `float64` returned, `none` for
an error. With `bitSize` 32 the text is converted to the nearest `float32`,
and the answer is that number as a `float64`. The NaN is `math.NaN()`, for
`bitSize` 32 after the conversions `float64(float32(x))` as amd64 and arm64
do them. -/
def ParseFloat (s : String) (bitSize : Nat) : Option Nat :=
  let flt := if bitSize = 32 then float32info else float64info
  let widen := fun b : Nat => if bitSize = 32 then float32to64 b else b
  match special s.data with
  | some (neg, nan, n) =>
    if n ≠ s.data.length then none
    else if nan then some (if bitSize = 32 then 0x7FF8000000000000 else 0x7FF8000000000001)
    else some (if neg then 0xFFF0000000000000 else 0x7FF0000000000000)
  | none =>
    match readFloat s.data with
    | none => none
    | some p =>
      let r := if p.hex then atofHex flt p.mantissa p.exp p.neg p.trunc
        else atofDecimal flt p.full p.fullExp p.neg
      r.map widen

/-! ## `strings.Split` and the field tag -/

/-- Go: `strings.Split(s, sep)` for a one-character separator: the pieces of
`s` between the separators, one more piece than there are separators. -/
def Split (sep : Char) : List Char → List (List Char)
  | [] => [[]]
  | c :: cs =>
    if c = sep then [] :: Split sep cs
    else
      match Split sep cs with
      | [] => [[c]]
      | seg :: segs => (c :: seg) :: segs

/-- Go: `type tagOpts struct`. -/
structure tagOpts where
  ignored : Bool
  omitEmpty : Bool
  /-- Go field `alias`, a reserved word here. -/
  aliasName : String
  deriving DecidableEq, Repr

/-- The `for k, v := range strings.Split(s, ",")` loop of `parseTag`, from
index `k` on. -/
def parseTagLoop : Nat → List (List Char) → tagOpts → tagOpts
  | _, [], opts => opts
  | k, v :: vs, opts =>
    if k = 0 then parseTagLoop (k + 1) vs ⟨opts.ignored, opts.omitEmpty, String.mk v⟩
    else if String.mk v = "omitempty" then
      parseTagLoop (k + 1) vs ⟨opts.ignored, true, opts.aliasName⟩
    else parseTagLoop (k + 1) vs opts

/-- Go: `parseTag`, applied to `s = tag.Get("env")`. -/
def parseTag (s : String) : tagOpts :=
  if s = "" then ⟨false, false, ""⟩
  else if s = "-" then ⟨true, false, ""⟩
  else parseTagLoop 0 (Split ',' s.data) ⟨false, false, ""⟩

/-! ## Types, values and errors -/

/-- A `reflect.Type` the program does not take apart, as it observes it:
through `Type.String()` and `Type.Kind()`. The predeclared type `string` is
`⟨"string", .String⟩`; a defined type prints with its package, `"env.K"`. -/
structure TypeInfo where
  name : String
  kind : Kind
  deriving DecidableEq, Repr

/-- Go: `reflect.StructField`, the parts read by `unmarshalStruct`: `Name`,
`Type`, the value of `Tag.Get("env")`, and whether the field is exported
(`PkgPath == ""`). -/
structure StructField where
  Name : String
  Typ : TypeInfo
  Tag : String
  exported : Bool
  deriving DecidableEq, Repr

/-- A `reflect.Type` that the program does take apart. -/
inductive GoType
  | basic (info : TypeInfo)
  | ptr (elem : GoType)
  | map (name : String) (key elem : TypeInfo)
  | struct (name : String) (fields : List StructField)
  | iface (name : String)
  deriving DecidableEq, Repr

/-- Go: `Type.Kind()`. -/
def GoType.Kind : GoType → Kind
  | .basic info => info.kind
  | .ptr _ => .Ptr
  | .map _ _ _ => .Map
  | .struct _ _ => .Struct
  | .iface _ => .Interface

/-- Go: `Type.String()`. -/
def typeString : GoType → String
  | .basic info => info.name
  | .ptr elem => "*" ++ typeString elem
  | .map name _ _ => name
  | .struct name _ => name
  | .iface name => name

/-- The value held by a structure field or by a variable of a kind the
program does not look into. `float` carries the IEEE-754 bit pattern;
`other` is an uninterpreted code for any other value (a bool, a slice, a
nested structure, ...). -/
inductive FieldVal
  | int (n : Int)
  | uint (n : Nat)
  | float (bits : Nat)
  | str (s : String)
  | other (code : Nat)
  deriving DecidableEq, Repr

/-- A field of a structure value: `rt.Field(i)` together with `rv.Field(i)`. -/
structure Field where
  decl : StructField
  val : FieldVal
  deriving DecidableEq, Repr

/-- Go: `frv.CanSet()` for a field of an addressable structure: the field is
exported. -/
def Field.CanSet (f : Field) : Bool := f.decl.exported

/-- A Go value as `reflect` sees it. A pointer owns its target; an interface
owns its dynamic value. Map entries are kept for maps with string-kinded keys
and elements, the only ones whose entries the program reads. -/
inductive Value
  | other (t : TypeInfo) (v : FieldVal)
  | nilPtr (elem : GoType)
  | ptr (target : Value)
  | nilIface (name : String)
  | iface (name : String) (dyn : Value)
  | map (name : String) (key elem : TypeInfo) (isNil : Bool) (entries : List (String × String))
  | struct (name : String) (fields : List Field)
  deriving DecidableEq, Repr

/-- Go: `rv.Type()`. -/
def typeOf : Value → GoType
  | .other t _ => .basic t
  | .nilPtr elem => .ptr elem
  | .ptr target => .ptr (typeOf target)
  | .nilIface name => .iface name
  | .iface name _ => .iface name
  | .map name key elem _ _ => .map name key elem
  | .struct name fields => .struct name (fields.map Field.decl)

/-- Go: `rv.Kind()`. -/
def Value.Kind (rv : Value) : Kind := (typeOf rv).Kind

/-- The zero value of a field of the given kind. -/
def zeroVal : Kind → FieldVal
  | .Int | .Int8 | .Int16 | .Int32 | .Int64 => .int 0
  | .Uint | .Uint8 | .Uint16 | .Uint32 | .Uint64 | .Uintptr => .uint 0
  | .Float32 | .Float64 => .float 0
  | .String => .str ""
  | _ => .other 0

/-- The zero value of a type: what `reflect.New(t)` points to. -/
def zero : GoType → Value
  | .basic info => .other info (zeroVal info.kind)
  | .ptr elem => .nilPtr elem
  | .map name key elem => .map name key elem true []
  | .struct name fields => .struct name (fields.map fun d => ⟨d, zeroVal d.Typ.kind⟩)
  | .iface name => .nilIface name

/-- The errors the package returns. `errorString` is the error made by
`fmt.Errorf`. `InvalidUnmarshalError.Type` is an interface and may be nil. -/
inductive GoError
  | InvalidIndirectError (typ : GoType)
  | InvalidUnmarshalError (typ : Option GoType)
  | UnmarshalTypeError (Name Value : String) (typ : TypeInfo)
  | errorString (msg : String)
  deriving DecidableEq, Repr

/-- Go: the `Error()` methods. -/
def GoError.Error : GoError → String
  | .InvalidIndirectError typ =>
    if typ.Kind ≠ .Struct ∧ typ.Kind ≠ .Map then
      "env: cannot unmarshal to the type " ++ kindString typ.Kind
    else "env: destination map is not in the format map[string]string"
  | .InvalidUnmarshalError none => "env: Unmarshal(nil)"
  | .InvalidUnmarshalError (some typ) =>
    if typ.Kind ≠ .Ptr then "env: Unmarshal(non-pointer " ++ typeString typ ++ ")"
    else "env: Unmarshal(nil-pointer)"
  | .UnmarshalTypeError Name Value typ =>
    "env: cannot unmarshal " ++ Name ++ "'s " ++ Value ++ " into type " ++ typ.name
  | .errorString msg => msg

/-- How a call ends: it returns an error value (`none` is `nil`) or it
panics. `diverged` stands for a loop that does not end. -/
inductive Outcome
  | returned (err : Option GoError)
  | panicked (msg : String)
  | diverged
  deriving DecidableEq, Repr

/-! ## The environment and the platform -/

/-- The process environment: the value of each variable that is set. -/
abbrev Environ := String → Option String

/-- Go: `os.Getenv(key)`: the value, or `""` when the variable is not set. -/
def Getenv (env : Environ) (key : String) : String := (env key).getD ""

/-- What the program takes from the platform: the width of `int`
(`strconv.IntSize`) and `strconv.ParseFloat`, which answers the bit pattern
of the parsed number, `none` for an error. The theorems below hold whatever
`ParseFloat` answers; the worked inputs run on `platform64`. -/
structure Platform where
  IntSize : Nat
  ParseFloat : String → Nat → Option Nat

/-! ## `unmarshalStruct` -/

/-- Go: `frv.SetInt(i)` on a field `bits` wide: the stored value is `i`
truncated to the field's size. -/
def truncInt (bits : Nat) (i : Int) : Int :=
  (i + 2 ^ (bits - 1)) % 2 ^ bits - 2 ^ (bits - 1)

/-- Go: `frv.SetUint(u)` on a field `bits` wide. -/
def truncUint (bits : Nat) (u : Nat) : Nat := u % 2 ^ bits

/-- What one pass through the body of the field loop does: go on to the next
field without assigning (`continue`), assign and go on, or return an error. -/
inductive FieldStep
  | next
  | assign (v : FieldVal)
  | fail (err : GoError)
  deriving DecidableEq, Repr

/-- The lookup key of a field:
`map[bool]string{true: opts.alias, false: f.Name}[opts.alias != ""]`. -/
def lookupKey (f : Field) : String :=
  if (parseTag f.decl.Tag).aliasName ≠ "" then (parseTag f.decl.Tag).aliasName
  else f.decl.Name

/-- The `switch frt.Kind()` of `unmarshalStruct`, for the variable `name`
with the non-empty value `value`. -/
def convert (pf : Platform) (name value : String) (frt : TypeInfo) : FieldStep :=
  match frt.kind with
  | .Int | .Int8 | .Int16 | .Int32 | .Int64 =>
    let r := ParseInt pf.IntSize value (frt.kind.Bits pf.IntSize)
    if r.2 ≠ none then .fail (.UnmarshalTypeError name value frt)
    else .assign (.int (truncInt (frt.kind.Bits pf.IntSize) r.1))
  | .Uint | .Uint8 | .Uint16 | .Uint32 | .Uint64 =>
    let r := ParseUint pf.IntSize value (frt.kind.Bits pf.IntSize)
    if r.2 ≠ none then .fail (.UnmarshalTypeError name value frt)
    else .assign (.uint (truncUint (frt.kind.Bits pf.IntSize) r.1))
  | .Float32 | .Float64 =>
    match pf.ParseFloat value (frt.kind.Bits pf.IntSize) with
    | none => .fail (.UnmarshalTypeError name value frt)
    | some x => .assign (.float x)
  | .String => .assign (.str value)
  | _ => .fail (.UnmarshalTypeError name value frt)

/-- The body of the field loop of `unmarshalStruct`, for one field. -/
def unmarshalField (pf : Platform) (env : Environ) (f : Field) : FieldStep :=
  if f.CanSet = false then .next
  else
    let opts := parseTag f.decl.Tag
    if opts.ignored then .next
    else
      let name := lookupKey f
      let value := Getenv env name
      if value = "" then
        if opts.omitEmpty = false then
          .fail (.errorString ("env: environment variable " ++ name ++ " is not set"))
        else .next
      else convert pf name value f.decl.Typ

/-- The field loop of `unmarshalStruct` over the fields in declared order:
the fields afterwards and the error returned (`none` is `nil`). -/
def unmarshalFields (pf : Platform) (env : Environ) : List Field → List Field × Option GoError
  | [] => ([], none)
  | f :: fs =>
    match unmarshalField pf env f with
    | .fail err => (f :: fs, some err)
    | .next =>
      let r := unmarshalFields pf env fs
      (f :: r.1, r.2)
    | .assign v =>
      let r := unmarshalFields pf env fs
      (⟨f.decl, v⟩ :: r.1, r.2)

/-- Go: `unmarshalStruct(rv)`: the value afterwards and how the call ends.
`rv.NumField()` panics on a value that is not a structure. -/
def unmarshalStruct (pf : Platform) (env : Environ) (rv : Value) : Value × Outcome :=
  match rv with
  | .struct name fields =>
    let r := unmarshalFields pf env fields
    (.struct name r.1, .returned r.2)
  | _ => (rv, .panicked "reflect: call of reflect.Value.NumField on non-struct Value")

/-! ## `unmarshalMap` -/

/-- The predeclared type `string`. -/
def stringType : TypeInfo := ⟨"string", .String⟩

/-- Go: `rv.MapIndex(key)` on the entries of a map. -/
def MapIndex : List (String × String) → String → Option String
  | [], _ => none
  | (k, v) :: m, key => if k = key then some v else MapIndex m key

/-- Go: `rv.SetMapIndex(key, elem)` on the entries of a map. -/
def SetMapIndex : List (String × String) → String → String → List (String × String)
  | [], key, elem => [(key, elem)]
  | (k, v) :: m, key, elem =>
    if k = key then (key, elem) :: m else (k, v) :: SetMapIndex m key elem

/-- The loop of `unmarshalMap` over the keys `rv.MapKeys()` returned. The
type assertion `key.Interface().(string)` panics unless the key type is
`string` itself, and `SetMapIndex` panics unless a `string` is assignable to
the element type, that is (the element kind being `String`) unless the
element type is `string` itself. -/
def unmarshalMapLoop (env : Environ) (key elem : TypeInfo) :
    List String → List (String × String) → List (String × String) × Outcome
  | [], m => (m, .returned none)
  | k :: ks, m =>
    if key ≠ stringType then
      (m, .panicked ("interface conversion: interface \x7b\x7d is " ++ key.name ++ ", not string"))
    else if elem ≠ stringType then
      (m, .panicked ("reflect.Value.SetMapIndex: value of type string is not assignable to type "
        ++ elem.name))
    else unmarshalMapLoop env key elem ks (SetMapIndex m k (Getenv env k))

/-- Go: `rv.MapKeys()`. Go leaves the order unspecified; the order of the
entry list stands for it, so that ranging over all entry lists ranges over
all orders. -/
def MapKeys (m : List (String × String)) : List String := m.map Prod.fst

/-- Go: `unmarshalMap(rv)`. -/
def unmarshalMap (env : Environ) (rv : Value) : Value × Outcome :=
  match rv with
  | .map name key elem isNil entries =>
    let r := unmarshalMapLoop env key elem (MapKeys entries) entries
    (.map name key elem isNil r.1, r.2)
  | _ => (rv, .panicked "reflect: call of reflect.Value.MapKeys on non-map Value")

/-! ## `indirect` and `Unmarshal` -/

/-- One step down from a value to the value `indirect` moves to: through a
pointer (`rv = rv.Elem()`), or through a pointer boxed in the interface
`name` (`rv = e.Elem()`). -/
inductive Frame
  | deref
  | unbox (name : String)
  deriving DecidableEq, Repr

/-- The caller's value rebuilt around the value `indirect` resolved to; the
frames are listed innermost first. -/
def plug : List Frame → Value → Value
  | [], v => v
  | .deref :: fs, v => plug fs (.ptr v)
  | .unbox name :: fs, v => plug fs (.iface name (.ptr v))

/-- The first `if` of the loop of `indirect`: unwrap an interface holding a
non-nil pointer. -/
def unwrapIface (fs : List Frame) (rv : Value) : List Frame × Value :=
  match rv with
  | .iface name (.ptr target) => (.unbox name :: fs, target)
  | _ => (fs, rv)

/-- The second `if` of the loop of `indirect`: a nil map gets a fresh map. -/
def makeMapIfNil (rv : Value) : Value :=
  match rv with
  | .map name key elem true _ => .map name key elem false []
  | _ => rv

/-- The loop of `indirect`, at most `fuel` iterations: the frames passed
and the value the loop exits on, `none` when the iterations run out. -/
def indirectLoop : Nat → List Frame → Value → Option (List Frame × Value)
  | 0, _, _ => none
  | fuel + 1, fs, rv =>
    let s := unwrapIface fs rv
    match makeMapIfNil s.2 with
    | .nilPtr elem => indirectLoop fuel (.deref :: s.1) (zero elem)
    | .ptr target => indirectLoop fuel (.deref :: s.1) target
    | rv1 => some (s.1, rv1)

/-- The checks of `indirect` after its loop. -/
def indirectCheck (rv : Value) : Option GoError :=
  if rv.Kind ≠ .Struct ∧ rv.Kind ≠ .Map then some (.InvalidIndirectError (typeOf rv))
  else
    match rv with
    | .map _ key elem _ _ =>
      if key.kind ≠ .String ∨ elem.kind ≠ .String then some (.InvalidIndirectError (typeOf rv))
      else none
    | _ => none

/-- Number of indirections below a type: the pointers a zero value of the
type makes `indirect` allocate. -/
def typeDepth : GoType → Nat
  | .ptr elem => typeDepth elem + 1
  | _ => 0

/-- Number of indirections below a value. -/
def depth : Value → Nat
  | .nilPtr elem => typeDepth elem + 1
  | .ptr target => depth target + 1
  | .iface _ dyn => depth dyn
  | _ => 0

/-- Go: `indirect(rv)`: the frames passed, the value resolved to, and the
error (`none` is `nil`); the outer `none` stands for a loop that has not
ended after `depth rv + 1` iterations. -/
def indirect (rv : Value) : Option (List Frame × Value × Option GoError) :=
  match indirectLoop (depth rv + 1) [] rv with
  | none => none
  | some (fs, rv1) => some (fs, rv1, indirectCheck rv1)

/-- The type `reflect.Value`, a structure of unexported fields: what
`reflect.TypeOf(rv)` answers for `rv` of type `reflect.Value`. -/
def reflectValueType : GoType :=
  .struct "reflect.Value"
    [⟨"typ", ⟨"*reflect.rtype", .Ptr⟩, "", false⟩,
     ⟨"ptr", ⟨"unsafe.Pointer", .UnsafePointer⟩, "", false⟩,
     ⟨"flag", ⟨"reflect.flag", .Uintptr⟩, "", false⟩]

/-- Go: `Unmarshal(v)`. The argument is `none` for an untyped `nil`; the
answer is the argument afterwards and how the call ends. -/
def Unmarshal (pf : Platform) (env : Environ) (v : Option Value) : Option Value × Outcome :=
  match v with
  | some (.ptr target) =>
    match indirect (.ptr target) with
    | none => (v, .diverged)
    | some (fs, rv, some err) => (some (plug fs rv), .returned (some err))
    | some (fs, rv, none) =>
      if rv.Kind = .Struct then
        let r := unmarshalStruct pf env rv
        (some (plug fs r.1), r.2)
      else
        let r := unmarshalMap env rv
        (some (plug fs r.1), r.2)
  | _ => (v, .returned (some (.InvalidUnmarshalError (some reflectValueType))))

/-! ## Decimal numerals, as the specification words them -/

/-- A decimal digit, `'0'` to `'9'`. -/
def isDecimalDigit (c : Char) : Bool := decide (48 ≤ c.toNat ∧ c.toNat ≤ 57)

/-- The number a list of decimal digits denotes. -/
def decimalValue (ds : List Char) : Nat := ds.foldl (fun n c => 10 * n + (c.toNat - 48)) 0

/-- The number `s` denotes when `s` is one or more decimal digits and
nothing else. -/
def unsignedDecimal (s : String) : Option Nat :=
  if s.data ≠ [] ∧ s.data.all isDecimalDigit = true then some (decimalValue s.data) else none

/-- The integer `s` denotes when `s` is an optional `'+'` or `'-'` followed
by one or more decimal digits. -/
def signedDecimal (s : String) : Option Int :=
  match s.data with
  | [] => none
  | c :: ds =>
    if c = '+' then (unsignedDecimal (String.mk ds)).map fun n => (n : Int)
    else if c = '-' then (unsignedDecimal (String.mk ds)).map fun n => -(n : Int)
    else (unsignedDecimal s).map fun n => (n : Int)

/-- The value the specification gives a signed integer field `w` bits wide
for the text `s`: the integer `s` denotes, when `s` is a signed decimal
numeral and the integer lies between `-2^(w-1)` and `2^(w-1) - 1`. -/
def specSigned (w : Nat) (s : String) : Option Int :=
  match signedDecimal s with
  | some n => if -(2 ^ (w - 1) : Int) ≤ n ∧ n ≤ 2 ^ (w - 1) - 1 then some n else none
  | none => none

/-- The value the specification gives an unsigned integer field `w` bits
wide for the text `s`: the number `s` denotes, when `s` is an unsigned
decimal numeral and the number is at most `2^w - 1`. -/
def specUnsigned (w : Nat) (s : String) : Option Nat :=
  match unsignedDecimal s with
  | some n => if n ≤ 2 ^ w - 1 then some n else none
  | none => none

/-! ## Worked inputs -/

/-- A 64-bit platform, with the `ParseFloat` of `strconv`. -/
def platform64 : Platform := ⟨64, ParseFloat⟩

/-- The environment in which exactly the listed variables are set. -/
def environOf (vars : List (String × String)) : Environ := fun key => MapIndex vars key

/-- An exported field. -/
def exportedField (name : String) (typ : TypeInfo) (tag : String) (val : FieldVal) : Field :=
  ⟨⟨name, typ, tag, true⟩, val⟩

/-! ## Well-formed values, and the loop of `indirect` step by step -/

/-- The kinds whose values have a constructor of their own in `Value`. -/
def isComposite : Kind → Bool
  | .Ptr | .Map | .Struct | .Interface => true
  | _ => false

/-- A well-formed type: a `basic` type is of none of the kinds that `GoType`
takes apart. -/
def GoType.WF : GoType → Bool
  | .basic info => !isComposite info.kind
  | .ptr elem => elem.WF
  | _ => true

/-- A well-formed value: an `other` value is of none of the kinds that
`Value` takes apart, here and below every pointer. -/
def Value.WF : Value → Bool
  | .other t _ => !isComposite t.kind
  | .nilPtr elem => elem.WF
  | .ptr target => target.WF
  | .iface _ dyn => dyn.WF
  | _ => true

/-- The specification's condition on the resolved value: a structure, or a
map whose key kind and element kind are both string. -/
def acceptable : Value → Bool
  | .struct _ _ => true
  | .map _ key elem _ _ => decide (key.kind = .String ∧ elem.kind = .String)
  | _ => false

/-- The value the loop of `indirect` goes on with after one iteration on
`rv`; `none` when the iteration leaves the loop. -/
def indirectNext (rv : Value) : Option Value :=
  match makeMapIfNil (unwrapIface [] rv).2 with
  | .nilPtr elem => some (zero elem)
  | .ptr target => some target
  | _ => none

/-- A value the loop of `indirect` leaves as it is and exits on when it is
accepted: a structure or a map that is not nil. -/
def isResolved : Value → Bool
  | .struct _ _ => true
  | .map _ _ _ false _ => true
  | _ => false

/-- The loop of `indirect` from the second `if` of an iteration on: the rest
of the iteration on `rv`, then at most `fuel` further iterations. -/
def indirectTail (fuel : Nat) (fs : List Frame) (rv : Value) : Option (List Frame × Value) :=
  match makeMapIfNil rv with
  | .nilPtr elem => indirectLoop fuel (.deref :: fs) (zero elem)
  | .ptr target => indirectLoop fuel (.deref :: fs) target
  | rv1 => some (fs, rv1)

/-- A resolved value that is a structure or a string-to-string map: a
structure, or a map whose key type and element type are `string` itself. -/
def isBindable : Value → Bool
  | .struct _ _ => true
  | .map _ key elem _ _ => decide (key = stringType ∧ elem = stringType)
  | _ => false

/-! ## `indirect` over addressed memory -/

/-- A Go value as it lies in memory. A pointer holds the address of its
target and a map holds a reference to its table (`none` is nil), so that two
values may reach one target and a store through one is seen through the
other. An interface holds its dynamic value. -/
inductive Cell
  | other (t : TypeInfo) (v : FieldVal)
  | ptr (elem : GoType) (addr : Option Nat)
  | nilIface (name : String)
  | iface (name : String) (dyn : Cell)
  | map (name : String) (key elem : TypeInfo) (table : Option Nat)
  | struct (name : String) (fields : List Field)
  deriving DecidableEq, Repr

/-- The memory of the program: the variables, each at the address that is its
index, and the tables of the maps, each under the reference that is its
index. -/
structure Memory where
  cells : List Cell
  tables : List (List (String × String))
  deriving DecidableEq, Repr

/-- A `reflect.Value`: a value of its own, which is not addressable
(`reflect.ValueOf(x)`, the dynamic value of an interface), or the variable at
an address (`Elem()` of a pointer), which is addressable and settable. -/
inductive Ref
  | value (c : Cell)
  | loc (addr : Nat)
  deriving DecidableEq, Repr

/-- Go: `rv.Type()`, for the value `rv` holds. -/
def Cell.Typ : Cell → GoType
  | .other t _ => .basic t
  | .ptr elem _ => .ptr elem
  | .nilIface name => .iface name
  | .iface name _ => .iface name
  | .map name key elem _ => .map name key elem
  | .struct name fields => .struct name (fields.map Field.decl)

/-- The zero value of a type in memory: what `reflect.New(t)` points to. -/
def zeroCell : GoType → Cell
  | .basic info => .other info (zeroVal info.kind)
  | .ptr elem => .ptr elem none
  | .map name key elem => .map name key elem none
  | .struct name fields => .struct name (fields.map fun d => ⟨d, zeroVal d.Typ.kind⟩)
  | .iface name => .nilIface name

/-- The value a `reflect.Value` holds; `none` for an address outside the
memory, which no Go value has. -/
def Memory.load (h : Memory) : Ref → Option Cell
  | .value c => some c
  | .loc addr => h.cells[addr]?

/-- Go: `rv.Set(x)`: `x` is stored in the variable `rv` stands for; `none`
when `rv` is not addressable, where `Set` panics. -/
def Memory.Set (h : Memory) (rv : Ref) (x : Cell) : Option Memory :=
  match rv with
  | .value _ => none
  | .loc addr => if addr < h.cells.length then some ⟨h.cells.set addr x, h.tables⟩ else none

/-- Go: `reflect.New(t)`: a fresh variable holding the zero value of `t`, and
the pointer to it. -/
def Memory.New (h : Memory) (t : GoType) : Memory × Cell :=
  (⟨h.cells ++ [zeroCell t], h.tables⟩, .ptr t (some h.cells.length))

/-- Go: `reflect.MakeMap(t)`: a fresh empty table, and the map that refers to
it. -/
def Memory.MakeMap (h : Memory) (name : String) (key elem : TypeInfo) : Memory × Cell :=
  (⟨h.cells, h.tables ++ [[]]⟩, .map name key elem (some h.tables.length))

/-- How a call of `indirect` ends over addressed memory: it returns, leaving
the memory `h`, the value `rv` (`none` is `reflect.Value\x7b\x7d`) and the
error (`none` is `nil`); or it panics; `diverged` stands for a loop that does
not end, `fault` for a read at an address outside the memory. -/
inductive Resolution
  | returned (h : Memory) (rv : Option Ref) (err : Option GoError)
  | panicked (msg : String)
  | diverged
  | fault
  deriving DecidableEq, Repr

/-- The first `if` of the loop of `indirect` over addressed memory: for an
interface holding a non-nil pointer, `rv = e.Elem()`, the variable the pointer
points to. -/
def Memory.unwrapIface (h : Memory) (rv : Ref) : Ref :=
  match h.load rv with
  | some (.iface _ (.ptr _ (some p))) => .loc p
  | _ => rv

/-- The second `if` of the loop of `indirect` over addressed memory:
`rv.Set(reflect.MakeMap(rv.Type()))` for a nil map; `none` when `Set`
panics. -/
def Memory.makeMapIfNil (h : Memory) (rv : Ref) : Option Memory :=
  match h.load rv with
  | some (.map name key elem none) =>
    let m := h.MakeMap name key elem
    m.1.Set rv m.2
  | _ => some h

/-- The fourth `if` of the loop of `indirect` over addressed memory:
`rv.Set(reflect.New(rv.Type().Elem()))` for a nil pointer; `none` when `Set`
panics. -/
def Memory.newIfNil (h : Memory) (rv : Ref) : Option Memory :=
  match h.load rv with
  | some (.ptr elem none) =>
    let n := h.New elem
    n.1.Set rv n.2
  | _ => some h

/-- The checks of `indirect` after its loop, on the value the loop exits
on. -/
def cellCheck (c : Cell) : Option GoError :=
  if c.Typ.Kind ≠ .Struct ∧ c.Typ.Kind ≠ .Map then some (.InvalidIndirectError c.Typ)
  else
    match c with
    | .map _ key elem _ =>
      if key.kind ≠ .String ∨ elem.kind ≠ .String then some (.InvalidIndirectError c.Typ)
      else none
    | _ => none

/-- Go: `indirect(rv)` over addressed memory, its loop run for at most `fuel`
iterations. -/
def indirectAt : Nat → Memory → Ref → Resolution
  | 0, _, _ => .diverged
  | fuel + 1, h, rv =>
    let rv1 := h.unwrapIface rv
    match h.makeMapIfNil rv1 with
    | none => .panicked "reflect: reflect.Value.Set using unaddressable value"
    | some h1 =>
      match h1.load rv1 with
      | none => .fault
      | some (.ptr _ _) =>
        match h1.newIfNil rv1 with
        | none => .panicked "reflect: reflect.Value.Set using unaddressable value"
        | some h2 =>
          match h2.load rv1 with
          | some (.ptr _ (some p)) => indirectAt fuel h2 (.loc p)
          | _ => .fault
      | some c =>
        match cellCheck c with
        | some err => .returned h1 none (some err)
        | none => .returned h1 (some rv1) none

/-- Go: `m, ok := rv.Interface().(map[string]string)`: the map `rv` holds, as
the reference to its table, when the type of `rv` is `map[string]string`;
`none` when the assertion fails. -/
def Memory.assertStringMap (h : Memory) (rv : Ref) : Option (Option Nat) :=
  match h.load rv with
  | some (.map name key elem table) =>
    if name = "map[string]string" ∧ key = stringType ∧ elem = stringType then some table
    else none
  | _ => none

/-- Go: `m[key] = val` for a map `m` given by the reference to its table;
`none` for a nil map, where the assignment panics. -/
def Memory.mapAssign (h : Memory) (m : Option Nat) (key val : String) : Option Memory :=
  match m with
  | none => none
  | some r =>
    match h.tables[r]? with
    | none => none
    | some entries => some ⟨h.cells, h.tables.set r (SetMapIndex entries key val)⟩

/-- Go: `*p`: the value of the variable `p` points to; `none` for a nil
pointer, where the dereference panics. -/
def Memory.star (h : Memory) (p : Cell) : Option Cell :=
  match p with
  | .ptr _ (some addr) => h.cells[addr]?
  | _ => none

/-- Go: `v, ok := m[key]`: the entry of the map `m` under `key`; a nil map
has no entry. -/
def Memory.index (h : Memory) (m : Cell) (key : String) : Option String :=
  match m with
  | .map _ _ _ (some r) =>
    match h.tables[r]? with
    | some entries => MapIndex entries key
    | none => none
  | _ => none

/-- Go: `(**a)[key]` for the variable `a` at the address `addr`. -/
def Memory.indexThrough (h : Memory) (addr : Nat) (key : String) : Option String :=
  match h.cells[addr]? with
  | none => none
  | some a =>
    match h.star a with
    | none => none
    | some a1 =>
      match h.star a1 with
      | none => none
      | some a2 => h.index a2 key

/-- The value in memory read as a value that owns its targets, following at
most `fuel` pointers and interfaces. -/
def Memory.toValue (h : Memory) : Nat → Cell → Option Value
  | _, .other t v => some (.other t v)
  | _, .ptr elem none => some (.nilPtr elem)
  | 0, .ptr _ (some _) => none
  | fuel + 1, .ptr _ (some p) =>
    match h.cells[p]? with
    | none => none
    | some c => (h.toValue fuel c).map Value.ptr
  | _, .nilIface name => some (.nilIface name)
  | 0, .iface _ _ => none
  | fuel + 1, .iface name dyn => (h.toValue fuel dyn).map (Value.iface name)
  | _, .map name key elem none => some (.map name key elem true [])
  | _, .map name key elem (some r) => (h.tables[r]?).map (Value.map name key elem false)
  | _, .struct name fields => some (.struct name fields)

/-- Go: `a := (**map[string]string)(nil)` of `TestIndirect`: the memory that
holds the variable `a` alone, at address `0`. -/
def testIndirectMemory : Memory :=
  ⟨[.ptr (.ptr (.map "map[string]string" stringType stringType)) none], []⟩

/-- Go: `TestIndirect`: the message of the `t.Fatal` the test ends on, `none`
when it passes. -/
def TestIndirect : Option String :=
  match indirectAt 4 testIndirectMemory
      (.value (.ptr (.ptr (.ptr (.map "map[string]string" stringType stringType))) (some 0))) with
  | .returned h (some rv) none =>
    match h.assertStringMap rv with
    | none => some "indirection value is not a map"
    | some m =>
      match h.mapAssign m "foo" "bar" with
      | none => some "panic: assignment to entry in nil map"
      | some h1 =>
        if (h1.indexThrough 0 "foo").getD "" ≠ "bar" then
          some "indirection value is not a settable map"
        else none
  | .returned _ _ (some err) => some err.Error
  | _ => some "panic"

/-! ## Lemmas: number parsing -/

/-- Value of digits from accumulator -/
theorem foldl_dec_ge (ds : List Char) (n : Nat) :
    n ≤ ds.foldl (fun n c => 10 * n + (c.toNat - 48)) n := by
  induction ds generalizing n with
  | nil => simp
  | cons c cs ih =>
    simp only [List.foldl_cons]
    exact le_trans (by omega) (ih _)

theorem digitVal_of_digit (c : Char) (h : isDecimalDigit c = true) :
    digitVal c.toNat = some (c.toNat - 48) ∧ c.toNat - 48 < 10 := by
  simp [isDecimalDigit] at h
  simp [digitVal, h]
  omega

theorem digitVal_of_not_digit (c : Char) (h : isDecimalDigit c = false) :
    digitVal c.toNat = none ∨ ∃ d, digitVal c.toNat = some d ∧ 10 ≤ d := by
  simp [isDecimalDigit] at h
  unfold digitVal
  have h1 : ¬ (48 ≤ c.toNat ∧ c.toNat ≤ 57) := by omega
  rw [if_neg h1]
  split
  · right; exact ⟨_, rfl, by omega⟩
  · left; rfl

theorem parseUintLoop_digits (maxVal : Nat) (hmax : maxVal < 2 ^ 64) (ds : List Char)
    (hd : ds.all isDecimalDigit = true) (n : Nat) (hn : n ≤ maxVal) :
    parseUintLoop maxVal ds n =
      if ds.foldl (fun n c => 10 * n + (c.toNat - 48)) n ≤ maxVal then
        (ds.foldl (fun n c => 10 * n + (c.toNat - 48)) n, none)
      else (maxVal, some .ErrRange) := by
  induction ds generalizing n with
  | nil => simp [parseUintLoop, hn]
  | cons c cs ih =>
    simp only [List.all_cons, Bool.and_eq_true] at hd
    obtain ⟨hv, hlt⟩ := digitVal_of_digit c hd.1
    have hge := foldl_dec_ge cs (10 * n + (c.toNat - 48))
    simp only [parseUintLoop, hv, List.foldl_cons]
    rw [if_neg (by omega)]
    by_cases hc : n ≥ cutoff10
    · rw [if_pos hc]
      have : cutoff10 = 1844674407370955162 := by decide
      rw [if_neg (by omega)]
    · rw [if_neg hc]
      have hcut : cutoff10 = 1844674407370955162 := by decide
      have h10 : n * 10 % 2 ^ 64 = n * 10 := Nat.mod_eq_of_lt (by omega)
      simp only [h10]
      by_cases hov : n * 10 + (c.toNat - 48) < 2 ^ 64
      · have h1 : (n * 10 + (c.toNat - 48)) % 2 ^ 64 = n * 10 + (c.toNat - 48) :=
          Nat.mod_eq_of_lt hov
        simp only [h1]
        by_cases hm : n * 10 + (c.toNat - 48) > maxVal
        · rw [if_pos (Or.inr hm), if_neg (by omega)]
        · have hcomm : 10 * n + (c.toNat - 48) = n * 10 + (c.toNat - 48) := by omega
          rw [if_neg (by omega), ih hd.2 (n * 10 + (c.toNat - 48)) (by omega), hcomm]
      · have h1 : (n * 10 + (c.toNat - 48)) % 2 ^ 64 < n * 10 := by omega
        rw [if_pos (Or.inl h1), if_neg (by omega)]

theorem parseUintLoop_not_digits (maxVal : Nat) (ds : List Char)
    (hd : ds.all isDecimalDigit = false) (n : Nat) :
    (parseUintLoop maxVal ds n).2 = some .ErrSyntax ∨
    parseUintLoop maxVal ds n = (maxVal, some .ErrRange) := by
  induction ds generalizing n with
  | nil => simp at hd
  | cons c cs ih =>
    by_cases hc : isDecimalDigit c = true
    · have hcs : cs.all isDecimalDigit = false := by
        simpa [List.all_cons, hc] using hd
      obtain ⟨hv, hlt⟩ := digitVal_of_digit c hc
      simp only [parseUintLoop, hv]
      rw [if_neg (by omega)]
      split
      · right; rfl
      · split
        · right; rfl
        · exact ih hcs _
    · simp only [Bool.not_eq_true] at hc
      rcases digitVal_of_not_digit c hc with h | ⟨d, h, hd10⟩
      · left; simp [parseUintLoop, h]
      · left; simp [parseUintLoop, h, hd10]

theorem string_eq_empty_iff (s : String) : s = "" ↔ s.data = [] := by
  constructor
  · intro h; subst h; rfl
  · intro h
    cases s with
    | mk ds => simp only at h; subst h; rfl

theorem maxVal_eq (w : Nat) (hw1 : 1 ≤ w) (hw : w ≤ 64) :
    ((2 ^ w) % 2 ^ 64 + 2 ^ 64 - 1) % 2 ^ 64 = 2 ^ w - 1 := by
  have hpos : 0 < 2 ^ w := Nat.pow_pos (by decide)
  rcases Nat.lt_or_ge w 64 with h | h
  · have hlt : 2 ^ w < 2 ^ 64 := Nat.pow_lt_pow_right (by decide) h
    generalize 2 ^ w = x at *
    omega
  · have : w = 64 := by omega
    subst this
    decide

/-- What `ParseUint` answers, by the shape of its argument. -/
theorem ParseUint_cases (intSize : Nat) (s : String) (w : Nat) (hw1 : 1 ≤ w) (hw : w ≤ 64) :
    (∃ n, unsignedDecimal s = some n ∧ n ≤ 2 ^ w - 1 ∧ ParseUint intSize s w = (n, none)) ∨
    (unsignedDecimal s = none ∧ (ParseUint intSize s w).2 = some .ErrSyntax) ∨
    ((∀ n, unsignedDecimal s = some n → 2 ^ w - 1 < n) ∧
      ParseUint intSize s w = (2 ^ w - 1, some .ErrRange)) := by
  have hpos : 0 < 2 ^ w := Nat.pow_pos (by decide)
  have hle : 2 ^ w ≤ 2 ^ 64 := Nat.pow_le_pow_right (by decide) hw
  by_cases he : s = ""
  · right; left
    have hd := (string_eq_empty_iff s).1 he
    simp [unsignedDecimal, ParseUint, he]
  · have hd : s.data ≠ [] := fun h => he ((string_eq_empty_iff s).2 h)
    have hw0 : ¬ w = 0 := by omega
    have hw64 : ¬ w > 64 := by omega
    simp only [ParseUint, if_neg he, if_neg hw0, if_neg hw64, maxVal_eq w hw1 hw]
    by_cases hall : s.data.all isDecimalDigit = true
    · have hu : unsignedDecimal s = some (decimalValue s.data) := by
        simp only [unsignedDecimal]
        rw [if_pos ⟨hd, hall⟩]
      rw [parseUintLoop_digits _ (by omega) _ hall 0 (Nat.zero_le _)]
      by_cases hr : decimalValue s.data ≤ 2 ^ w - 1
      · left
        refine ⟨_, hu, hr, ?_⟩
        exact if_pos hr
      · right; right
        refine ⟨?_, ?_⟩
        · intro n hn
          rw [hu] at hn
          injection hn with hn
          omega
        · exact if_neg hr
    · simp only [Bool.not_eq_true] at hall
      have hu : unsignedDecimal s = none := by
        simp only [unsignedDecimal]
        rw [if_neg]
        simp [hall]
      rcases parseUintLoop_not_digits (2 ^ w - 1) s.data hall 0 with h | h
      · right; left; exact ⟨hu, h⟩
      · right; right
        refine ⟨?_, h⟩
        intro n hn; rw [hu] at hn; cases hn

theorem wrapInt64_of_range (z : Int) (h1 : -2 ^ 63 ≤ z) (h2 : z < 2 ^ 63) : wrapInt64 z = z := by
  unfold wrapInt64
  omega

theorem half_pow (w : Nat) (hw2 : 2 ≤ w) (hw : w ≤ 64) :
    2 ^ w = 2 * 2 ^ (w - 1) ∧ 2 ≤ 2 ^ (w - 1) ∧ 2 ^ (w - 1) ≤ 2 ^ 63 := by
  refine ⟨?_, ?_, ?_⟩
  · have : w = (w - 1) + 1 := by omega
    conv_lhs => rw [this, Nat.pow_succ]
    omega
  · calc 2 = 2 ^ 1 := by norm_num
      _ ≤ 2 ^ (w - 1) := Nat.pow_le_pow_right (by decide) (by omega)
  · exact Nat.pow_le_pow_right (by decide) (by omega)

/-- The part of `ParseInt` after the call of `ParseUint`, when the digits
denote `u`. -/
theorem parseInt_tail (w : Nat) (hw2 : 2 ≤ w) (hw : w ≤ 64) (neg : Bool) (r : Nat × Option NumErr)
    (u : Nat)
    (hr : (u ≤ 2 ^ w - 1 ∧ r = (u, none)) ∨ (2 ^ w - 1 < u ∧ r = (2 ^ w - 1, some .ErrRange)))
    (z : Int) (hz : z = if neg = true then -(u : Int) else (u : Int))
    (out : Int × Option NumErr)
    (hout : out =
      if r.2 ≠ none ∧ r.2 ≠ some .ErrRange then (0, r.2)
      else
        if neg = false ∧ r.1 ≥ (2 ^ (w - 1)) % 2 ^ 64 then
          ((((2 ^ (w - 1)) % 2 ^ 64 : Nat) : Int) - 1, some .ErrRange)
        else if neg = true ∧ r.1 > (2 ^ (w - 1)) % 2 ^ 64 then
          (wrapInt64 (-(((2 ^ (w - 1)) % 2 ^ 64 : Nat) : Int)), some .ErrRange)
        else
          (if neg = true then wrapInt64 (-(wrapInt64 r.1)) else wrapInt64 r.1, none)) :
    (-(2 ^ (w - 1) : Int) ≤ z ∧ z ≤ 2 ^ (w - 1) - 1 ∧ out = (z, none)) ∨
    (¬ (-(2 ^ (w - 1) : Int) ≤ z ∧ z ≤ 2 ^ (w - 1) - 1) ∧ out.2 ≠ none) := by
  obtain ⟨h2w, hP2, hP63⟩ := half_pow w hw2 hw
  have hmod : (2 ^ (w - 1)) % 2 ^ 64 = 2 ^ (w - 1) := Nat.mod_eq_of_lt (by omega)
  have hcast : ((2 ^ (w - 1) : Nat) : Int) = (2 : Int) ^ (w - 1) := by push_cast; rfl
  rw [hmod] at hout
  rw [← hcast]
  generalize 2 ^ (w - 1) = P at *
  subst hz hout
  rcases hr with ⟨hu, rfl⟩ | ⟨hu, rfl⟩
  · cases neg
    · by_cases hc : u ≥ P
      · right
        refine ⟨by simp; omega, ?_⟩
        simp [hc]
      · left
        have hw' : wrapInt64 (u : Int) = u := wrapInt64_of_range _ (by omega) (by omega)
        refine ⟨by simp; omega, by simp; omega, ?_⟩
        simp [hc, hw']
    · by_cases hc : u > P
      · right
        refine ⟨by simp; omega, ?_⟩
        simp [hc]
      · left
        have hw' : wrapInt64 (-(wrapInt64 (u : Int))) = -(u : Int) := by
          unfold wrapInt64; omega
        refine ⟨by simp; omega, by simp; omega, ?_⟩
        simp [hc, hw']
  · right
    cases neg
    · refine ⟨by simp; omega, ?_⟩
      have : P ≤ 2 ^ w - 1 := by omega
      simp [this]
    · refine ⟨by simp; omega, ?_⟩
      have : P < 2 ^ w - 1 := by omega
      simp [this]

/-- The tail of `ParseInt` as an expression of the sign and the digits. -/
theorem parseInt_body (intSize w : Nat) (hw2 : 2 ≤ w) (hw : w ≤ 64) (neg : Bool)
    (body : List Char) (out : Int × Option NumErr)
    (hout : out =
      if (ParseUint intSize (String.mk body) w).2 ≠ none ∧
          (ParseUint intSize (String.mk body) w).2 ≠ some .ErrRange then
        (0, (ParseUint intSize (String.mk body) w).2)
      else
        if neg = false ∧ (ParseUint intSize (String.mk body) w).1 ≥ (2 ^ (w - 1)) % 2 ^ 64 then
          ((((2 ^ (w - 1)) % 2 ^ 64 : Nat) : Int) - 1, some .ErrRange)
        else if neg = true ∧ (ParseUint intSize (String.mk body) w).1 > (2 ^ (w - 1)) % 2 ^ 64 then
          (wrapInt64 (-(((2 ^ (w - 1)) % 2 ^ 64 : Nat) : Int)), some .ErrRange)
        else
          (if neg = true then wrapInt64 (-(wrapInt64 (ParseUint intSize (String.mk body) w).1))
            else wrapInt64 (ParseUint intSize (String.mk body) w).1, none)) :
    (∃ n, unsignedDecimal (String.mk body) = some n ∧
      -(2 ^ (w - 1) : Int) ≤ (if neg = true then -(n : Int) else (n : Int)) ∧
      (if neg = true then -(n : Int) else (n : Int)) ≤ 2 ^ (w - 1) - 1 ∧
      out = ((if neg = true then -(n : Int) else (n : Int)), none)) ∨
    ((∀ n, unsignedDecimal (String.mk body) = some n →
        ¬ (-(2 ^ (w - 1) : Int) ≤ (if neg = true then -(n : Int) else (n : Int)) ∧
          (if neg = true then -(n : Int) else (n : Int)) ≤ 2 ^ (w - 1) - 1)) ∧
      out.2 ≠ none) := by
  rcases ParseUint_cases intSize (String.mk body) w (by omega) hw with
    ⟨n, hn, hle, hp⟩ | ⟨hn, hp⟩ | ⟨hn, hp⟩
  · rcases parseInt_tail w hw2 hw neg _ n (Or.inl ⟨hle, hp⟩) _ rfl out hout with h | h
    · left; exact ⟨n, hn, h.1, h.2.1, h.2.2⟩
    · right
      refine ⟨?_, h.2⟩
      intro m hm
      rw [hn] at hm
      injection hm with hm
      subst hm
      exact h.1
  · right
    refine ⟨?_, ?_⟩
    · intro m hm; rw [hn] at hm; cases hm
    · rw [hout, hp]; simp
  · right
    cases hu : unsignedDecimal (String.mk body) with
    | none =>
      refine ⟨fun m hm => (by cases hm), ?_⟩
      have hbig : 2 ^ w - 1 < 2 ^ w := by
        have : 0 < 2 ^ w := Nat.pow_pos (by decide)
        omega
      rcases parseInt_tail w hw2 hw neg _ (2 ^ w) (Or.inr ⟨hbig, hp⟩) _ rfl out hout with h | h
      · exfalso
        obtain ⟨h2w, hP2, hP63⟩ := half_pow w hw2 hw
        have hcast : ((2 ^ (w - 1) : Nat) : Int) = (2 : Int) ^ (w - 1) := by push_cast; rfl
        have hcast2 : ((2 ^ w : Nat) : Int) = 2 * ((2 ^ (w - 1) : Nat) : Int) := by
          rw [h2w]; push_cast; rfl
        obtain ⟨h1, h2, -⟩ := h
        rw [← hcast] at h1 h2
        rw [hcast2] at h1 h2
        cases neg <;> (simp at h1 h2; try omega)
      · exact h.2
    | some n =>
      have hlt := hn n hu
      rcases parseInt_tail w hw2 hw neg _ n (Or.inr ⟨hlt, hp⟩) _ rfl out hout with h | h
      · exfalso
        obtain ⟨h2w, hP2, hP63⟩ := half_pow w hw2 hw
        have hcast : ((2 ^ (w - 1) : Nat) : Int) = (2 : Int) ^ (w - 1) := by push_cast; rfl
        obtain ⟨h1, h2, -⟩ := h
        rw [← hcast] at h1 h2
        cases neg <;> (simp at h1 h2; try omega)
      · refine ⟨?_, h.2⟩
        intro m hm
        injection hm with hm
        subst hm
        exact h.1

/-- What `ParseInt` answers: the integer the text denotes when it is a signed
decimal numeral within the range of `w` bits, an error otherwise. -/
theorem ParseInt_cases (intSize : Nat) (s : String) (w : Nat) (hw2 : 2 ≤ w) (hw : w ≤ 64) :
    (∃ z, signedDecimal s = some z ∧ -(2 ^ (w - 1) : Int) ≤ z ∧ z ≤ 2 ^ (w - 1) - 1 ∧
      ParseInt intSize s w = (z, none)) ∨
    ((∀ z, signedDecimal s = some z → ¬ (-(2 ^ (w - 1) : Int) ≤ z ∧ z ≤ 2 ^ (w - 1) - 1)) ∧
      (ParseInt intSize s w).2 ≠ none) := by
  have hw0 : ¬ w = 0 := by omega
  rcases s with ⟨ds⟩
  cases ds with
  | nil => right; simp [signedDecimal, ParseInt]
  | cons c rest =>
    by_cases hplus : c = '+'
    · have hout := parseInt_body intSize w hw2 hw false rest
        (ParseInt intSize (String.mk (c :: rest)) w)
        (by simp [ParseInt, hplus, hw0])
      simp only [signedDecimal, if_pos hplus]
      rcases hout with ⟨n, hn, h1, h2, h3⟩ | ⟨h1, h2⟩
      · left; exact ⟨n, by simp [hn], by simpa using h1, by simpa using h2, by simpa using h3⟩
      · right
        refine ⟨?_, h2⟩
        intro z hz
        cases hu : unsignedDecimal (String.mk rest) with
        | none => simp [hu] at hz
        | some n =>
          simp [hu] at hz
          subst hz
          simpa using h1 n hu
    · by_cases hminus : c = '-'
      · have hout := parseInt_body intSize w hw2 hw true rest
          (ParseInt intSize (String.mk (c :: rest)) w)
          (by simp [ParseInt, hminus, hw0])
        simp only [signedDecimal, if_neg hplus, if_pos hminus]
        rcases hout with ⟨n, hn, h1, h2, h3⟩ | ⟨h1, h2⟩
        · left; exact ⟨-(n : Int), by simp [hn], by simpa using h1, by simpa using h2, by simpa using h3⟩
        · right
          refine ⟨?_, h2⟩
          intro z hz
          cases hu : unsignedDecimal (String.mk rest) with
          | none => simp [hu] at hz
          | some n =>
            simp [hu] at hz
            subst hz
            simpa using h1 n hu
      · have hout := parseInt_body intSize w hw2 hw false (c :: rest)
          (ParseInt intSize (String.mk (c :: rest)) w)
          (by simp [ParseInt, hplus, hminus, hw0])
        simp only [signedDecimal, if_neg hplus, if_neg hminus]
        rcases hout with ⟨n, hn, h1, h2, h3⟩ | ⟨h1, h2⟩
        · left; exact ⟨n, by simp [hn], by simpa using h1, by simpa using h2, by simpa using h3⟩
        · right
          refine ⟨?_, h2⟩
          intro z hz
          cases hu : unsignedDecimal (String.mk (c :: rest)) with
          | none => simp [hu] at hz
          | some n =>
            simp [hu] at hz
            subst hz
            simpa using h1 n hu

/-! ## Lemmas: the field tag -/

theorem Split_ne_nil (sep : Char) (l : List Char) : Split sep l ≠ [] := by
  cases l with
  | nil => simp [Split]
  | cons c cs =>
    simp only [Split]
    split
    · simp
    · split <;> simp

theorem Split_of_not_mem (sep : Char) (seg : List Char) (h : sep ∉ seg) :
    Split sep seg = [seg] := by
  induction seg with
  | nil => rfl
  | cons c cs ih =>
    simp only [List.mem_cons, not_or] at h
    have hc : ¬ c = sep := fun e => h.1 e.symm
    simp [Split, hc, ih h.2]

theorem Split_append_sep (sep : Char) (seg l : List Char) (h : sep ∉ seg) :
    Split sep (seg ++ sep :: l) = seg :: Split sep l := by
  induction seg with
  | nil => simp [Split]
  | cons c cs ih =>
    simp only [List.mem_cons, not_or] at h
    have hc : ¬ c = sep := fun e => h.1 e.symm
    simp [Split, hc, ih h.2]

/-- `Split` answers the comma-separated segments: it undoes joining
separator-free segments with the separator. -/
theorem Split_intercalate (sep : Char) (first : List Char) (rest : List (List Char))
    (h : ∀ seg ∈ first :: rest, sep ∉ seg) :
    Split sep ([sep].intercalate (first :: rest)) = first :: rest := by
  induction rest generalizing first with
  | nil =>
    have e : [sep].intercalate [first] = first := by simp [List.intercalate, List.intersperse]
    rw [e]
    exact Split_of_not_mem sep first (h first (List.mem_cons_self _ _))
  | cons r rs ih =>
    have hfirst : sep ∉ first := h first (List.mem_cons_self _ _)
    have hrest : ∀ seg ∈ r :: rs, sep ∉ seg := fun seg hs => h seg (List.mem_cons_of_mem _ hs)
    have e : [sep].intercalate (first :: r :: rs) = first ++ sep :: [sep].intercalate (r :: rs) := by
      simp [List.intercalate, List.intersperse]
    rw [e, Split_append_sep sep first _ hfirst, ih r hrest]

theorem parseTagLoop_succ (k : Nat) (vs : List (List Char)) (opts : tagOpts) :
    parseTagLoop (k + 1) vs opts =
      ⟨opts.ignored, opts.omitEmpty || decide ("omitempty".data ∈ vs), opts.aliasName⟩ := by
  induction vs generalizing k opts with
  | nil => simp [parseTagLoop]
  | cons v vs ih =>
    simp only [parseTagLoop, Nat.add_one_ne_zero, if_false]
    by_cases h : String.mk v = "omitempty"
    · rw [if_pos h, ih]
      have hv : v = "omitempty".data := by rw [← h]
      subst hv
      simp only [List.mem_cons, true_or, decide_True, Bool.or_true, Bool.true_or]
    · rw [if_neg h, ih]
      have hne : ¬ "omitempty".data = v := fun e => h (by rw [← e])
      simp only [List.mem_cons, hne, false_or]

theorem parseTag_segments (s : String) (h1 : s ≠ "") (h2 : s ≠ "-") (first : List Char)
    (rest : List (List Char)) (hseg : ∀ seg ∈ first :: rest, ',' ∉ seg)
    (hs : s.data = [','].intercalate (first :: rest)) :
    parseTag s = ⟨false, decide ("omitempty".data ∈ rest), String.mk first⟩ := by
  simp only [parseTag, if_neg h1, if_neg h2, hs, Split_intercalate ',' first rest hseg]
  simp [parseTagLoop, parseTagLoop_succ]

theorem takeWhile_intercalate (sep : Char) (first : List Char) (rest : List (List Char))
    (h : sep ∉ first) :
    ([sep].intercalate (first :: rest)).takeWhile (fun c => decide (c ≠ sep)) = first := by
  have key : ∀ (seg l : List Char), sep ∉ seg →
      (seg ++ l).takeWhile (fun c => decide (c ≠ sep)) =
        seg ++ l.takeWhile (fun c => decide (c ≠ sep)) := by
    intro seg l hseg
    induction seg with
    | nil => rfl
    | cons c cs ih =>
      simp only [List.mem_cons, not_or] at hseg
      have hc : decide (c ≠ sep) = true := decide_eq_true (fun e => hseg.1 e.symm)
      rw [List.cons_append, List.takeWhile_cons]
      simp only [hc, if_true, ih hseg.2, List.cons_append]
  cases rest with
  | nil =>
    have := key first [] h
    simpa [List.intercalate, List.intersperse] using this
  | cons r rs =>
    have e : [sep].intercalate (first :: r :: rs) = first ++ sep :: [sep].intercalate (r :: rs) := by
      simp [List.intercalate, List.intersperse]
    rw [e, key first _ h]
    simp [List.takeWhile]

theorem parseTag_omitEmpty_not_ignored (s : String) (h : (parseTag s).omitEmpty = true) :
    (parseTag s).ignored = false := by
  unfold parseTag at h ⊢
  by_cases h1 : s = ""
  · simp [h1] at h
  · by_cases h2 : s = "-"
    · simp [h2] at h
    · rw [if_neg h1, if_neg h2]
      cases hsp : Split ',' s.data with
      | nil => exact absurd hsp (Split_ne_nil _ _)
      | cons v vs => simp [parseTagLoop, parseTagLoop_succ]

theorem intercalate_cons_cons (sep : Char) (a b : List Char) (l : List (List Char)) :
    [sep].intercalate (a :: b :: l) = a ++ sep :: [sep].intercalate (b :: l) := by
  simp [List.intercalate, List.intersperse]

/-- The pieces `Split` answers are free of the separator, and joined with
it they give the text back. -/
theorem Split_sound (sep : Char) (l : List Char) :
    [sep].intercalate (Split sep l) = l ∧ ∀ seg ∈ Split sep l, sep ∉ seg := by
  induction l with
  | nil => simp [Split, List.intercalate, List.intersperse]
  | cons c cs ih =>
    obtain ⟨ih1, ih2⟩ := ih
    by_cases hc : c = sep
    · simp only [Split, if_pos hc]
      cases hsp : Split sep cs with
      | nil => exact absurd hsp (Split_ne_nil _ _)
      | cons seg segs =>
        rw [hsp] at ih1 ih2
        refine ⟨?_, ?_⟩
        · rw [intercalate_cons_cons, ih1, hc]; rfl
        · intro s hs
          rcases List.mem_cons.1 hs with h | h
          · rw [h]; simp
          · exact ih2 s h
    · simp only [Split, if_neg hc]
      cases hsp : Split sep cs with
      | nil => exact absurd hsp (Split_ne_nil _ _)
      | cons seg segs =>
        rw [hsp] at ih1 ih2
        refine ⟨?_, ?_⟩
        · cases segs with
          | nil =>
            have e : ∀ x : List Char, [sep].intercalate [x] = x := by
              intro x; simp [List.intercalate, List.intersperse]
            rw [e] at ih1 ⊢
            rw [ih1]
          | cons b bs =>
            rw [intercalate_cons_cons] at ih1 ⊢
            rw [List.cons_append, ih1]
        · intro s hs
          rcases List.mem_cons.1 hs with h | h
          · rw [h]
            have := ih2 seg (List.mem_cons_self _ _)
            simp only [List.mem_cons, not_or]
            exact ⟨fun e => hc e.symm, this⟩
          · exact ih2 s (List.mem_cons_of_mem _ h)

/-! ## Lemmas: the field loop -/

/-- The field as one pass of the loop leaves it. -/
theorem unmarshalFields_append (pf : Platform) (env : Environ) (pre rest : List Field)
    (h : (unmarshalFields pf env pre).2 = none) :
    unmarshalFields pf env (pre ++ rest) =
      ((unmarshalFields pf env pre).1 ++ (unmarshalFields pf env rest).1,
        (unmarshalFields pf env rest).2) := by
  induction pre with
  | nil => simp [unmarshalFields]
  | cons f fs ih =>
    rw [List.cons_append]
    simp only [unmarshalFields] at h ⊢
    cases hstep : unmarshalField pf env f with
    | fail err => simp [hstep] at h
    | next =>
      simp only [hstep] at h ⊢
      rw [ih h]
      rfl
    | assign v =>
      simp only [hstep] at h ⊢
      rw [ih h]
      rfl

theorem unmarshalFields_length (pf : Platform) (env : Environ) (fields : List Field) :
    (unmarshalFields pf env fields).1.length = fields.length := by
  induction fields with
  | nil => rfl
  | cons f fs ih =>
    simp only [unmarshalFields]
    cases unmarshalField pf env f <;> simp [ih]

/-- While no field fails, each field is left as its own pass leaves it. -/
theorem unmarshalFields_ok (pf : Platform) (env : Environ) (pre : List Field)
    (h : (unmarshalFields pf env pre).2 = none) (j : Nat) (g : Field) (hg : pre[j]? = some g) :
    (unmarshalField pf env g = .next ∧ (unmarshalFields pf env pre).1[j]? = some g) ∨
    (∃ v, unmarshalField pf env g = .assign v ∧
      (unmarshalFields pf env pre).1[j]? = some ⟨g.decl, v⟩) := by
  induction pre generalizing j with
  | nil => simp at hg
  | cons f fs ih =>
    simp only [unmarshalFields] at h ⊢
    cases hstep : unmarshalField pf env f with
    | fail err => simp [hstep] at h
    | next =>
      simp only [hstep] at h ⊢
      cases j with
      | zero =>
        simp only [List.getElem?_cons_zero, Option.some.injEq] at hg
        subst hg
        left; exact ⟨hstep, by simp⟩
      | succ j =>
        simp only [List.getElem?_cons_succ] at hg ⊢
        exact ih h j hg
    | assign v =>
      simp only [hstep] at h ⊢
      cases j with
      | zero =>
        simp only [List.getElem?_cons_zero, Option.some.injEq] at hg
        subst hg
        right; exact ⟨v, hstep, by simp⟩
      | succ j =>
        simp only [List.getElem?_cons_succ] at hg ⊢
        exact ih h j hg

/-- `Unmarshal` on a pointer that `indirect` resolves to a structure runs the
field loop on its fields. -/
theorem Unmarshal_struct (pf : Platform) (env : Environ) (target : Value) (fs : List Frame)
    (name : String) (fields : List Field)
    (hres : indirect (.ptr target) = some (fs, .struct name fields, none)) :
    Unmarshal pf env (some (.ptr target)) =
      (some (plug fs (.struct name (unmarshalFields pf env fields).1)),
        .returned (unmarshalFields pf env fields).2) := by
  simp [Unmarshal, hres, Value.Kind, typeOf, GoType.Kind, unmarshalStruct]

/-- `Unmarshal` at a field that the loop reaches: the fields before it are
bound, and the pass for the field decides how the call goes on. -/
theorem Unmarshal_at_field (pf : Platform) (env : Environ) (target : Value) (fs : List Frame)
    (name : String) (pre post : List Field) (f : Field)
    (hres : indirect (.ptr target) = some (fs, .struct name (pre ++ f :: post), none))
    (hreach : (unmarshalFields pf env pre).2 = none) :
    Unmarshal pf env (some (.ptr target)) =
      match unmarshalField pf env f with
      | .fail err =>
        (some (plug fs (.struct name ((unmarshalFields pf env pre).1 ++ f :: post))),
          .returned (some err))
      | .next =>
        (some (plug fs (.struct name
          ((unmarshalFields pf env pre).1 ++ f :: (unmarshalFields pf env post).1))),
          .returned (unmarshalFields pf env post).2)
      | .assign v =>
        (some (plug fs (.struct name
          ((unmarshalFields pf env pre).1 ++ ⟨f.decl, v⟩ :: (unmarshalFields pf env post).1))),
          .returned (unmarshalFields pf env post).2) := by
  rw [Unmarshal_struct pf env target fs name _ hres, unmarshalFields_append pf env pre _ hreach]
  cases hstep : unmarshalField pf env f <;> simp [unmarshalFields, hstep]

/-- A field that its pass does not assign holds afterwards what it held
before, wherever the loop stops. -/
theorem unmarshalFields_keep (pf : Platform) (env : Environ) (fields : List Field) (i : Nat)
    (f : Field) (hf : fields[i]? = some f) (hstep : ∀ v, unmarshalField pf env f ≠ .assign v) :
    (unmarshalFields pf env fields).1[i]? = some f := by
  induction fields generalizing i with
  | nil => simp at hf
  | cons g gs ih =>
    simp only [unmarshalFields]
    cases hg : unmarshalField pf env g with
    | fail err => simpa using hf
    | next =>
      cases i with
      | zero => simpa using hf
      | succ i =>
        simp only [List.getElem?_cons_succ] at hf ⊢
        exact ih i hf
    | assign v =>
      cases i with
      | zero =>
        simp only [List.getElem?_cons_zero, Option.some.injEq] at hf
        subst hf
        exact absurd hg (hstep v)
      | succ i =>
        simp only [List.getElem?_cons_succ] at hf ⊢
        exact ih i hf

/-- The pass for a field reads the environment at the field's lookup key
only, and not at all when the field is not settable or is ignored. -/
theorem unmarshalField_congr (pf : Platform) (env1 env2 : Environ) (f : Field)
    (h : f.CanSet = true → (parseTag f.decl.Tag).ignored = false →
      env1 (lookupKey f) = env2 (lookupKey f)) :
    unmarshalField pf env1 f = unmarshalField pf env2 f := by
  unfold unmarshalField
  by_cases hset : f.CanSet = false
  · simp [hset]
  · by_cases hign : (parseTag f.decl.Tag).ignored = true
    · simp [hign]
    · have hset' : f.CanSet = true := by simpa using hset
      have hign' : (parseTag f.decl.Tag).ignored = false := by simpa using hign
      have e : Getenv env1 (lookupKey f) = Getenv env2 (lookupKey f) := by
        simp only [Getenv, h hset' hign']
      simp only [e]

theorem unmarshalFields_congr (pf : Platform) (env1 env2 : Environ) (fields : List Field)
    (h : ∀ g ∈ fields, g.CanSet = true → (parseTag g.decl.Tag).ignored = false →
      env1 (lookupKey g) = env2 (lookupKey g)) :
    unmarshalFields pf env1 fields = unmarshalFields pf env2 fields := by
  induction fields with
  | nil => rfl
  | cons f fs ih =>
    have hf := unmarshalField_congr pf env1 env2 f (h f (List.mem_cons_self _ _))
    have hfs := ih (fun g hg => h g (List.mem_cons_of_mem _ hg))
    simp only [unmarshalFields, hf, hfs]

/-! ## Lemmas: the map loop -/

theorem MapKeys_SetMapIndex (m : List (String × String)) (k v : String) (hk : k ∈ MapKeys m) :
    MapKeys (SetMapIndex m k v) = MapKeys m := by
  induction m with
  | nil => simp [MapKeys] at hk
  | cons p m ih =>
    obtain ⟨k', v'⟩ := p
    simp only [SetMapIndex]
    by_cases e : k' = k
    · simp [e, MapKeys]
    · rw [if_neg e]
      have : k ∈ MapKeys m := by
        simp only [MapKeys, List.map_cons, List.mem_cons] at hk
        rcases hk with h | h
        · exact absurd h.symm e
        · exact h
      simp only [MapKeys, List.map_cons] at ih ⊢
      rw [ih this]

theorem MapIndex_SetMapIndex (m : List (String × String)) (k v key : String) :
    MapIndex (SetMapIndex m k v) key = if key = k then some v else MapIndex m key := by
  induction m with
  | nil =>
    simp only [SetMapIndex, MapIndex]
    by_cases e : key = k
    · simp [e]
    · have : ¬ k = key := fun h => e h.symm
      simp [e, this]
  | cons p m ih =>
    obtain ⟨k', v'⟩ := p
    simp only [SetMapIndex]
    by_cases e : k' = k
    · subst e
      simp only [if_true, MapIndex]
      by_cases e2 : k' = key
      · simp [e2]
      · have : ¬ key = k' := fun h => e2 h.symm
        simp [e2, this]
    · rw [if_neg e]
      simp only [MapIndex, ih]
      by_cases e2 : k' = key
      · have : ¬ key = k := fun h => e (e2.trans h)
        simp [e2, this]
      · simp [e2]

/-- The map loop on a `map[string]string` never panics; it leaves the keys
as they are and sets every key it ranges over to the environment's value. -/
theorem unmarshalMapLoop_string (env : Environ) (ks : List String) (m : List (String × String))
    (hks : ∀ k ∈ ks, k ∈ MapKeys m) :
    (unmarshalMapLoop env stringType stringType ks m).2 = .returned none ∧
    MapKeys (unmarshalMapLoop env stringType stringType ks m).1 = MapKeys m ∧
    ∀ key, MapIndex (unmarshalMapLoop env stringType stringType ks m).1 key =
      if key ∈ ks then some (Getenv env key) else MapIndex m key := by
  induction ks generalizing m with
  | nil => simp [unmarshalMapLoop]
  | cons k ks ih =>
    have hk : k ∈ MapKeys m := hks k (List.mem_cons_self _ _)
    have hkeys := MapKeys_SetMapIndex m k (Getenv env k) hk
    have hks' : ∀ k' ∈ ks, k' ∈ MapKeys (SetMapIndex m k (Getenv env k)) := by
      intro k' hk'
      rw [hkeys]
      exact hks k' (List.mem_cons_of_mem _ hk')
    obtain ⟨h1, h2, h3⟩ := ih (SetMapIndex m k (Getenv env k)) hks'
    simp only [unmarshalMapLoop, ne_eq, not_true_eq_false, if_false]
    refine ⟨h1, by rw [h2, hkeys], ?_⟩
    intro key
    rw [h3 key, MapIndex_SetMapIndex]
    by_cases e1 : key ∈ ks
    · simp [e1]
    · by_cases e2 : key = k
      · simp [e2]
      · simp [e1, e2]

/-- `Unmarshal` on a pointer that `indirect` resolves to a map runs the map
loop on its entries. -/
theorem Unmarshal_map (pf : Platform) (env : Environ) (target : Value) (fs : List Frame)
    (name : String) (key elem : TypeInfo) (isNil : Bool) (entries : List (String × String))
    (hres : indirect (.ptr target) = some (fs, .map name key elem isNil entries, none)) :
    Unmarshal pf env (some (.ptr target)) =
      (some (plug fs (.map name key elem isNil
        (unmarshalMapLoop env key elem (MapKeys entries) entries).1)),
        (unmarshalMapLoop env key elem (MapKeys entries) entries).2) := by
  simp [Unmarshal, hres, Value.Kind, typeOf, GoType.Kind, unmarshalMap]

/-! ## Lemmas: the conversion switch -/

theorem truncInt_of_range (w : Nat) (hw2 : 2 ≤ w) (hw : w ≤ 64) (z : Int)
    (h1 : -(2 ^ (w - 1) : Int) ≤ z) (h2 : z ≤ 2 ^ (w - 1) - 1) : truncInt w z = z := by
  obtain ⟨h2w, hP2, hP63⟩ := half_pow w hw2 hw
  have hcast : ((2 ^ (w - 1) : Nat) : Int) = (2 : Int) ^ (w - 1) := by push_cast; rfl
  have hcast2 : ((2 ^ w : Nat) : Int) = (2 : Int) ^ w := by push_cast; rfl
  have h2w' : (2 : Int) ^ w = 2 * (2 : Int) ^ (w - 1) := by
    rw [← hcast, ← hcast2, h2w]; push_cast; rfl
  unfold truncInt
  rw [h2w']
  generalize (2 : Int) ^ (w - 1) = P at *
  rw [Int.emod_eq_of_lt (by omega) (by omega)]
  omega

theorem truncUint_of_range (w : Nat) (n : Nat) (h : n ≤ 2 ^ w - 1) : truncUint w n = n := by
  have hpos : 0 < 2 ^ w := Nat.pow_pos (by decide)
  exact Nat.mod_eq_of_lt (by omega)

theorem bits_signed (intSize : Nat) (hsize : intSize = 32 ∨ intSize = 64) (kind : Kind)
    (hkind : kind = .Int ∨ kind = .Int8 ∨ kind = .Int16 ∨ kind = .Int32 ∨ kind = .Int64) :
    2 ≤ kind.Bits intSize ∧ kind.Bits intSize ≤ 64 := by
  rcases hkind with h | h | h | h | h <;> subst h <;> simp only [Kind.Bits] <;> omega

theorem bits_unsigned (intSize : Nat) (hsize : intSize = 32 ∨ intSize = 64) (kind : Kind)
    (hkind : kind = .Uint ∨ kind = .Uint8 ∨ kind = .Uint16 ∨ kind = .Uint32 ∨ kind = .Uint64) :
    1 ≤ kind.Bits intSize ∧ kind.Bits intSize ≤ 64 := by
  rcases hkind with h | h | h | h | h <;> subst h <;> simp only [Kind.Bits] <;> omega

/-- The signed cases of the switch agree with the specification's reading of
the text. -/
theorem convert_signed (pf : Platform) (hsize : pf.IntSize = 32 ∨ pf.IntSize = 64)
    (name value : String) (frt : TypeInfo)
    (hkind : frt.kind = .Int ∨ frt.kind = .Int8 ∨ frt.kind = .Int16 ∨ frt.kind = .Int32 ∨
      frt.kind = .Int64) :
    convert pf name value frt =
      match specSigned (frt.kind.Bits pf.IntSize) value with
      | some n => .assign (.int n)
      | none => .fail (.UnmarshalTypeError name value frt) := by
  obtain ⟨hw2, hw⟩ := bits_signed pf.IntSize hsize frt.kind hkind
  have hconv : convert pf name value frt =
      if (ParseInt pf.IntSize value (frt.kind.Bits pf.IntSize)).2 ≠ none then
        .fail (.UnmarshalTypeError name value frt)
      else .assign (.int (truncInt (frt.kind.Bits pf.IntSize)
        (ParseInt pf.IntSize value (frt.kind.Bits pf.IntSize)).1)) := by
    rcases hkind with h | h | h | h | h <;> simp only [convert, h]
  rw [hconv]
  rcases ParseInt_cases pf.IntSize value _ hw2 hw with ⟨z, hz, h1, h2, hp⟩ | ⟨hz, hp⟩
  · simp only [specSigned, hz, hp]
    rw [if_neg (by simp), if_pos ⟨h1, h2⟩, truncInt_of_range _ hw2 hw z h1 h2]
  · rw [if_pos hp]
    simp only [specSigned]
    cases hs : signedDecimal value with
    | none => rfl
    | some n =>
      simp only
      rw [if_neg (hz n hs)]

/-- The unsigned cases of the switch agree with the specification's reading
of the text. -/
theorem convert_unsigned (pf : Platform) (hsize : pf.IntSize = 32 ∨ pf.IntSize = 64)
    (name value : String) (frt : TypeInfo)
    (hkind : frt.kind = .Uint ∨ frt.kind = .Uint8 ∨ frt.kind = .Uint16 ∨ frt.kind = .Uint32 ∨
      frt.kind = .Uint64) :
    convert pf name value frt =
      match specUnsigned (frt.kind.Bits pf.IntSize) value with
      | some n => .assign (.uint n)
      | none => .fail (.UnmarshalTypeError name value frt) := by
  obtain ⟨hw1, hw⟩ := bits_unsigned pf.IntSize hsize frt.kind hkind
  have hconv : convert pf name value frt =
      if (ParseUint pf.IntSize value (frt.kind.Bits pf.IntSize)).2 ≠ none then
        .fail (.UnmarshalTypeError name value frt)
      else .assign (.uint (truncUint (frt.kind.Bits pf.IntSize)
        (ParseUint pf.IntSize value (frt.kind.Bits pf.IntSize)).1)) := by
    rcases hkind with h | h | h | h | h <;> simp only [convert, h]
  rw [hconv]
  rcases ParseUint_cases pf.IntSize value _ hw1 hw with ⟨n, hn, hle, hp⟩ | ⟨hn, hp⟩ | ⟨hn, hp⟩
  · simp only [specUnsigned, hn, hp]
    rw [if_neg (by simp), if_pos hle, truncUint_of_range _ n hle]
  · rw [if_pos (by rw [hp]; simp)]
    simp only [specUnsigned, hn]
  · rw [if_pos (by rw [hp]; simp)]
    simp only [specUnsigned]
    cases hs : unsignedDecimal value with
    | none => rfl
    | some n =>
      simp only
      rw [if_neg (by have := hn n hs; omega)]

/-- The pass for a settable, non-ignored field whose variable is not empty
is the conversion switch. -/
theorem unmarshalField_convert (pf : Platform) (env : Environ) (f : Field)
    (hset : f.CanSet = true) (hign : (parseTag f.decl.Tag).ignored = false)
    (hval : Getenv env (lookupKey f) ≠ "") :
    unmarshalField pf env f =
      convert pf (lookupKey f) (Getenv env (lookupKey f)) f.decl.Typ := by
  simp [unmarshalField, hset, hign, hval]

/-- A text that begins with a sign is no unsigned decimal numeral. -/
theorem unsignedDecimal_sign (s : String) (c : Char) (rest : List Char)
    (hs : s.data = c :: rest) (hc : c = '+' ∨ c = '-') : unsignedDecimal s = none := by
  have hnd : isDecimalDigit c = false := by
    rcases hc with h | h <;> subst h <;> decide
  simp [unsignedDecimal, hs, hnd]

/-- The field after `pre` in `pre ++ f :: post` is `f`. -/
theorem getElem?_middle (pre post : List Field) (f : Field) :
    (pre ++ f :: post)[pre.length]? = some f := by
  induction pre with
  | nil => simp
  | cons g gs ih => simpa using ih

/-- The conversion switch assigns or fails; it never passes a field over. -/
theorem convert_ne_next (pf : Platform) (name value : String) (frt : TypeInfo) :
    convert pf name value frt ≠ .next := by
  cases hk : frt.kind <;> simp only [convert, hk] <;> (try split) <;> simp

/-- A field whose pass fails makes the loop return an error, and holds
afterwards what it held before, wherever the loop stops. -/
theorem unmarshalFields_fail (pf : Platform) (env : Environ) (fields : List Field) (i : Nat)
    (f : Field) (e : GoError) (hf : fields[i]? = some f)
    (hstep : unmarshalField pf env f = .fail e) :
    ∃ err, (unmarshalFields pf env fields).2 = some err := by
  induction fields generalizing i with
  | nil => simp at hf
  | cons g gs ih =>
    simp only [unmarshalFields]
    cases hg : unmarshalField pf env g with
    | fail err => exact ⟨err, rfl⟩
    | next =>
      cases i with
      | zero =>
        simp only [List.getElem?_cons_zero, Option.some.injEq] at hf
        subst hf
        rw [hstep] at hg
        cases hg
      | succ i =>
        simp only [List.getElem?_cons_succ] at hf
        exact ih i hf
    | assign v =>
      cases i with
      | zero =>
        simp only [List.getElem?_cons_zero, Option.some.injEq] at hf
        subst hf
        rw [hstep] at hg
        cases hg
      | succ i =>
        simp only [List.getElem?_cons_succ] at hf
        exact ih i hf

/-- `Unmarshal` at a field whose pass fails, whether or not the loop reaches
it: the call returns an error and the field is as before. -/
theorem Unmarshal_fail_at (pf : Platform) (env : Environ) (target : Value) (fs : List Frame)
    (name : String) (pre post : List Field) (f : Field) (e : GoError)
    (hres : indirect (.ptr target) = some (fs, .struct name (pre ++ f :: post), none))
    (hstep : unmarshalField pf env f = .fail e) :
    ∃ fields' err, Unmarshal pf env (some (.ptr target)) =
        (some (plug fs (.struct name fields')), .returned (some err)) ∧
      fields'[pre.length]? = some f := by
  obtain ⟨err, herr⟩ := unmarshalFields_fail pf env (pre ++ f :: post) pre.length f e
    (getElem?_middle pre post f) hstep
  refine ⟨(unmarshalFields pf env (pre ++ f :: post)).1, err, ?_, ?_⟩
  · rw [Unmarshal_struct pf env target fs name _ hres, herr]
  · apply unmarshalFields_keep pf env _ _ f (getElem?_middle pre post f)
    intro v; rw [hstep]; exact fun h => by cases h

/-! ## Lemmas: `indirect` -/

theorem depth_zero (t : GoType) : depth (zero t) = typeDepth t := by
  cases t <;> simp [zero, depth, typeDepth]

/-- The loop of `indirect` ends within `depth rv + 1` iterations. -/
theorem indirectLoop_some (fuel : Nat) (fs : List Frame) (rv : Value) (h : depth rv < fuel) :
    ∃ r, indirectLoop fuel fs rv = some r := by
  induction fuel generalizing fs rv with
  | zero => omega
  | succ fuel ih =>
    have hptr : ∀ (fs : List Frame) (rv : Value), depth rv < fuel + 1 →
        ∃ r, (match makeMapIfNil rv with
          | .nilPtr elem => indirectLoop fuel (.deref :: fs) (zero elem)
          | .ptr target => indirectLoop fuel (.deref :: fs) target
          | rv1 => some (fs, rv1)) = some r := by
      intro fs rv hd
      cases rv with
      | other t v => exact ⟨_, rfl⟩
      | nilPtr elem =>
        simp only [makeMapIfNil]
        apply ih
        rw [depth_zero]
        simp only [depth] at hd
        omega
      | ptr target =>
        simp only [makeMapIfNil]
        apply ih
        simp only [depth] at hd
        omega
      | nilIface name => exact ⟨_, rfl⟩
      | iface name dyn => exact ⟨_, rfl⟩
      | map name key elem isNil entries =>
        cases isNil <;> exact ⟨_, rfl⟩
      | struct name fields => exact ⟨_, rfl⟩
    simp only [indirectLoop]
    cases rv with
    | iface name dyn =>
      cases dyn with
      | ptr target =>
        simp only [unwrapIface]
        apply hptr
        simp only [depth] at h
        omega
      | _ => exact ⟨_, rfl⟩
    | _ => exact hptr fs _ h

/-- `indirect` always returns: the fuel it gives its loop is enough. -/
theorem indirect_returns (rv : Value) : ∃ r, indirect rv = some r := by
  obtain ⟨⟨fs, rv1⟩, hr⟩ := indirectLoop_some (depth rv + 1) [] rv (Nat.lt_succ_self _)
  exact ⟨(fs, rv1, indirectCheck rv1), by simp only [indirect, hr]⟩

/-- `indirect` on a pointer to a structure resolves to the structure. -/
theorem indirect_ptr_struct (name : String) (fields : List Field) :
    indirect (.ptr (.struct name fields)) = some ([.deref], .struct name fields, none) := by
  simp [indirect, depth, indirectLoop, unwrapIface, makeMapIfNil, indirectCheck, Value.Kind,
    typeOf, GoType.Kind]

/-! ## Lemmas: errors and outcomes -/

/-- The only error the conversion switch returns is the type error of the
key, the value and the type. -/
theorem convert_fail (pf : Platform) (name value : String) (frt : TypeInfo) (err : GoError)
    (h : convert pf name value frt = .fail err) :
    err = .UnmarshalTypeError name value frt := by
  cases hk : frt.kind <;> simp only [convert, hk] at h <;> (try split at h) <;> simp at h <;>
    (try exact h.symm)

/-- The errors a pass of the field loop can return: the missing variable, or
the type error of the field's key, value and type. -/
theorem unmarshalField_fail_cases (pf : Platform) (env : Environ) (f : Field) (err : GoError)
    (h : unmarshalField pf env f = .fail err) :
    f.CanSet = true ∧ (parseTag f.decl.Tag).ignored = false ∧
    ((Getenv env (lookupKey f) = "" ∧ (parseTag f.decl.Tag).omitEmpty = false ∧
        err = .errorString ("env: environment variable " ++ lookupKey f ++ " is not set")) ∨
      (Getenv env (lookupKey f) ≠ "" ∧
        err = .UnmarshalTypeError (lookupKey f) (Getenv env (lookupKey f)) f.decl.Typ)) := by
  unfold unmarshalField at h
  by_cases hset : f.CanSet = false
  · simp [hset] at h
  · have hset' : f.CanSet = true := by simpa using hset
    by_cases hign : (parseTag f.decl.Tag).ignored = true
    · simp [hset', hign] at h
    · have hign' : (parseTag f.decl.Tag).ignored = false := by simpa using hign
      refine ⟨hset', hign', ?_⟩
      by_cases hval : Getenv env (lookupKey f) = ""
      · left
        by_cases homit : (parseTag f.decl.Tag).omitEmpty = false
        · simp [hset', hign', hval, homit] at h
          exact ⟨hval, homit, h.symm⟩
        · simp [hset', hign', hval, homit] at h
      · right
        refine ⟨hval, ?_⟩
        rw [← unmarshalField] at h
        rw [unmarshalField_convert pf env f hset' hign' hval] at h
        exact convert_fail pf _ _ _ err h

/-- The loop returns `nil` exactly when no field fails. -/
theorem unmarshalFields_none_iff (pf : Platform) (env : Environ) (fields : List Field) :
    (unmarshalFields pf env fields).2 = none ↔
      ∀ f ∈ fields, ∀ e, unmarshalField pf env f ≠ .fail e := by
  induction fields with
  | nil => simp [unmarshalFields]
  | cons f fs ih =>
    simp only [unmarshalFields]
    cases hstep : unmarshalField pf env f with
    | fail err =>
      simp only
      constructor
      · intro h; cases h
      · intro h; exact absurd hstep (h f (List.mem_cons_self _ _) err)
    | next =>
      simp only
      rw [ih]
      constructor
      · intro h g hg e
        rcases List.mem_cons.1 hg with rfl | hg'
        · rw [hstep]; exact fun h => by cases h
        · exact h g hg' e
      · intro h g hg e
        exact h g (List.mem_cons_of_mem _ hg) e
    | assign v =>
      simp only
      rw [ih]
      constructor
      · intro h g hg e
        rcases List.mem_cons.1 hg with rfl | hg'
        · rw [hstep]; exact fun h => by cases h
        · exact h g hg' e
      · intro h g hg e
        exact h g (List.mem_cons_of_mem _ hg) e

/-- The error the loop returns is the error of the first field whose pass
fails. -/
theorem unmarshalFields_first_fail (pf : Platform) (env : Environ) (fields : List Field)
    (i : Nat) (f : Field) (err : GoError) (hf : fields[i]? = some f)
    (hstep : unmarshalField pf env f = .fail err)
    (hbefore : ∀ (j : Nat) (g : Field) (e : GoError), j < i → fields[j]? = some g →
      unmarshalField pf env g ≠ .fail e) :
    (unmarshalFields pf env fields).2 = some err := by
  induction fields generalizing i with
  | nil => simp at hf
  | cons g gs ih =>
    cases i with
    | zero =>
      simp only [List.getElem?_cons_zero, Option.some.injEq] at hf
      subst hf
      simp only [unmarshalFields, hstep]
    | succ i =>
      simp only [List.getElem?_cons_succ] at hf
      have hg : ∀ e, unmarshalField pf env g ≠ .fail e :=
        fun e => hbefore 0 g e (Nat.succ_pos _) (by simp)
      have hrest := ih i hf (fun j g' e hj hg' =>
        hbefore (j + 1) g' e (Nat.succ_lt_succ hj) (by simpa using hg'))
      simp only [unmarshalFields]
      cases hs : unmarshalField pf env g with
      | fail e => exact absurd hs (hg e)
      | next => exact hrest
      | assign v => exact hrest

/-- An error the loop returns is raised at some field, the first that
fails. -/
theorem unmarshalFields_some (pf : Platform) (env : Environ) (fields : List Field)
    (err : GoError) (h : (unmarshalFields pf env fields).2 = some err) :
    ∃ (i : Nat) (f : Field), fields[i]? = some f ∧ unmarshalField pf env f = .fail err ∧
      ∀ (j : Nat) (g : Field) (e : GoError), j < i → fields[j]? = some g →
        unmarshalField pf env g ≠ .fail e := by
  induction fields with
  | nil => simp [unmarshalFields] at h
  | cons g gs ih =>
    simp only [unmarshalFields] at h
    cases hs : unmarshalField pf env g with
    | fail e =>
      simp only [hs, Option.some.injEq] at h
      subst h
      exact ⟨0, g, by simp, hs, fun j _ _ hj => absurd hj (Nat.not_lt_zero _)⟩
    | next =>
      simp only [hs] at h
      obtain ⟨i, f, hf, hfail, hb⟩ := ih h
      refine ⟨i + 1, f, by simpa using hf, hfail, ?_⟩
      intro j g' e hj hg'
      cases j with
      | zero =>
        simp only [List.getElem?_cons_zero, Option.some.injEq] at hg'
        subst hg'
        rw [hs]; exact fun h => by cases h
      | succ j =>
        exact hb j g' e (Nat.lt_of_succ_lt_succ hj) (by simpa using hg')
    | assign v =>
      simp only [hs] at h
      obtain ⟨i, f, hf, hfail, hb⟩ := ih h
      refine ⟨i + 1, f, by simpa using hf, hfail, ?_⟩
      intro j g' e hj hg'
      cases j with
      | zero =>
        simp only [List.getElem?_cons_zero, Option.some.injEq] at hg'
        subst hg'
        rw [hs]; exact fun h => by cases h
      | succ j =>
        exact hb j g' e (Nat.lt_of_succ_lt_succ hj) (by simpa using hg')

/-- The map loop returns `nil` or panics; it returns no error. -/
theorem unmarshalMapLoop_no_error (env : Environ) (key elem : TypeInfo) (ks : List String)
    (m : List (String × String)) (err : GoError) :
    (unmarshalMapLoop env key elem ks m).2 ≠ .returned (some err) := by
  induction ks generalizing m with
  | nil => simp [unmarshalMapLoop]
  | cons k ks ih =>
    simp only [unmarshalMapLoop]
    split
    · simp
    · split
      · simp
      · exact ih _

/-- The field loop returns no `InvalidUnmarshalError` and no
`InvalidIndirectError`. -/
theorem unmarshalFields_error_kind (pf : Platform) (env : Environ) (fields : List Field)
    (err : GoError) (h : (unmarshalFields pf env fields).2 = some err) :
    (∃ msg, err = .errorString msg) ∨ ∃ n v t, err = .UnmarshalTypeError n v t := by
  obtain ⟨i, f, -, hfail, -⟩ := unmarshalFields_some pf env fields err h
  obtain ⟨-, -, hc⟩ := unmarshalField_fail_cases pf env f err hfail
  rcases hc with ⟨-, -, hc⟩ | ⟨-, hc⟩
  · left; exact ⟨_, hc⟩
  · right; exact ⟨_, _, _, hc⟩

/-- The checks of `indirect` return no error but an `InvalidIndirectError` of
the type of the value checked. -/
theorem indirectCheck_error (rv : Value) (err : GoError) (h : indirectCheck rv = some err) :
    err = .InvalidIndirectError (typeOf rv) := by
  unfold indirectCheck at h
  split at h
  · simp only [Option.some.injEq] at h; exact h.symm
  · split at h
    · split at h
      · simp only [Option.some.injEq] at h; exact h.symm
      · cases h
    · cases h

/-- `Unmarshal` on a non-nil pointer returns no `InvalidUnmarshalError`. -/
theorem Unmarshal_ptr_not_invalid (pf : Platform) (env : Environ) (target : Value)
    (t : Option GoType) :
    (Unmarshal pf env (some (.ptr target))).2 ≠ .returned (some (.InvalidUnmarshalError t)) := by
  simp only [Unmarshal]
  cases hind : indirect (.ptr target) with
  | none => simp
  | some r =>
    obtain ⟨fs, rv, e⟩ := r
    cases e with
    | some err =>
      have hsome : ∃ fs' rv', indirectLoop (depth (.ptr target) + 1) [] (.ptr target) =
          some (fs', rv') ∧ indirectCheck rv' = some err := by
        unfold indirect at hind
        split at hind
        · cases hind
        · rename_i fs' rv' heq
          simp only [Option.some.injEq, Prod.mk.injEq] at hind
          exact ⟨fs', rv', heq, hind.2.2⟩
      obtain ⟨fs', rv', -, hc⟩ := hsome
      have := indirectCheck_error rv' err hc
      simp [this]
    | none =>
      simp only
      split
      · cases rv with
        | struct name fields =>
          simp only [unmarshalStruct, ne_eq, Outcome.returned.injEq]
          intro h
          rcases unmarshalFields_error_kind pf env fields _ h with ⟨msg, hm⟩ | ⟨n, v, t', hm⟩ <;>
            cases hm
        | _ => simp [unmarshalStruct]
      · cases rv with
        | map name key elem isNil entries =>
          simp only [unmarshalMap]
          exact unmarshalMapLoop_no_error env key elem _ _ _
        | _ => simp [unmarshalMap]

/-! ## Lemmas: the loop of `indirect`, step by step -/

theorem unwrapIface_snd (fs : List Frame) (rv : Value) :
    (unwrapIface fs rv).2 = (unwrapIface [] rv).2 := by
  unfold unwrapIface
  split <;> rfl

/-- One iteration of the loop of `indirect`, read through `indirectNext`. -/
theorem indirectLoop_succ (fuel : Nat) (fs : List Frame) (rv : Value) :
    indirectLoop (fuel + 1) fs rv =
      match indirectNext rv with
      | some rv' => indirectLoop fuel (.deref :: (unwrapIface fs rv).1) rv'
      | none => some ((unwrapIface fs rv).1, makeMapIfNil (unwrapIface fs rv).2) := by
  simp only [indirectLoop, indirectNext, ← unwrapIface_snd fs rv]
  cases makeMapIfNil (unwrapIface fs rv).2 <;> rfl

/-- An iteration that does not leave the loop goes on with a value of
smaller depth. -/
theorem indirectNext_depth (rv rv' : Value) (h : indirectNext rv = some rv') :
    depth rv' < depth rv := by
  have hptr : ∀ (v : Value), (match makeMapIfNil v with
      | .nilPtr elem => some (zero elem)
      | .ptr target => some target
      | _ => none) = some rv' → depth rv' < depth v := by
    intro v hv
    cases v with
    | nilPtr elem =>
      simp only [makeMapIfNil, Option.some.injEq] at hv
      rw [← hv, depth_zero]
      simp [depth]
    | ptr target =>
      simp only [makeMapIfNil, Option.some.injEq] at hv
      rw [← hv]
      simp [depth]
    | map name key elem isNil entries =>
      cases isNil <;> simp [makeMapIfNil] at hv
    | _ => simp [makeMapIfNil] at hv
  unfold indirectNext at h
  cases rv with
  | iface name dyn =>
    cases dyn with
    | ptr target =>
      simp only [unwrapIface] at h
      have := hptr target h
      simp only [depth]
      omega
    | _ => simp [unwrapIface, makeMapIfNil] at h
  | _ => exact hptr _ h

/-- More iterations than the loop needs change nothing. -/
theorem indirectLoop_mono (fuel : Nat) (fs : List Frame) (rv : Value) (r : List Frame × Value)
    (h : indirectLoop fuel fs rv = some r) (fuel' : Nat) (hle : fuel ≤ fuel') :
    indirectLoop fuel' fs rv = some r := by
  induction fuel generalizing fs rv fuel' with
  | zero => simp [indirectLoop] at h
  | succ fuel ih =>
    cases fuel' with
    | zero => omega
    | succ fuel' =>
      rw [indirectLoop_succ] at h ⊢
      cases hn : indirectNext rv with
      | none => rw [hn] at h; exact h
      | some rv' =>
        rw [hn] at h
        exact ih _ _ h fuel' (by omega)

/-! ## Lemmas: well-formed values -/

theorem zero_WF (t : GoType) (h : t.WF = true) : (zero t).WF = true := by
  cases t with
  | basic info => simpa [zero, Value.WF, GoType.WF] using h
  | ptr elem => simpa [zero, Value.WF, GoType.WF] using h
  | map name key elem => rfl
  | struct name fields => rfl
  | iface name => rfl

theorem makeMapIfNil_WF (rv : Value) (h : rv.WF = true) : (makeMapIfNil rv).WF = true := by
  cases rv with
  | map name key elem isNil entries => cases isNil <;> rfl
  | _ => simpa [makeMapIfNil] using h

theorem unwrapIface_WF (fs : List Frame) (rv : Value) (h : rv.WF = true) :
    (unwrapIface fs rv).2.WF = true := by
  cases rv with
  | iface name dyn =>
    cases dyn with
    | ptr target => simpa [unwrapIface, Value.WF] using h
    | _ => simpa [unwrapIface] using h
  | _ => simpa [unwrapIface] using h

/-- The loop of `indirect` exits on a well-formed value when it starts on
one. -/
theorem indirectLoop_WF (fuel : Nat) (fs : List Frame) (rv : Value) (r : List Frame × Value)
    (hwf : rv.WF = true) (h : indirectLoop fuel fs rv = some r) : r.2.WF = true := by
  induction fuel generalizing fs rv with
  | zero => simp [indirectLoop] at h
  | succ fuel ih =>
    have h1 := makeMapIfNil_WF _ (unwrapIface_WF fs rv hwf)
    simp only [indirectLoop] at h
    cases hm : makeMapIfNil (unwrapIface fs rv).2 with
    | nilPtr elem =>
      rw [hm] at h h1
      exact ih _ _ (zero_WF elem (by simpa [Value.WF] using h1)) h
    | ptr target =>
      rw [hm] at h h1
      exact ih _ _ (by simpa [Value.WF] using h1) h
    | other t v => rw [hm] at h h1; simp only [Option.some.injEq] at h; rw [← h]; exact h1
    | nilIface name => rw [hm] at h h1; simp only [Option.some.injEq] at h; rw [← h]; exact h1
    | iface name dyn => rw [hm] at h h1; simp only [Option.some.injEq] at h; rw [← h]; exact h1
    | map name key elem isNil entries =>
      rw [hm] at h h1; simp only [Option.some.injEq] at h; rw [← h]; exact h1
    | struct name fields =>
      rw [hm] at h h1; simp only [Option.some.injEq] at h; rw [← h]; exact h1

/-- On a well-formed value the checks of `indirect` pass exactly when the
value is a structure or a map with keys and elements of kind string. -/
theorem indirectCheck_eq (rv : Value) (hwf : rv.WF = true) :
    indirectCheck rv =
      if acceptable rv = true then none else some (.InvalidIndirectError (typeOf rv)) := by
  cases rv with
  | other t v =>
    have hk : t.kind ≠ .Struct ∧ t.kind ≠ .Map := by
      simp only [Value.WF] at hwf
      constructor <;> intro e <;> rw [e] at hwf <;> simp [isComposite] at hwf
    simp [indirectCheck, acceptable, Value.Kind, typeOf, GoType.Kind, hk]
  | nilPtr elem => simp [indirectCheck, acceptable, Value.Kind, typeOf, GoType.Kind]
  | ptr target => simp [indirectCheck, acceptable, Value.Kind, typeOf, GoType.Kind]
  | nilIface name => simp [indirectCheck, acceptable, Value.Kind, typeOf, GoType.Kind]
  | iface name dyn => simp [indirectCheck, acceptable, Value.Kind, typeOf, GoType.Kind]
  | map name key elem isNil entries =>
    simp only [indirectCheck, acceptable, Value.Kind, typeOf, GoType.Kind]
    by_cases hk : key.kind = .String <;> by_cases he : elem.kind = .String <;> simp [hk, he]
  | struct name fields => simp [indirectCheck, acceptable, Value.Kind, typeOf, GoType.Kind]

/-- `Unmarshal` on a pointer whose resolved value passes the checks of
`indirect` returns no `InvalidIndirectError`. -/
theorem Unmarshal_accepted (pf : Platform) (env : Environ) (target : Value) (fs : List Frame)
    (rv : Value) (hres : indirect (.ptr target) = some (fs, rv, none)) (t : GoType) :
    (Unmarshal pf env (some (.ptr target))).2 ≠ .returned (some (.InvalidIndirectError t)) := by
  simp only [Unmarshal, hres]
  split
  · cases rv with
    | struct name fields =>
      simp only [unmarshalStruct, ne_eq, Outcome.returned.injEq]
      intro h
      rcases unmarshalFields_error_kind pf env fields _ h with ⟨msg, hm⟩ | ⟨n, v, t', hm⟩ <;>
        cases hm
    | _ => simp [unmarshalStruct]
  · cases rv with
    | map name key elem isNil entries =>
      simp only [unmarshalMap]
      exact unmarshalMapLoop_no_error env key elem _ _ _
    | _ => simp [unmarshalMap]

/-! ## Lemmas: resolving a destination a second time -/

theorem indirectLoop_eq_tail (fuel : Nat) (fs : List Frame) (rv : Value) :
    indirectLoop (fuel + 1) fs rv =
      indirectTail fuel (unwrapIface fs rv).1 (unwrapIface fs rv).2 := rfl

theorem plug_append (a b : List Frame) (v : Value) : plug (a ++ b) v = plug b (plug a v) := by
  induction a generalizing v with
  | nil => rfl
  | cons f a ih =>
    cases f with
    | deref => rw [List.cons_append]; simp only [plug]; exact ih _
    | unbox name => rw [List.cons_append]; simp only [plug]; exact ih _

theorem indirectTail_resolved (fuel : Nat) (fs : List Frame) (rv : Value)
    (h : isResolved rv = true) : indirectTail fuel fs rv = some (fs, rv) := by
  cases rv with
  | struct name fields => rfl
  | map name key elem isNil entries =>
    cases isNil with
    | false => rfl
    | true => simp [isResolved] at h
  | _ => simp [isResolved] at h

theorem unwrapIface_resolved (fs : List Frame) (rv : Value) (h : isResolved rv = true) :
    unwrapIface fs rv = (fs, rv) := by
  cases rv with
  | iface name dyn => simp [isResolved] at h
  | _ => rfl

/-- The loop of `indirect` finds again the value it resolved to, or a
resolved value put in its place, along the frames it passed. -/
theorem indirectLoop_plug (fuel : Nat) :
    ∀ (fs0 : List Frame) (v : Value) (fs : List Frame) (rv : Value),
      indirectLoop fuel fs0 v = some (fs, rv) →
      ∃ fs1, fs = fs1 ++ fs0 ∧
        ∀ (fs0' : List Frame) (rv' : Value), isResolved rv' = true →
          indirectLoop fuel fs0' (plug fs1 rv') = some (fs1 ++ fs0', rv') := by
  induction fuel with
  | zero => intro fs0 v fs rv h; simp [indirectLoop] at h
  | succ fuel ih =>
    have tail : ∀ (fsA : List Frame) (t : Value) (fs : List Frame) (rv : Value),
        indirectTail fuel fsA t = some (fs, rv) →
        ∃ fs1, fs = fs1 ++ fsA ∧ (fs1 = [] ∨ ∃ fs2, fs1 = fs2 ++ [.deref]) ∧
          ∀ (fsA' : List Frame) (rv' : Value), isResolved rv' = true →
            indirectTail fuel fsA' (plug fs1 rv') = some (fs1 ++ fsA', rv') := by
      intro fsA t fs rv h
      have hcont : ∀ (x : Value), indirectLoop fuel (.deref :: fsA) x = some (fs, rv) →
          ∃ fs1, fs = fs1 ++ fsA ∧ (fs1 = [] ∨ ∃ fs2, fs1 = fs2 ++ [.deref]) ∧
            ∀ (fsA' : List Frame) (rv' : Value), isResolved rv' = true →
              indirectTail fuel fsA' (plug fs1 rv') = some (fs1 ++ fsA', rv') := by
        intro x hx
        obtain ⟨fs1, hfs, hre⟩ := ih _ _ _ _ hx
        refine ⟨fs1 ++ [.deref], by simp [hfs], Or.inr ⟨fs1, rfl⟩, ?_⟩
        intro fsA' rv' hr
        rw [plug_append]
        simp only [plug, indirectTail, makeMapIfNil]
        rw [hre _ _ hr]
        simp
      have hexit : ∀ (x : Value), some (fsA, x) = some (fs, rv) →
          ∃ fs1, fs = fs1 ++ fsA ∧ (fs1 = [] ∨ ∃ fs2, fs1 = fs2 ++ [.deref]) ∧
            ∀ (fsA' : List Frame) (rv' : Value), isResolved rv' = true →
              indirectTail fuel fsA' (plug fs1 rv') = some (fs1 ++ fsA', rv') := by
        intro x hx
        simp only [Option.some.injEq, Prod.mk.injEq] at hx
        refine ⟨[], by simp [hx.1], Or.inl rfl, ?_⟩
        intro fsA' rv' hr
        simpa [plug] using indirectTail_resolved fuel fsA' rv' hr
      cases t with
      | nilPtr elem => exact hcont _ h
      | ptr target => exact hcont _ h
      | map name key elem isNil entries =>
        cases isNil with
        | false => exact hexit _ h
        | true => exact hexit _ h
      | other t v => exact hexit _ h
      | nilIface name => exact hexit _ h
      | iface name dyn => exact hexit _ h
      | struct name fields => exact hexit _ h
    intro fs0 v fs rv h
    rw [indirectLoop_eq_tail] at h
    have plain : (unwrapIface fs0 v = (fs0, v)) →
        ∃ fs1, fs = fs1 ++ fs0 ∧
          ∀ (fs0' : List Frame) (rv' : Value), isResolved rv' = true →
            indirectLoop (fuel + 1) fs0' (plug fs1 rv') = some (fs1 ++ fs0', rv') := by
      intro hu
      rw [hu] at h
      obtain ⟨fs1, hfs, hshape, hre⟩ := tail _ _ _ _ h
      refine ⟨fs1, hfs, ?_⟩
      intro fs0' rv' hr
      rw [indirectLoop_eq_tail]
      have hun : unwrapIface fs0' (plug fs1 rv') = (fs0', plug fs1 rv') := by
        rcases hshape with rfl | ⟨fs2, rfl⟩
        · exact unwrapIface_resolved fs0' rv' hr
        · rw [plug_append]; rfl
      rw [hun]
      exact hre _ _ hr
    cases v with
    | iface name dyn =>
      cases dyn with
      | ptr target =>
        simp only [unwrapIface] at h
        obtain ⟨fs1, hfs, -, hre⟩ := tail _ _ _ _ h
        refine ⟨fs1 ++ [.unbox name], by simp [hfs], ?_⟩
        intro fs0' rv' hr
        rw [indirectLoop_eq_tail, plug_append]
        simp only [plug, unwrapIface]
        rw [hre _ _ hr]
        simp
      | _ => exact plain rfl
    | _ => exact plain rfl

/-- The value the loop of `indirect` exits on is no nil map. -/
theorem indirectLoop_exit_map (fuel : Nat) (fs0 : List Frame) (v : Value) (fs : List Frame)
    (name : String) (key elem : TypeInfo) (isNil : Bool) (entries : List (String × String))
    (h : indirectLoop fuel fs0 v = some (fs, .map name key elem isNil entries)) :
    isNil = false := by
  induction fuel generalizing fs0 v with
  | zero => simp [indirectLoop] at h
  | succ fuel ih =>
    simp only [indirectLoop] at h
    cases hm : makeMapIfNil (unwrapIface fs0 v).2 with
    | nilPtr e => rw [hm] at h; exact ih _ _ h
    | ptr t => rw [hm] at h; exact ih _ _ h
    | map n k e b es =>
      rw [hm] at h
      simp only [Option.some.injEq, Prod.mk.injEq, Value.map.injEq] at h
      obtain ⟨-, -, -, -, hb, -⟩ := h
      subst hb
      cases b with
      | false => rfl
      | true =>
        exfalso
        cases hv : (unwrapIface fs0 v).2 with
        | map n' k' e' b' es' =>
          rw [hv] at hm
          cases b' <;> simp [makeMapIfNil] at hm
        | _ => rw [hv] at hm; simp [makeMapIfNil] at hm
    | other t x => rw [hm] at h; simp at h
    | nilIface n => rw [hm] at h; simp at h
    | iface n d => rw [hm] at h; simp at h
    | struct n f => rw [hm] at h; simp at h

/-- What the loop answers within some bound it answers within the bound
`indirect` gives it. -/
theorem indirectLoop_depth (fuel : Nat) (v : Value) (r : List Frame × Value)
    (h : indirectLoop fuel [] v = some r) : indirectLoop (depth v + 1) [] v = some r := by
  obtain ⟨r', hr'⟩ := indirectLoop_some (depth v + 1) [] v (Nat.lt_succ_self _)
  rcases Nat.le_total fuel (depth v + 1) with hle | hle
  · exact indirectLoop_mono fuel [] v r h _ hle
  · have := indirectLoop_mono _ [] v r' hr' _ hle
    rw [h] at this
    rw [hr', this]

/-- After a call on a pointer that `indirect` resolved along the frames `fs`,
the destination with a resolved value `rv'` in place is again a non-nil
pointer, and `indirect` resolves it along `fs` to `rv'`. -/
theorem indirect_plug (target : Value) (fs : List Frame) (rv : Value) (e : Option GoError)
    (hres : indirect (.ptr target) = some (fs, rv, e)) (rv' : Value)
    (hr : isResolved rv' = true) :
    ∃ target', plug fs rv' = .ptr target' ∧
      indirect (.ptr target') = some (fs, rv', indirectCheck rv') := by
  have hloop : indirectLoop (depth (.ptr target) + 1) [] (.ptr target) = some (fs, rv) := by
    unfold indirect at hres
    split at hres
    · cases hres
    · rename_i fs' rv'' heq
      simp only [Option.some.injEq, Prod.mk.injEq] at hres
      rw [heq, hres.1, hres.2.1]
  rw [indirectLoop_eq_tail] at hloop
  simp only [unwrapIface, indirectTail, makeMapIfNil] at hloop
  obtain ⟨fs1, hfs, hre⟩ := indirectLoop_plug _ _ _ _ _ hloop
  have hplug : plug fs rv' = .ptr (plug fs1 rv') := by
    rw [hfs, plug_append]; rfl
  refine ⟨plug fs1 rv', hplug, ?_⟩
  have hd : depth (.ptr target) = depth target + 1 := rfl
  have h2 : indirectLoop (depth target + 1 + 1) [] (.ptr (plug fs1 rv')) = some (fs, rv') := by
    rw [indirectLoop_eq_tail]
    simp only [unwrapIface, indirectTail, makeMapIfNil]
    have := hre [.deref] rv' hr
    rw [hd] at this
    rw [this, hfs]
  have h3 := indirectLoop_depth _ _ _ h2
  simp only [indirect, h3]

/-- The pass for a field does not read the value the field holds. -/
theorem unmarshalField_val (pf : Platform) (env : Environ) (d : StructField) (v v' : FieldVal) :
    unmarshalField pf env ⟨d, v⟩ = unmarshalField pf env ⟨d, v'⟩ := rfl

/-- The field loop run again on the fields it left gives the same fields and
the same error. -/
theorem unmarshalFields_idem (pf : Platform) (env : Environ) (fields : List Field) :
    unmarshalFields pf env (unmarshalFields pf env fields).1 = unmarshalFields pf env fields := by
  induction fields with
  | nil => rfl
  | cons f fs ih =>
    cases hstep : unmarshalField pf env f with
    | fail err =>
      have h1 : unmarshalFields pf env (f :: fs) = (f :: fs, some err) := by
        simp only [unmarshalFields, hstep]
      rw [h1]
      exact h1
    | next =>
      have h1 : unmarshalFields pf env (f :: fs) =
          (f :: (unmarshalFields pf env fs).1, (unmarshalFields pf env fs).2) := by
        simp only [unmarshalFields, hstep]
      rw [h1]
      simp only [unmarshalFields, hstep, ih]
    | assign v =>
      have h1 : unmarshalFields pf env (f :: fs) =
          (⟨f.decl, v⟩ :: (unmarshalFields pf env fs).1, (unmarshalFields pf env fs).2) := by
        simp only [unmarshalFields, hstep]
      rw [h1]
      have h2 : unmarshalField pf env ⟨f.decl, v⟩ = .assign v := by
        rw [← hstep]
        cases f
        rfl
      simp only [unmarshalFields, h2, ih]

theorem SetMapIndex_same (m : List (String × String)) (k v : String)
    (h : MapIndex m k = some v) : SetMapIndex m k v = m := by
  induction m with
  | nil => simp [MapIndex] at h
  | cons p m ih =>
    obtain ⟨k', v'⟩ := p
    simp only [MapIndex] at h
    simp only [SetMapIndex]
    by_cases e : k' = k
    · rw [if_pos e] at h ⊢
      simp only [Option.some.injEq] at h
      rw [e, h]
    · rw [if_neg e] at h ⊢
      rw [ih h]

/-- The map loop over keys that already hold the environment's values leaves
the map as it is. -/
theorem unmarshalMapLoop_fixed (env : Environ) (ks : List String) (m : List (String × String))
    (h : ∀ k ∈ ks, MapIndex m k = some (Getenv env k)) :
    unmarshalMapLoop env stringType stringType ks m = (m, .returned none) := by
  induction ks with
  | nil => rfl
  | cons k ks ih =>
    simp only [unmarshalMapLoop, ne_eq, not_true_eq_false, if_false]
    rw [SetMapIndex_same m k _ (h k (List.mem_cons_self _ _))]
    exact ih (fun k' hk' => h k' (List.mem_cons_of_mem _ hk'))

/-- The field loop on settable, non-ignored string fields whose variables
hold their assigned values. -/
theorem unmarshalFields_round_trip (pf : Platform) (env : Environ) (fv : List (Field × String))
    (hall : ∀ p ∈ fv, p.1.CanSet = true ∧ (parseTag p.1.decl.Tag).ignored = false ∧
      p.1.decl.Typ.kind = .String ∧ env (lookupKey p.1) = some p.2 ∧
      (p.2 ≠ "" ∨ ((parseTag p.1.decl.Tag).omitEmpty = true ∧ p.1.val = .str ""))) :
    unmarshalFields pf env (fv.map Prod.fst) =
      (fv.map fun p => ⟨p.1.decl, .str p.2⟩, none) := by
  induction fv with
  | nil => rfl
  | cons p ps ih =>
    obtain ⟨hset, hign, hkind, henv, hval⟩ := hall p (List.mem_cons_self _ _)
    have ih' := ih (fun q hq => hall q (List.mem_cons_of_mem _ hq))
    have hget : Getenv env (lookupKey p.1) = p.2 := by simp [Getenv, henv]
    simp only [List.map_cons, unmarshalFields]
    by_cases hne : p.2 = ""
    · rcases hval with h | ⟨homit, hold⟩
      · exact absurd hne h
      · have hstep : unmarshalField pf env p.1 = .next := by
          simp [unmarshalField, hset, hign, homit, hget, hne]
        rw [hstep]
        simp only [ih']
        have : p.1 = ⟨p.1.decl, .str p.2⟩ := by
          rw [hne, ← hold]
        rw [← this]
    · have hstep : unmarshalField pf env p.1 = .assign (.str p.2) := by
        rw [unmarshalField_convert pf env p.1 hset hign (by rw [hget]; exact hne), hget]
        simp only [convert, hkind]
      rw [hstep]
      simp only [ih']

/-! ## Lemmas: `indirect` over addressed memory -/

/-- An address that holds a value lies inside the memory. -/
theorem cells_lt {cells : List Cell} {a : Nat} {c : Cell} (h : cells[a]? = some c) :
    a < cells.length := by
  rcases Nat.lt_or_ge a cells.length with hlt | hge
  · exact hlt
  · rw [List.getElem?_eq_none hge] at h
    cases h

/-- An iteration of the loop of `indirect` on a non-nil pointer moves to the
variable the pointer points to and leaves the memory as it is. -/
theorem indirectAt_ptr (fuel : Nat) (h : Memory) (rv : Ref) (elem : GoType) (p : Nat)
    (hrv : h.load rv = some (.ptr elem (some p))) :
    indirectAt (fuel + 1) h rv = indirectAt fuel h (.loc p) := by
  simp only [indirectAt, Memory.unwrapIface, Memory.makeMapIfNil, Memory.newIfNil, hrv]

/-- An iteration of the loop of `indirect` on a variable holding a nil
pointer allocates a fresh variable holding the zero value of the element type,
stores the pointer to it in the variable, and moves to the fresh variable;
every other variable and every table is as it was. -/
theorem indirectAt_nilPtr (fuel : Nat) (h : Memory) (a : Nat) (elem : GoType)
    (ha : h.cells[a]? = some (.ptr elem none)) :
    ∃ h1 : Memory,
      indirectAt (fuel + 1) h (.loc a) = indirectAt fuel h1 (.loc h.cells.length) ∧
      h1.cells.length = h.cells.length + 1 ∧
      h1.cells[a]? = some (.ptr elem (some h.cells.length)) ∧
      h1.cells[h.cells.length]? = some (zeroCell elem) ∧
      (∀ b, b < h.cells.length → b ≠ a → h1.cells[b]? = h.cells[b]?) ∧
      h1.tables = h.tables := by
  have hlt := cells_lt ha
  have hne : a ≠ h.cells.length := Nat.ne_of_lt hlt
  refine ⟨⟨(h.cells ++ [zeroCell elem]).set a (.ptr elem (some h.cells.length)), h.tables⟩,
    ?_, ?_, ?_, ?_, ?_, rfl⟩
  · simp [indirectAt, Memory.unwrapIface, Memory.makeMapIfNil, Memory.newIfNil, Memory.load,
      Memory.New, Memory.Set, ha, hlt, Nat.lt_succ_of_lt hlt, List.getElem?_set,
      List.getElem_append_left, List.getElem_set_self]
  · simp
  · simp [List.getElem?_set, Nat.lt_succ_of_lt hlt]
  · simp [List.getElem?_set, hne]
  · intro b hb hba
    simp [List.getElem?_set, Ne.symm hba, List.getElem?_append_left hb]

/-- An iteration of the loop of `indirect` on a variable holding a nil map
with string-kinded keys and elements allocates an empty table, stores the map
that refers to it in the variable, and returns that variable without an error;
every other variable and every other table is as it was. -/
theorem indirectAt_nilMap (fuel : Nat) (h : Memory) (a : Nat) (name : String)
    (key elem : TypeInfo) (ha : h.cells[a]? = some (.map name key elem none))
    (hkey : key.kind = .String) (helem : elem.kind = .String) :
    ∃ h1 : Memory,
      indirectAt (fuel + 1) h (.loc a) = .returned h1 (some (.loc a)) none ∧
      h1.cells.length = h.cells.length ∧
      h1.cells[a]? = some (.map name key elem (some h.tables.length)) ∧
      (∀ b, b ≠ a → h1.cells[b]? = h.cells[b]?) ∧
      h1.tables = h.tables ++ [[]] := by
  have hlt := cells_lt ha
  refine ⟨⟨h.cells.set a (.map name key elem (some h.tables.length)), h.tables ++ [[]]⟩,
    ?_, ?_, ?_, ?_, rfl⟩
  · simp [indirectAt, Memory.unwrapIface, Memory.makeMapIfNil, Memory.load,
      Memory.MakeMap, Memory.Set, ha, hlt, List.getElem?_set, cellCheck, Cell.Typ,
      GoType.Kind, hkey, helem]
  · simp
  · simp [List.getElem?_set, hlt]
  · intro b hba
    simp [List.getElem?_set, Ne.symm hba]

/-! ## Lemmas: `strconv.ParseFloat` and the rows of `unmarshalTests` -/

/-- `ParseFloat` on plain texts: `0.1` and `1.5` as a `float32` and as a
`float64`, a hexadecimal number, an infinity, texts that are no number,
and a number out of range. -/
theorem ParseFloat_examples :
    ParseFloat "0.1" 32 = some 0x3FB99999A0000000 ∧
    ParseFloat "0.1" 64 = some 0x3FB999999999999A ∧
    ParseFloat "1.5" 32 = some 0x3FF8000000000000 ∧
    ParseFloat "1.5" 64 = some 0x3FF8000000000000 ∧
    ParseFloat "-2.5e-3" 64 = some 0xBF647AE147AE147B ∧
    ParseFloat "0x1.8p1" 32 = some 0x4008000000000000 ∧
    ParseFloat "1_000" 64 = some 0x408F400000000000 ∧
    ParseFloat "-Inf" 64 = some 0xFFF0000000000000 ∧
    ParseFloat "16777217" 32 = some 0x4170000000000000 ∧
    ParseFloat "" 64 = none ∧
    ParseFloat "1e" 64 = none ∧
    ParseFloat "0x1" 64 = none ∧
    ParseFloat "1__0" 64 = none ∧
    ParseFloat "1.5x" 64 = none ∧
    ParseFloat "1e999" 64 = none :=
  ⟨by rfl, by rfl, by rfl, by rfl, by rfl, by rfl, by rfl, by rfl, by rfl, by rfl, by rfl,
    by rfl, by rfl, by rfl, by rfl⟩

/-- The second row of `unmarshalTests`: with `STRING=foo`, `FLOAT=0.1` and
`INT=1`, `Unmarshal(new(B))` returns no error and leaves
`B\x7bString: "foo", Float: 0.1, Int: 1\x7d`, the `float32` nearest to `0.1`. -/
theorem Unmarshal_test_B :
    Unmarshal platform64 (environOf [("STRING", "foo"), ("FLOAT", "0.1"), ("INT", "1")])
        (some (.ptr (zero (.struct "env.B"
          [⟨"String", stringType, "STRING", true⟩,
           ⟨"Float", ⟨"float32", .Float32⟩, "FLOAT", true⟩,
           ⟨"Int", ⟨"int", .Int⟩, "INT", true⟩])))) =
      (some (.ptr (.struct "env.B"
          [exportedField "String" stringType "STRING" (.str "foo"),
           exportedField "Float" ⟨"float32", .Float32⟩ "FLOAT" (.float 0x3FB99999A0000000),
           exportedField "Int" ⟨"int", .Int⟩ "INT" (.int 1)])),
        .returned none) := by
  rfl

/-! ## The claims -/

/-- C1: a settable, non-ignored field without omitempty whose lookup key `k`
(the alias if non-empty, otherwise the declared name) is absent from the
environment or set to the empty string makes `Unmarshal` return an error whose
message is exactly `env: environment variable k is not set`, provided no
earlier field fails; the fields before it are bound, the field and the fields
after it are as before. -/
theorem C1_missing_variable (pf : Platform) (env : Environ) (target : Value) (fs : List Frame)
    (name : String) (pre post : List Field) (f : Field) (k : String)
    (hres : indirect (.ptr target) = some (fs, .struct name (pre ++ f :: post), none))
    (hreach : (unmarshalFields pf env pre).2 = none)
    (hset : f.CanSet = true)
    (hign : (parseTag f.decl.Tag).ignored = false)
    (homit : (parseTag f.decl.Tag).omitEmpty = false)
    (hk : k = if (parseTag f.decl.Tag).aliasName ≠ "" then (parseTag f.decl.Tag).aliasName
      else f.decl.Name)
    (hval : env k = none ∨ env k = some "") :
    ∃ err : GoError,
      Unmarshal pf env (some (.ptr target)) =
        (some (plug fs (.struct name ((unmarshalFields pf env pre).1 ++ f :: post))),
          .returned (some err)) ∧
      err.Error = "env: environment variable " ++ k ++ " is not set" := by
  have hkey : lookupKey f = k := by rw [hk]; rfl
  have hget : Getenv env (lookupKey f) = "" := by
    rw [hkey]
    rcases hval with h | h <;> simp [Getenv, h]
  have hstep : unmarshalField pf env f =
      .fail (.errorString ("env: environment variable " ++ k ++ " is not set")) := by
    rw [← hkey]
    simp [unmarshalField, hset, hign, homit, hget]
  refine ⟨.errorString ("env: environment variable " ++ k ++ " is not set"), ?_, rfl⟩
  rw [Unmarshal_at_field pf env target fs name pre post f hres hreach, hstep]

/-- C1 at the structure `E` of the tests, `Required string`, in the empty
environment. -/
theorem C1_missing_variable_witness :
    ∃ err : GoError,
      Unmarshal platform64 (environOf [])
          (some (.ptr (.struct "env.E" [exportedField "Required" stringType "" (.str "")]))) =
        (some (plug [.deref]
          (.struct "env.E" ([] ++ exportedField "Required" stringType "" (.str "") :: []))),
          .returned (some err)) ∧
      err.Error = "env: environment variable " ++ "Required" ++ " is not set" :=
  C1_missing_variable platform64 (environOf []) _ [.deref] "env.E" []
    [] (exportedField "Required" stringType "" (.str "")) "Required"
    (by rfl) (by rfl) (by rfl) (by rfl) (by rfl) (by rfl) (by left; rfl)

/-- C2: for a settable, non-ignored field of a signed integer kind with bit
width `w` (8 for `int8`, 16 for `int16`, 32 for `int32`, 64 for `int64`, the
platform width for `int`) whose variable holds the non-empty text `s`: when `s`
is an optional sign followed by decimal digits denoting an integer `n` with
`-2^(w-1) ≤ n ≤ 2^(w-1) - 1` (`specSigned w s = some n`) the pass for the field
assigns exactly `n`, and otherwise it fails with the `UnmarshalTypeError` of the
lookup key, `s` and the field's type. In a structure, when no earlier field
fails, `Unmarshal` accordingly leaves the field at `n` and goes on, or returns
that error with the field and all later fields as they were; and whenever `s`
is no such numeral `Unmarshal` returns an error and the field keeps its
value. -/
theorem C2_signed_integer_field (pf : Platform) (env : Environ) (target : Value)
    (fs : List Frame) (name : String) (pre post : List Field) (f : Field) (s : String)
    (w : Nat)
    (hres : indirect (.ptr target) = some (fs, .struct name (pre ++ f :: post), none))
    (hsize : pf.IntSize = 32 ∨ pf.IntSize = 64)
    (hset : f.CanSet = true)
    (hign : (parseTag f.decl.Tag).ignored = false)
    (hkind : (f.decl.Typ.kind = .Int8 ∧ w = 8) ∨ (f.decl.Typ.kind = .Int16 ∧ w = 16) ∨
      (f.decl.Typ.kind = .Int32 ∧ w = 32) ∨ (f.decl.Typ.kind = .Int64 ∧ w = 64) ∨
      (f.decl.Typ.kind = .Int ∧ w = pf.IntSize))
    (hs : env (lookupKey f) = some s) (hne : s ≠ "") :
    unmarshalField pf env f =
      (match specSigned w s with
      | some n => .assign (.int n)
      | none => .fail (.UnmarshalTypeError (lookupKey f) s f.decl.Typ)) ∧
    ((unmarshalFields pf env pre).2 = none →
      Unmarshal pf env (some (.ptr target)) =
        (match specSigned w s with
        | some n =>
          (some (plug fs (.struct name
            ((unmarshalFields pf env pre).1 ++ ⟨f.decl, .int n⟩ ::
              (unmarshalFields pf env post).1))),
            .returned (unmarshalFields pf env post).2)
        | none =>
          (some (plug fs (.struct name ((unmarshalFields pf env pre).1 ++ f :: post))),
            .returned (some (.UnmarshalTypeError (lookupKey f) s f.decl.Typ))))) ∧
    (specSigned w s = none →
      ∃ fields' err, Unmarshal pf env (some (.ptr target)) =
          (some (plug fs (.struct name fields')), .returned (some err)) ∧
        fields'[pre.length]? = some f) ∧
    (∀ n, specSigned w s = some n ↔
      (signedDecimal s = some n ∧ -(2 ^ (w - 1) : Int) ≤ n ∧ n ≤ 2 ^ (w - 1) - 1)) := by
  have hbits : f.decl.Typ.kind.Bits pf.IntSize = w := by
    rcases hkind with ⟨hk, hw⟩ | ⟨hk, hw⟩ | ⟨hk, hw⟩ | ⟨hk, hw⟩ | ⟨hk, hw⟩ <;>
      rw [hk, hw] <;> rfl
  have hkind' : f.decl.Typ.kind = .Int ∨ f.decl.Typ.kind = .Int8 ∨ f.decl.Typ.kind = .Int16 ∨
      f.decl.Typ.kind = .Int32 ∨ f.decl.Typ.kind = .Int64 := by
    rcases hkind with ⟨hk, -⟩ | ⟨hk, -⟩ | ⟨hk, -⟩ | ⟨hk, -⟩ | ⟨hk, -⟩ <;> simp [hk]
  have hget : Getenv env (lookupKey f) = s := by simp [Getenv, hs]
  have hstep : unmarshalField pf env f =
      (match specSigned w s with
      | some n => .assign (.int n)
      | none => .fail (.UnmarshalTypeError (lookupKey f) s f.decl.Typ)) := by
    rw [unmarshalField_convert pf env f hset hign (by rw [hget]; exact hne), hget, ← hbits]
    exact convert_signed pf hsize _ _ _ hkind'
  refine ⟨hstep, ?_, ?_, ?_⟩
  · intro hreach
    rw [Unmarshal_at_field pf env target fs name pre post f hres hreach, hstep]
    cases specSigned w s <;> rfl
  · intro hnone
    rw [hnone] at hstep
    exact Unmarshal_fail_at pf env target fs name pre post f _ hres hstep
  · intro n
    unfold specSigned
    cases hd : signedDecimal s with
    | none => simp
    | some m =>
      simp only [Option.some.injEq]
      constructor
      · intro h
        split at h
        · rename_i hr
          simp only [Option.some.injEq] at h
          subst h
          exact ⟨rfl, hr⟩
        · cases h
      · rintro ⟨rfl, hr⟩
        rw [if_pos hr]

/-- C2 at a field of each signed kind, on a 64-bit platform, the field
holding `5` before: an `int8` field takes `-128` and `+127` and rejects `128`,
`-129` and `12a` with the type error, keeping `5`; an `int16` field takes `128`
and `32767` and rejects `32768`; an `int32` field takes `32768` and
`-2147483648` and rejects `2147483648`; an `int64` field takes `2147483648` and
`9223372036854775807` and rejects `9223372036854775808`; an `int` field takes
`1` and `-9223372036854775808` and rejects `-9223372036854775809`. -/
theorem C2_signed_integer_field_witness :
    Unmarshal platform64 (environOf [("INT", "-128")])
        (some (.ptr (.struct "env.I8"
          [exportedField "Int" ⟨"int8", .Int8⟩ "INT" (.int 5)]))) =
      (some (.ptr (.struct "env.I8" [exportedField "Int" ⟨"int8", .Int8⟩ "INT" (.int (-128))])),
        .returned none) ∧
    Unmarshal platform64 (environOf [("INT", "+127")])
        (some (.ptr (.struct "env.I8"
          [exportedField "Int" ⟨"int8", .Int8⟩ "INT" (.int 5)]))) =
      (some (.ptr (.struct "env.I8" [exportedField "Int" ⟨"int8", .Int8⟩ "INT" (.int 127)])),
        .returned none) ∧
    Unmarshal platform64 (environOf [("INT", "128")])
        (some (.ptr (.struct "env.I8"
          [exportedField "Int" ⟨"int8", .Int8⟩ "INT" (.int 5)]))) =
      (some (.ptr (.struct "env.I8" [exportedField "Int" ⟨"int8", .Int8⟩ "INT" (.int 5)])),
        .returned (some (.UnmarshalTypeError "INT" "128" ⟨"int8", .Int8⟩))) ∧
    Unmarshal platform64 (environOf [("INT", "-129")])
        (some (.ptr (.struct "env.I8"
          [exportedField "Int" ⟨"int8", .Int8⟩ "INT" (.int 5)]))) =
      (some (.ptr (.struct "env.I8" [exportedField "Int" ⟨"int8", .Int8⟩ "INT" (.int 5)])),
        .returned (some (.UnmarshalTypeError "INT" "-129" ⟨"int8", .Int8⟩))) ∧
    Unmarshal platform64 (environOf [("INT", "12a")])
        (some (.ptr (.struct "env.I8"
          [exportedField "Int" ⟨"int8", .Int8⟩ "INT" (.int 5)]))) =
      (some (.ptr (.struct "env.I8" [exportedField "Int" ⟨"int8", .Int8⟩ "INT" (.int 5)])),
        .returned (some (.UnmarshalTypeError "INT" "12a" ⟨"int8", .Int8⟩))) ∧
    Unmarshal platform64 (environOf [("INT", "128")])
        (some (.ptr (.struct "env.I16"
          [exportedField "Int" ⟨"int16", .Int16⟩ "INT" (.int 5)]))) =
      (some (.ptr (.struct "env.I16" [exportedField "Int" ⟨"int16", .Int16⟩ "INT" (.int 128)])),
        .returned none) ∧
    Unmarshal platform64 (environOf [("INT", "32767")])
        (some (.ptr (.struct "env.I16"
          [exportedField "Int" ⟨"int16", .Int16⟩ "INT" (.int 5)]))) =
      (some (.ptr (.struct "env.I16" [exportedField "Int" ⟨"int16", .Int16⟩ "INT" (.int 32767)])),
        .returned none) ∧
    Unmarshal platform64 (environOf [("INT", "32768")])
        (some (.ptr (.struct "env.I16"
          [exportedField "Int" ⟨"int16", .Int16⟩ "INT" (.int 5)]))) =
      (some (.ptr (.struct "env.I16" [exportedField "Int" ⟨"int16", .Int16⟩ "INT" (.int 5)])),
        .returned (some (.UnmarshalTypeError "INT" "32768" ⟨"int16", .Int16⟩))) ∧
    Unmarshal platform64 (environOf [("INT", "32768")])
        (some (.ptr (.struct "env.I32"
          [exportedField "Int" ⟨"int32", .Int32⟩ "INT" (.int 5)]))) =
      (some (.ptr (.struct "env.I32" [exportedField "Int" ⟨"int32", .Int32⟩ "INT" (.int 32768)])),
        .returned none) ∧
    Unmarshal platform64 (environOf [("INT", "-2147483648")])
        (some (.ptr (.struct "env.I32"
          [exportedField "Int" ⟨"int32", .Int32⟩ "INT" (.int 5)]))) =
      (some (.ptr (.struct "env.I32" [exportedField "Int" ⟨"int32", .Int32⟩ "INT" (.int (-2147483648))])),
        .returned none) ∧
    Unmarshal platform64 (environOf [("INT", "2147483648")])
        (some (.ptr (.struct "env.I32"
          [exportedField "Int" ⟨"int32", .Int32⟩ "INT" (.int 5)]))) =
      (some (.ptr (.struct "env.I32" [exportedField "Int" ⟨"int32", .Int32⟩ "INT" (.int 5)])),
        .returned (some (.UnmarshalTypeError "INT" "2147483648" ⟨"int32", .Int32⟩))) ∧
    Unmarshal platform64 (environOf [("INT", "2147483648")])
        (some (.ptr (.struct "env.I64"
          [exportedField "Int" ⟨"int64", .Int64⟩ "INT" (.int 5)]))) =
      (some (.ptr (.struct "env.I64" [exportedField "Int" ⟨"int64", .Int64⟩ "INT" (.int 2147483648)])),
        .returned none) ∧
    Unmarshal platform64 (environOf [("INT", "9223372036854775807")])
        (some (.ptr (.struct "env.I64"
          [exportedField "Int" ⟨"int64", .Int64⟩ "INT" (.int 5)]))) =
      (some (.ptr (.struct "env.I64" [exportedField "Int" ⟨"int64", .Int64⟩ "INT" (.int 9223372036854775807)])),
        .returned none) ∧
    Unmarshal platform64 (environOf [("INT", "9223372036854775808")])
        (some (.ptr (.struct "env.I64"
          [exportedField "Int" ⟨"int64", .Int64⟩ "INT" (.int 5)]))) =
      (some (.ptr (.struct "env.I64" [exportedField "Int" ⟨"int64", .Int64⟩ "INT" (.int 5)])),
        .returned (some (.UnmarshalTypeError "INT" "9223372036854775808" ⟨"int64", .Int64⟩))) ∧
    Unmarshal platform64 (environOf [("INT", "1")])
        (some (.ptr (.struct "env.I"
          [exportedField "Int" ⟨"int", .Int⟩ "INT" (.int 5)]))) =
      (some (.ptr (.struct "env.I" [exportedField "Int" ⟨"int", .Int⟩ "INT" (.int 1)])),
        .returned none) ∧
    Unmarshal platform64 (environOf [("INT", "-9223372036854775808")])
        (some (.ptr (.struct "env.I"
          [exportedField "Int" ⟨"int", .Int⟩ "INT" (.int 5)]))) =
      (some (.ptr (.struct "env.I" [exportedField "Int" ⟨"int", .Int⟩ "INT" (.int (-9223372036854775808))])),
        .returned none) ∧
    Unmarshal platform64 (environOf [("INT", "-9223372036854775809")])
        (some (.ptr (.struct "env.I"
          [exportedField "Int" ⟨"int", .Int⟩ "INT" (.int 5)]))) =
      (some (.ptr (.struct "env.I" [exportedField "Int" ⟨"int", .Int⟩ "INT" (.int 5)])),
        .returned (some (.UnmarshalTypeError "INT" "-9223372036854775809" ⟨"int", .Int⟩))) :=
  ⟨(by
      exact (C2_signed_integer_field platform64 (environOf [("INT", "-128")])
        (.struct "env.I8" [exportedField "Int" ⟨"int8", .Int8⟩ "INT" (.int 5)])
        [.deref] "env.I8" [] [] (exportedField "Int" ⟨"int8", .Int8⟩ "INT" (.int 5))
        "-128" 8
        (by rfl) (by right; rfl) (by rfl) (by rfl)
        (Or.inl ⟨rfl, rfl⟩) (by rfl)
        (by decide)).2.1 (by rfl)),
    (by
      exact (C2_signed_integer_field platform64 (environOf [("INT", "+127")])
        (.struct "env.I8" [exportedField "Int" ⟨"int8", .Int8⟩ "INT" (.int 5)])
        [.deref] "env.I8" [] [] (exportedField "Int" ⟨"int8", .Int8⟩ "INT" (.int 5))
        "+127" 8
        (by rfl) (by right; rfl) (by rfl) (by rfl)
        (Or.inl ⟨rfl, rfl⟩) (by rfl)
        (by decide)).2.1 (by rfl)),
    (by
      exact (C2_signed_integer_field platform64 (environOf [("INT", "128")])
        (.struct "env.I8" [exportedField "Int" ⟨"int8", .Int8⟩ "INT" (.int 5)])
        [.deref] "env.I8" [] [] (exportedField "Int" ⟨"int8", .Int8⟩ "INT" (.int 5))
        "128" 8
        (by rfl) (by right; rfl) (by rfl) (by rfl)
        (Or.inl ⟨rfl, rfl⟩) (by rfl)
        (by decide)).2.1 (by rfl)),
    (by
      exact (C2_signed_integer_field platform64 (environOf [("INT", "-129")])
        (.struct "env.I8" [exportedField "Int" ⟨"int8", .Int8⟩ "INT" (.int 5)])
        [.deref] "env.I8" [] [] (exportedField "Int" ⟨"int8", .Int8⟩ "INT" (.int 5))
        "-129" 8
        (by rfl) (by right; rfl) (by rfl) (by rfl)
        (Or.inl ⟨rfl, rfl⟩) (by rfl)
        (by decide)).2.1 (by rfl)),
    (by
      exact (C2_signed_integer_field platform64 (environOf [("INT", "12a")])
        (.struct "env.I8" [exportedField "Int" ⟨"int8", .Int8⟩ "INT" (.int 5)])
        [.deref] "env.I8" [] [] (exportedField "Int" ⟨"int8", .Int8⟩ "INT" (.int 5))
        "12a" 8
        (by rfl) (by right; rfl) (by rfl) (by rfl)
        (Or.inl ⟨rfl, rfl⟩) (by rfl)
        (by decide)).2.1 (by rfl)),
    (by
      exact (C2_signed_integer_field platform64 (environOf [("INT", "128")])
        (.struct "env.I16" [exportedField "Int" ⟨"int16", .Int16⟩ "INT" (.int 5)])
        [.deref] "env.I16" [] [] (exportedField "Int" ⟨"int16", .Int16⟩ "INT" (.int 5))
        "128" 16
        (by rfl) (by right; rfl) (by rfl) (by rfl)
        (Or.inr (Or.inl ⟨rfl, rfl⟩)) (by rfl)
        (by decide)).2.1 (by rfl)),
    (by
      exact (C2_signed_integer_field platform64 (environOf [("INT", "32767")])
        (.struct "env.I16" [exportedField "Int" ⟨"int16", .Int16⟩ "INT" (.int 5)])
        [.deref] "env.I16" [] [] (exportedField "Int" ⟨"int16", .Int16⟩ "INT" (.int 5))
        "32767" 16
        (by rfl) (by right; rfl) (by rfl) (by rfl)
        (Or.inr (Or.inl ⟨rfl, rfl⟩)) (by rfl)
        (by decide)).2.1 (by rfl)),
    (by
      exact (C2_signed_integer_field platform64 (environOf [("INT", "32768")])
        (.struct "env.I16" [exportedField "Int" ⟨"int16", .Int16⟩ "INT" (.int 5)])
        [.deref] "env.I16" [] [] (exportedField "Int" ⟨"int16", .Int16⟩ "INT" (.int 5))
        "32768" 16
        (by rfl) (by right; rfl) (by rfl) (by rfl)
        (Or.inr (Or.inl ⟨rfl, rfl⟩)) (by rfl)
        (by decide)).2.1 (by rfl)),
    (by
      exact (C2_signed_integer_field platform64 (environOf [("INT", "32768")])
        (.struct "env.I32" [exportedField "Int" ⟨"int32", .Int32⟩ "INT" (.int 5)])
        [.deref] "env.I32" [] [] (exportedField "Int" ⟨"int32", .Int32⟩ "INT" (.int 5))
        "32768" 32
        (by rfl) (by right; rfl) (by rfl) (by rfl)
        (Or.inr (Or.inr (Or.inl ⟨rfl, rfl⟩))) (by rfl)
        (by decide)).2.1 (by rfl)),
    (by
      exact (C2_signed_integer_field platform64 (environOf [("INT", "-2147483648")])
        (.struct "env.I32" [exportedField "Int" ⟨"int32", .Int32⟩ "INT" (.int 5)])
        [.deref] "env.I32" [] [] (exportedField "Int" ⟨"int32", .Int32⟩ "INT" (.int 5))
        "-2147483648" 32
        (by rfl) (by right; rfl) (by rfl) (by rfl)
        (Or.inr (Or.inr (Or.inl ⟨rfl, rfl⟩))) (by rfl)
        (by decide)).2.1 (by rfl)),
    (by
      exact (C2_signed_integer_field platform64 (environOf [("INT", "2147483648")])
        (.struct "env.I32" [exportedField "Int" ⟨"int32", .Int32⟩ "INT" (.int 5)])
        [.deref] "env.I32" [] [] (exportedField "Int" ⟨"int32", .Int32⟩ "INT" (.int 5))
        "2147483648" 32
        (by rfl) (by right; rfl) (by rfl) (by rfl)
        (Or.inr (Or.inr (Or.inl ⟨rfl, rfl⟩))) (by rfl)
        (by decide)).2.1 (by rfl)),
    (by
      exact (C2_signed_integer_field platform64 (environOf [("INT", "2147483648")])
        (.struct "env.I64" [exportedField "Int" ⟨"int64", .Int64⟩ "INT" (.int 5)])
        [.deref] "env.I64" [] [] (exportedField "Int" ⟨"int64", .Int64⟩ "INT" (.int 5))
        "2147483648" 64
        (by rfl) (by right; rfl) (by rfl) (by rfl)
        (Or.inr (Or.inr (Or.inr (Or.inl ⟨rfl, rfl⟩)))) (by rfl)
        (by decide)).2.1 (by rfl)),
    (by
      exact (C2_signed_integer_field platform64 (environOf [("INT", "9223372036854775807")])
        (.struct "env.I64" [exportedField "Int" ⟨"int64", .Int64⟩ "INT" (.int 5)])
        [.deref] "env.I64" [] [] (exportedField "Int" ⟨"int64", .Int64⟩ "INT" (.int 5))
        "9223372036854775807" 64
        (by rfl) (by right; rfl) (by rfl) (by rfl)
        (Or.inr (Or.inr (Or.inr (Or.inl ⟨rfl, rfl⟩)))) (by rfl)
        (by decide)).2.1 (by rfl)),
    (by
      exact (C2_signed_integer_field platform64 (environOf [("INT", "9223372036854775808")])
        (.struct "env.I64" [exportedField "Int" ⟨"int64", .Int64⟩ "INT" (.int 5)])
        [.deref] "env.I64" [] [] (exportedField "Int" ⟨"int64", .Int64⟩ "INT" (.int 5))
        "9223372036854775808" 64
        (by rfl) (by right; rfl) (by rfl) (by rfl)
        (Or.inr (Or.inr (Or.inr (Or.inl ⟨rfl, rfl⟩)))) (by rfl)
        (by decide)).2.1 (by rfl)),
    (by
      exact (C2_signed_integer_field platform64 (environOf [("INT", "1")])
        (.struct "env.I" [exportedField "Int" ⟨"int", .Int⟩ "INT" (.int 5)])
        [.deref] "env.I" [] [] (exportedField "Int" ⟨"int", .Int⟩ "INT" (.int 5))
        "1" 64
        (by rfl) (by right; rfl) (by rfl) (by rfl)
        (Or.inr (Or.inr (Or.inr (Or.inr (⟨rfl, rfl⟩))))) (by rfl)
        (by decide)).2.1 (by rfl)),
    (by
      exact (C2_signed_integer_field platform64 (environOf [("INT", "-9223372036854775808")])
        (.struct "env.I" [exportedField "Int" ⟨"int", .Int⟩ "INT" (.int 5)])
        [.deref] "env.I" [] [] (exportedField "Int" ⟨"int", .Int⟩ "INT" (.int 5))
        "-9223372036854775808" 64
        (by rfl) (by right; rfl) (by rfl) (by rfl)
        (Or.inr (Or.inr (Or.inr (Or.inr (⟨rfl, rfl⟩))))) (by rfl)
        (by decide)).2.1 (by rfl)),
    (by
      exact (C2_signed_integer_field platform64 (environOf [("INT", "-9223372036854775809")])
        (.struct "env.I" [exportedField "Int" ⟨"int", .Int⟩ "INT" (.int 5)])
        [.deref] "env.I" [] [] (exportedField "Int" ⟨"int", .Int⟩ "INT" (.int 5))
        "-9223372036854775809" 64
        (by rfl) (by right; rfl) (by rfl) (by rfl)
        (Or.inr (Or.inr (Or.inr (Or.inr (⟨rfl, rfl⟩))))) (by rfl)
        (by decide)).2.1 (by rfl))⟩

/-- C7: for a settable, non-ignored field of string kind whose variable holds
the non-empty text `s`, the pass for the field never fails and assigns exactly
`s`, whatever the tag says about omitempty; in a structure, when no earlier
field fails, `Unmarshal` leaves the field at `s` and goes on to the next
field. -/
theorem C7_string_field (pf : Platform) (env : Environ) (target : Value)
    (fs : List Frame) (name : String) (pre post : List Field) (f : Field) (s : String)
    (hres : indirect (.ptr target) = some (fs, .struct name (pre ++ f :: post), none))
    (hset : f.CanSet = true)
    (hign : (parseTag f.decl.Tag).ignored = false)
    (hkind : f.decl.Typ.kind = .String)
    (hs : env (lookupKey f) = some s) (hne : s ≠ "") :
    unmarshalField pf env f = .assign (.str s) ∧
    ((unmarshalFields pf env pre).2 = none →
      Unmarshal pf env (some (.ptr target)) =
        (some (plug fs (.struct name
          ((unmarshalFields pf env pre).1 ++ ⟨f.decl, .str s⟩ ::
            (unmarshalFields pf env post).1))),
          .returned (unmarshalFields pf env post).2)) := by
  have hget : Getenv env (lookupKey f) = s := by simp [Getenv, hs]
  have hstep : unmarshalField pf env f = .assign (.str s) := by
    rw [unmarshalField_convert pf env f hset hign (by rw [hget]; exact hne), hget]
    simp only [convert, hkind]
  refine ⟨hstep, ?_⟩
  intro hreach
  rw [Unmarshal_at_field pf env target fs name pre post f hres hreach, hstep]

/-- C7 at the structure `D` of the tests, `OmitEmpty string` tagged
`OMITEMPTY,omitempty`, with `OMITEMPTY` set to a text with blanks around it:
the field holds the text as it is. -/
theorem C7_string_field_witness :
    Unmarshal platform64 (environOf [("OMITEMPTY", " foo ")])
        (some (.ptr (.struct "env.D"
          [exportedField "OmitEmpty" stringType "OMITEMPTY,omitempty" (.str "")]))) =
      (some (.ptr (.struct "env.D"
          [exportedField "OmitEmpty" stringType "OMITEMPTY,omitempty" (.str " foo ")])),
        .returned none) :=
  (C7_string_field platform64 (environOf [("OMITEMPTY", " foo ")])
    (.struct "env.D" [exportedField "OmitEmpty" stringType "OMITEMPTY,omitempty" (.str "")])
    [.deref] "env.D" [] []
    (exportedField "OmitEmpty" stringType "OMITEMPTY,omitempty" (.str "")) " foo "
    (by rfl) (by rfl) (by rfl) (by rfl) (by rfl) (by decide)).2 (by rfl)

/-- C8, where the claim fails: `uintptr` is an unsigned integer kind, 64 bits
wide on a 64-bit platform, and `5` is a decimal numeral within its range, yet a
settable, non-ignored `uintptr` field whose variable holds `5` is not bound:
`Unmarshal` fails with the type error and the field keeps its value. -/
theorem C8_uintptr_field_rejected :
    unsignedDecimal "5" = some 5 ∧ (5 : Nat) ≤ 2 ^ 64 - 1 ∧
    Kind.Bits 64 .Uintptr = 64 ∧
    Unmarshal platform64 (environOf [("ADDR", "5")])
        (some (.ptr (.struct "env.Q"
          [exportedField "Addr" ⟨"uintptr", .Uintptr⟩ "ADDR" (.uint 7)]))) =
      (some (.ptr (.struct "env.Q"
          [exportedField "Addr" ⟨"uintptr", .Uintptr⟩ "ADDR" (.uint 7)])),
        .returned (some (.UnmarshalTypeError "ADDR" "5" ⟨"uintptr", .Uintptr⟩))) :=
  ⟨by rfl, by decide, by rfl, by rfl⟩

/-- C8 as amended: for a settable, non-ignored field of an unsigned integer
kind with bit width `w` (8 for `uint8`, 16 for `uint16`, 32 for `uint32`, 64
for `uint64`, the platform width for `uint` and `uintptr`) whose variable
holds the non-empty text `s`: when the kind is not `uintptr` and `s` is one or
more decimal digits denoting a number `n ≤ 2^w - 1` the pass for the field
assigns exactly `n`; otherwise (so for every `s` that begins with a sign, and
for every `s` on a `uintptr` field) it fails with the `UnmarshalTypeError` of
the lookup key, `s` and the field's type. In a structure, when no earlier field
fails, `Unmarshal` accordingly leaves the field at `n` and goes on, or returns
that error with the field and all later fields as they were; and whenever the
pass fails `Unmarshal` returns an error and the field keeps its value. -/
theorem C8_unsigned_integer_field (pf : Platform) (env : Environ) (target : Value)
    (fs : List Frame) (name : String) (pre post : List Field) (f : Field) (s : String)
    (w : Nat)
    (hres : indirect (.ptr target) = some (fs, .struct name (pre ++ f :: post), none))
    (hsize : pf.IntSize = 32 ∨ pf.IntSize = 64)
    (hset : f.CanSet = true)
    (hign : (parseTag f.decl.Tag).ignored = false)
    (hkind : (f.decl.Typ.kind = .Uint8 ∧ w = 8) ∨ (f.decl.Typ.kind = .Uint16 ∧ w = 16) ∨
      (f.decl.Typ.kind = .Uint32 ∧ w = 32) ∨ (f.decl.Typ.kind = .Uint64 ∧ w = 64) ∨
      (f.decl.Typ.kind = .Uint ∧ w = pf.IntSize) ∨
      (f.decl.Typ.kind = .Uintptr ∧ w = pf.IntSize))
    (hs : env (lookupKey f) = some s) (hne : s ≠ "") :
    unmarshalField pf env f =
      (match (if f.decl.Typ.kind = .Uintptr then none else specUnsigned w s) with
      | some n => .assign (.uint n)
      | none => .fail (.UnmarshalTypeError (lookupKey f) s f.decl.Typ)) ∧
    ((unmarshalFields pf env pre).2 = none →
      Unmarshal pf env (some (.ptr target)) =
        (match (if f.decl.Typ.kind = .Uintptr then none else specUnsigned w s) with
        | some n =>
          (some (plug fs (.struct name
            ((unmarshalFields pf env pre).1 ++ ⟨f.decl, .uint n⟩ ::
              (unmarshalFields pf env post).1))),
            .returned (unmarshalFields pf env post).2)
        | none =>
          (some (plug fs (.struct name ((unmarshalFields pf env pre).1 ++ f :: post))),
            .returned (some (.UnmarshalTypeError (lookupKey f) s f.decl.Typ))))) ∧
    ((if f.decl.Typ.kind = .Uintptr then none else specUnsigned w s) = none →
      ∃ fields' err, Unmarshal pf env (some (.ptr target)) =
          (some (plug fs (.struct name fields')), .returned (some err)) ∧
        fields'[pre.length]? = some f) ∧
    (∀ n, specUnsigned w s = some n ↔ (unsignedDecimal s = some n ∧ n ≤ 2 ^ w - 1)) ∧
    (∀ c rest, s.data = c :: rest → c = '+' ∨ c = '-' → specUnsigned w s = none) := by
  have hget : Getenv env (lookupKey f) = s := by simp [Getenv, hs]
  have hstep : unmarshalField pf env f =
      (match (if f.decl.Typ.kind = .Uintptr then none else specUnsigned w s) with
      | some n => .assign (.uint n)
      | none => .fail (.UnmarshalTypeError (lookupKey f) s f.decl.Typ)) := by
    rw [unmarshalField_convert pf env f hset hign (by rw [hget]; exact hne), hget]
    by_cases hp : f.decl.Typ.kind = .Uintptr
    · rw [if_pos hp]
      simp only [convert, hp]
    · rw [if_neg hp]
      have hbits : f.decl.Typ.kind.Bits pf.IntSize = w := by
        rcases hkind with ⟨hk, hw⟩ | ⟨hk, hw⟩ | ⟨hk, hw⟩ | ⟨hk, hw⟩ | ⟨hk, hw⟩ | ⟨hk, hw⟩ <;>
          rw [hk, hw] <;> rfl
      have hkind' : f.decl.Typ.kind = .Uint ∨ f.decl.Typ.kind = .Uint8 ∨
          f.decl.Typ.kind = .Uint16 ∨ f.decl.Typ.kind = .Uint32 ∨ f.decl.Typ.kind = .Uint64 := by
        rcases hkind with ⟨hk, -⟩ | ⟨hk, -⟩ | ⟨hk, -⟩ | ⟨hk, -⟩ | ⟨hk, -⟩ | ⟨hk, -⟩
        · simp [hk]
        · simp [hk]
        · simp [hk]
        · simp [hk]
        · simp [hk]
        · exact absurd hk hp
      rw [← hbits]
      exact convert_unsigned pf hsize _ _ _ hkind'
  refine ⟨hstep, ?_, ?_, ?_, ?_⟩
  · intro hreach
    rw [Unmarshal_at_field pf env target fs name pre post f hres hreach, hstep]
    cases (if f.decl.Typ.kind = .Uintptr then none else specUnsigned w s) <;> rfl
  · intro hnone
    rw [hnone] at hstep
    exact Unmarshal_fail_at pf env target fs name pre post f _ hres hstep
  · intro n
    unfold specUnsigned
    cases hd : unsignedDecimal s with
    | none => simp
    | some m =>
      simp only [Option.some.injEq]
      constructor
      · intro h
        split at h
        · rename_i hr
          simp only [Option.some.injEq] at h
          subst h
          exact ⟨rfl, hr⟩
        · cases h
      · rintro ⟨rfl, hr⟩
        rw [if_pos hr]
  · intro c rest hdata hc
    simp only [specUnsigned, unsignedDecimal_sign s c rest hdata hc]

/-- C8 as amended at a field of each unsigned kind, on a 64-bit platform,
the field holding `7` before: a `uint8` field takes `255` and rejects `256`,
`+5` and `-5` with the type error, keeping `7`; a `uint16` field takes `256` and
`65535` and rejects `65536`; a `uint32` field takes `65536` and `4294967295`
and rejects `4294967296`; a `uint64` field and a `uint` field take
`18446744073709551615` and reject `18446744073709551616`; a `uintptr` field
rejects `5`. -/
theorem C8_unsigned_integer_field_witness :
    Unmarshal platform64 (environOf [("PORT", "255")])
        (some (.ptr (.struct "env.U8"
          [exportedField "Port" ⟨"uint8", .Uint8⟩ "PORT" (.uint 7)]))) =
      (some (.ptr (.struct "env.U8" [exportedField "Port" ⟨"uint8", .Uint8⟩ "PORT" (.uint 255)])),
        .returned none) ∧
    Unmarshal platform64 (environOf [("PORT", "256")])
        (some (.ptr (.struct "env.U8"
          [exportedField "Port" ⟨"uint8", .Uint8⟩ "PORT" (.uint 7)]))) =
      (some (.ptr (.struct "env.U8" [exportedField "Port" ⟨"uint8", .Uint8⟩ "PORT" (.uint 7)])),
        .returned (some (.UnmarshalTypeError "PORT" "256" ⟨"uint8", .Uint8⟩))) ∧
    Unmarshal platform64 (environOf [("PORT", "+5")])
        (some (.ptr (.struct "env.U8"
          [exportedField "Port" ⟨"uint8", .Uint8⟩ "PORT" (.uint 7)]))) =
      (some (.ptr (.struct "env.U8" [exportedField "Port" ⟨"uint8", .Uint8⟩ "PORT" (.uint 7)])),
        .returned (some (.UnmarshalTypeError "PORT" "+5" ⟨"uint8", .Uint8⟩))) ∧
    Unmarshal platform64 (environOf [("PORT", "-5")])
        (some (.ptr (.struct "env.U8"
          [exportedField "Port" ⟨"uint8", .Uint8⟩ "PORT" (.uint 7)]))) =
      (some (.ptr (.struct "env.U8" [exportedField "Port" ⟨"uint8", .Uint8⟩ "PORT" (.uint 7)])),
        .returned (some (.UnmarshalTypeError "PORT" "-5" ⟨"uint8", .Uint8⟩))) ∧
    Unmarshal platform64 (environOf [("PORT", "256")])
        (some (.ptr (.struct "env.U16"
          [exportedField "Port" ⟨"uint16", .Uint16⟩ "PORT" (.uint 7)]))) =
      (some (.ptr (.struct "env.U16" [exportedField "Port" ⟨"uint16", .Uint16⟩ "PORT" (.uint 256)])),
        .returned none) ∧
    Unmarshal platform64 (environOf [("PORT", "65535")])
        (some (.ptr (.struct "env.U16"
          [exportedField "Port" ⟨"uint16", .Uint16⟩ "PORT" (.uint 7)]))) =
      (some (.ptr (.struct "env.U16" [exportedField "Port" ⟨"uint16", .Uint16⟩ "PORT" (.uint 65535)])),
        .returned none) ∧
    Unmarshal platform64 (environOf [("PORT", "65536")])
        (some (.ptr (.struct "env.U16"
          [exportedField "Port" ⟨"uint16", .Uint16⟩ "PORT" (.uint 7)]))) =
      (some (.ptr (.struct "env.U16" [exportedField "Port" ⟨"uint16", .Uint16⟩ "PORT" (.uint 7)])),
        .returned (some (.UnmarshalTypeError "PORT" "65536" ⟨"uint16", .Uint16⟩))) ∧
    Unmarshal platform64 (environOf [("PORT", "65536")])
        (some (.ptr (.struct "env.U32"
          [exportedField "Port" ⟨"uint32", .Uint32⟩ "PORT" (.uint 7)]))) =
      (some (.ptr (.struct "env.U32" [exportedField "Port" ⟨"uint32", .Uint32⟩ "PORT" (.uint 65536)])),
        .returned none) ∧
    Unmarshal platform64 (environOf [("PORT", "4294967295")])
        (some (.ptr (.struct "env.U32"
          [exportedField "Port" ⟨"uint32", .Uint32⟩ "PORT" (.uint 7)]))) =
      (some (.ptr (.struct "env.U32" [exportedField "Port" ⟨"uint32", .Uint32⟩ "PORT" (.uint 4294967295)])),
        .returned none) ∧
    Unmarshal platform64 (environOf [("PORT", "4294967296")])
        (some (.ptr (.struct "env.U32"
          [exportedField "Port" ⟨"uint32", .Uint32⟩ "PORT" (.uint 7)]))) =
      (some (.ptr (.struct "env.U32" [exportedField "Port" ⟨"uint32", .Uint32⟩ "PORT" (.uint 7)])),
        .returned (some (.UnmarshalTypeError "PORT" "4294967296" ⟨"uint32", .Uint32⟩))) ∧
    Unmarshal platform64 (environOf [("PORT", "4294967296")])
        (some (.ptr (.struct "env.U64"
          [exportedField "Port" ⟨"uint64", .Uint64⟩ "PORT" (.uint 7)]))) =
      (some (.ptr (.struct "env.U64" [exportedField "Port" ⟨"uint64", .Uint64⟩ "PORT" (.uint 4294967296)])),
        .returned none) ∧
    Unmarshal platform64 (environOf [("PORT", "18446744073709551615")])
        (some (.ptr (.struct "env.U64"
          [exportedField "Port" ⟨"uint64", .Uint64⟩ "PORT" (.uint 7)]))) =
      (some (.ptr (.struct "env.U64" [exportedField "Port" ⟨"uint64", .Uint64⟩ "PORT" (.uint 18446744073709551615)])),
        .returned none) ∧
    Unmarshal platform64 (environOf [("PORT", "18446744073709551616")])
        (some (.ptr (.struct "env.U64"
          [exportedField "Port" ⟨"uint64", .Uint64⟩ "PORT" (.uint 7)]))) =
      (some (.ptr (.struct "env.U64" [exportedField "Port" ⟨"uint64", .Uint64⟩ "PORT" (.uint 7)])),
        .returned (some (.UnmarshalTypeError "PORT" "18446744073709551616" ⟨"uint64", .Uint64⟩))) ∧
    Unmarshal platform64 (environOf [("PORT", "18446744073709551615")])
        (some (.ptr (.struct "env.U"
          [exportedField "Port" ⟨"uint", .Uint⟩ "PORT" (.uint 7)]))) =
      (some (.ptr (.struct "env.U" [exportedField "Port" ⟨"uint", .Uint⟩ "PORT" (.uint 18446744073709551615)])),
        .returned none) ∧
    Unmarshal platform64 (environOf [("PORT", "18446744073709551616")])
        (some (.ptr (.struct "env.U"
          [exportedField "Port" ⟨"uint", .Uint⟩ "PORT" (.uint 7)]))) =
      (some (.ptr (.struct "env.U" [exportedField "Port" ⟨"uint", .Uint⟩ "PORT" (.uint 7)])),
        .returned (some (.UnmarshalTypeError "PORT" "18446744073709551616" ⟨"uint", .Uint⟩))) ∧
    Unmarshal platform64 (environOf [("PORT", "5")])
        (some (.ptr (.struct "env.UP"
          [exportedField "Port" ⟨"uintptr", .Uintptr⟩ "PORT" (.uint 7)]))) =
      (some (.ptr (.struct "env.UP" [exportedField "Port" ⟨"uintptr", .Uintptr⟩ "PORT" (.uint 7)])),
        .returned (some (.UnmarshalTypeError "PORT" "5" ⟨"uintptr", .Uintptr⟩))) :=
  ⟨(by
      exact (C8_unsigned_integer_field platform64 (environOf [("PORT", "255")])
        (.struct "env.U8" [exportedField "Port" ⟨"uint8", .Uint8⟩ "PORT" (.uint 7)])
        [.deref] "env.U8" [] [] (exportedField "Port" ⟨"uint8", .Uint8⟩ "PORT" (.uint 7))
        "255" 8
        (by rfl) (by right; rfl) (by rfl) (by rfl)
        (Or.inl ⟨rfl, rfl⟩) (by rfl)
        (by decide)).2.1 (by rfl)),
    (by
      exact (C8_unsigned_integer_field platform64 (environOf [("PORT", "256")])
        (.struct "env.U8" [exportedField "Port" ⟨"uint8", .Uint8⟩ "PORT" (.uint 7)])
        [.deref] "env.U8" [] [] (exportedField "Port" ⟨"uint8", .Uint8⟩ "PORT" (.uint 7))
        "256" 8
        (by rfl) (by right; rfl) (by rfl) (by rfl)
        (Or.inl ⟨rfl, rfl⟩) (by rfl)
        (by decide)).2.1 (by rfl)),
    (by
      exact (C8_unsigned_integer_field platform64 (environOf [("PORT", "+5")])
        (.struct "env.U8" [exportedField "Port" ⟨"uint8", .Uint8⟩ "PORT" (.uint 7)])
        [.deref] "env.U8" [] [] (exportedField "Port" ⟨"uint8", .Uint8⟩ "PORT" (.uint 7))
        "+5" 8
        (by rfl) (by right; rfl) (by rfl) (by rfl)
        (Or.inl ⟨rfl, rfl⟩) (by rfl)
        (by decide)).2.1 (by rfl)),
    (by
      exact (C8_unsigned_integer_field platform64 (environOf [("PORT", "-5")])
        (.struct "env.U8" [exportedField "Port" ⟨"uint8", .Uint8⟩ "PORT" (.uint 7)])
        [.deref] "env.U8" [] [] (exportedField "Port" ⟨"uint8", .Uint8⟩ "PORT" (.uint 7))
        "-5" 8
        (by rfl) (by right; rfl) (by rfl) (by rfl)
        (Or.inl ⟨rfl, rfl⟩) (by rfl)
        (by decide)).2.1 (by rfl)),
    (by
      exact (C8_unsigned_integer_field platform64 (environOf [("PORT", "256")])
        (.struct "env.U16" [exportedField "Port" ⟨"uint16", .Uint16⟩ "PORT" (.uint 7)])
        [.deref] "env.U16" [] [] (exportedField "Port" ⟨"uint16", .Uint16⟩ "PORT" (.uint 7))
        "256" 16
        (by rfl) (by right; rfl) (by rfl) (by rfl)
        (Or.inr (Or.inl ⟨rfl, rfl⟩)) (by rfl)
        (by decide)).2.1 (by rfl)),
    (by
      exact (C8_unsigned_integer_field platform64 (environOf [("PORT", "65535")])
        (.struct "env.U16" [exportedField "Port" ⟨"uint16", .Uint16⟩ "PORT" (.uint 7)])
        [.deref] "env.U16" [] [] (exportedField "Port" ⟨"uint16", .Uint16⟩ "PORT" (.uint 7))
        "65535" 16
        (by rfl) (by right; rfl) (by rfl) (by rfl)
        (Or.inr (Or.inl ⟨rfl, rfl⟩)) (by rfl)
        (by decide)).2.1 (by rfl)),
    (by
      exact (C8_unsigned_integer_field platform64 (environOf [("PORT", "65536")])
        (.struct "env.U16" [exportedField "Port" ⟨"uint16", .Uint16⟩ "PORT" (.uint 7)])
        [.deref] "env.U16" [] [] (exportedField "Port" ⟨"uint16", .Uint16⟩ "PORT" (.uint 7))
        "65536" 16
        (by rfl) (by right; rfl) (by rfl) (by rfl)
        (Or.inr (Or.inl ⟨rfl, rfl⟩)) (by rfl)
        (by decide)).2.1 (by rfl)),
    (by
      exact (C8_unsigned_integer_field platform64 (environOf [("PORT", "65536")])
        (.struct "env.U32" [exportedField "Port" ⟨"uint32", .Uint32⟩ "PORT" (.uint 7)])
        [.deref] "env.U32" [] [] (exportedField "Port" ⟨"uint32", .Uint32⟩ "PORT" (.uint 7))
        "65536" 32
        (by rfl) (by right; rfl) (by rfl) (by rfl)
        (Or.inr (Or.inr (Or.inl ⟨rfl, rfl⟩))) (by rfl)
        (by decide)).2.1 (by rfl)),
    (by
      exact (C8_unsigned_integer_field platform64 (environOf [("PORT", "4294967295")])
        (.struct "env.U32" [exportedField "Port" ⟨"uint32", .Uint32⟩ "PORT" (.uint 7)])
        [.deref] "env.U32" [] [] (exportedField "Port" ⟨"uint32", .Uint32⟩ "PORT" (.uint 7))
        "4294967295" 32
        (by rfl) (by right; rfl) (by rfl) (by rfl)
        (Or.inr (Or.inr (Or.inl ⟨rfl, rfl⟩))) (by rfl)
        (by decide)).2.1 (by rfl)),
    (by
      exact (C8_unsigned_integer_field platform64 (environOf [("PORT", "4294967296")])
        (.struct "env.U32" [exportedField "Port" ⟨"uint32", .Uint32⟩ "PORT" (.uint 7)])
        [.deref] "env.U32" [] [] (exportedField "Port" ⟨"uint32", .Uint32⟩ "PORT" (.uint 7))
        "4294967296" 32
        (by rfl) (by right; rfl) (by rfl) (by rfl)
        (Or.inr (Or.inr (Or.inl ⟨rfl, rfl⟩))) (by rfl)
        (by decide)).2.1 (by rfl)),
    (by
      exact (C8_unsigned_integer_field platform64 (environOf [("PORT", "4294967296")])
        (.struct "env.U64" [exportedField "Port" ⟨"uint64", .Uint64⟩ "PORT" (.uint 7)])
        [.deref] "env.U64" [] [] (exportedField "Port" ⟨"uint64", .Uint64⟩ "PORT" (.uint 7))
        "4294967296" 64
        (by rfl) (by right; rfl) (by rfl) (by rfl)
        (Or.inr (Or.inr (Or.inr (Or.inl ⟨rfl, rfl⟩)))) (by rfl)
        (by decide)).2.1 (by rfl)),
    (by
      exact (C8_unsigned_integer_field platform64 (environOf [("PORT", "18446744073709551615")])
        (.struct "env.U64" [exportedField "Port" ⟨"uint64", .Uint64⟩ "PORT" (.uint 7)])
        [.deref] "env.U64" [] [] (exportedField "Port" ⟨"uint64", .Uint64⟩ "PORT" (.uint 7))
        "18446744073709551615" 64
        (by rfl) (by right; rfl) (by rfl) (by rfl)
        (Or.inr (Or.inr (Or.inr (Or.inl ⟨rfl, rfl⟩)))) (by rfl)
        (by decide)).2.1 (by rfl)),
    (by
      exact (C8_unsigned_integer_field platform64 (environOf [("PORT", "18446744073709551616")])
        (.struct "env.U64" [exportedField "Port" ⟨"uint64", .Uint64⟩ "PORT" (.uint 7)])
        [.deref] "env.U64" [] [] (exportedField "Port" ⟨"uint64", .Uint64⟩ "PORT" (.uint 7))
        "18446744073709551616" 64
        (by rfl) (by right; rfl) (by rfl) (by rfl)
        (Or.inr (Or.inr (Or.inr (Or.inl ⟨rfl, rfl⟩)))) (by rfl)
        (by decide)).2.1 (by rfl)),
    (by
      exact (C8_unsigned_integer_field platform64 (environOf [("PORT", "18446744073709551615")])
        (.struct "env.U" [exportedField "Port" ⟨"uint", .Uint⟩ "PORT" (.uint 7)])
        [.deref] "env.U" [] [] (exportedField "Port" ⟨"uint", .Uint⟩ "PORT" (.uint 7))
        "18446744073709551615" 64
        (by rfl) (by right; rfl) (by rfl) (by rfl)
        (Or.inr (Or.inr (Or.inr (Or.inr (Or.inl ⟨rfl, rfl⟩))))) (by rfl)
        (by decide)).2.1 (by rfl)),
    (by
      exact (C8_unsigned_integer_field platform64 (environOf [("PORT", "18446744073709551616")])
        (.struct "env.U" [exportedField "Port" ⟨"uint", .Uint⟩ "PORT" (.uint 7)])
        [.deref] "env.U" [] [] (exportedField "Port" ⟨"uint", .Uint⟩ "PORT" (.uint 7))
        "18446744073709551616" 64
        (by rfl) (by right; rfl) (by rfl) (by rfl)
        (Or.inr (Or.inr (Or.inr (Or.inr (Or.inl ⟨rfl, rfl⟩))))) (by rfl)
        (by decide)).2.1 (by rfl)),
    (by
      exact (C8_unsigned_integer_field platform64 (environOf [("PORT", "5")])
        (.struct "env.UP" [exportedField "Port" ⟨"uintptr", .Uintptr⟩ "PORT" (.uint 7)])
        [.deref] "env.UP" [] [] (exportedField "Port" ⟨"uintptr", .Uintptr⟩ "PORT" (.uint 7))
        "5" 64
        (by rfl) (by right; rfl) (by rfl) (by rfl)
        (Or.inr (Or.inr (Or.inr (Or.inr (Or.inr (⟨rfl, rfl⟩)))))) (by rfl)
        (by decide)).2.1 (by rfl))⟩

/-- C9: for a settable, non-ignored field whose kind is none of the signed
integer, unsigned integer, float and string kinds the switch lists, and whose
variable holds the non-empty text `s`, the pass for the field fails with the
`UnmarshalTypeError` of the lookup key, `s` and the field's type. In a
structure, `Unmarshal` returns an error and the field is as it was; when no
earlier field fails, the error is that one and all later fields are as they
were too. -/
theorem C9_unsupported_kind (pf : Platform) (env : Environ) (target : Value)
    (fs : List Frame) (name : String) (pre post : List Field) (f : Field) (s : String)
    (hres : indirect (.ptr target) = some (fs, .struct name (pre ++ f :: post), none))
    (hset : f.CanSet = true)
    (hign : (parseTag f.decl.Tag).ignored = false)
    (hkind : f.decl.Typ.kind ∉
      [Kind.Int, .Int8, .Int16, .Int32, .Int64, .Uint, .Uint8, .Uint16, .Uint32, .Uint64,
        .Float32, .Float64, .String])
    (hs : env (lookupKey f) = some s) (hne : s ≠ "") :
    unmarshalField pf env f = .fail (.UnmarshalTypeError (lookupKey f) s f.decl.Typ) ∧
    (∃ fields' err, Unmarshal pf env (some (.ptr target)) =
        (some (plug fs (.struct name fields')), .returned (some err)) ∧
      fields'[pre.length]? = some f) ∧
    ((unmarshalFields pf env pre).2 = none →
      Unmarshal pf env (some (.ptr target)) =
        (some (plug fs (.struct name ((unmarshalFields pf env pre).1 ++ f :: post))),
          .returned (some (.UnmarshalTypeError (lookupKey f) s f.decl.Typ)))) := by
  have hget : Getenv env (lookupKey f) = s := by simp [Getenv, hs]
  have hstep : unmarshalField pf env f =
      .fail (.UnmarshalTypeError (lookupKey f) s f.decl.Typ) := by
    rw [unmarshalField_convert pf env f hset hign (by rw [hget]; exact hne), hget]
    unfold convert
    revert hkind
    cases f.decl.Typ.kind <;> simp
  refine ⟨hstep, Unmarshal_fail_at pf env target fs name pre post f _ hres hstep, ?_⟩
  intro hreach
  rw [Unmarshal_at_field pf env target fs name pre post f hres hreach, hstep]

/-- C9 at a structure with one `bool` field, with `DEBUG` set to `true`. -/
theorem C9_unsupported_kind_witness :
    Unmarshal platform64 (environOf [("DEBUG", "true")])
        (some (.ptr (.struct "env.F" [exportedField "Debug" ⟨"bool", .Bool⟩ "DEBUG" (.other 0)]))) =
      (some (.ptr (.struct "env.F" [exportedField "Debug" ⟨"bool", .Bool⟩ "DEBUG" (.other 0)])),
        .returned (some (.UnmarshalTypeError "DEBUG" "true" ⟨"bool", .Bool⟩))) :=
  (C9_unsupported_kind platform64 (environOf [("DEBUG", "true")])
    (.struct "env.F" [exportedField "Debug" ⟨"bool", .Bool⟩ "DEBUG" (.other 0)])
    [.deref] "env.F" [] [] (exportedField "Debug" ⟨"bool", .Bool⟩ "DEBUG" (.other 0)) "true"
    (by rfl) (by rfl) (by rfl) (by decide) (by rfl) (by decide)).2.2 (by rfl)

/-- C3: for a destination that resolves to a `map[string]string`, `Unmarshal`
returns nil, and afterwards the map has the keys it had before, each key
mapped to the environment's value for it, or to the empty string when the
environment does not set it; a key the map did not have is still absent. -/
theorem C3_map_destination (pf : Platform) (env : Environ) (target : Value) (fs : List Frame)
    (name : String) (isNil : Bool) (entries : List (String × String))
    (hres : indirect (.ptr target) =
      some (fs, .map name stringType stringType isNil entries, none)) :
    ∃ entries' : List (String × String),
      Unmarshal pf env (some (.ptr target)) =
        (some (plug fs (.map name stringType stringType isNil entries')), .returned none) ∧
      MapKeys entries' = MapKeys entries ∧
      (∀ key ∈ MapKeys entries, MapIndex entries' key = some ((env key).getD "")) ∧
      (∀ key, key ∉ MapKeys entries → MapIndex entries' key = none) := by
  obtain ⟨h1, h2, h3⟩ :=
    unmarshalMapLoop_string env (MapKeys entries) entries (fun k hk => hk)
  refine ⟨(unmarshalMapLoop env stringType stringType (MapKeys entries) entries).1, ?_, h2, ?_, ?_⟩
  · rw [Unmarshal_map pf env target fs name _ _ isNil entries hres, h1]
  · intro key hkey
    rw [h3 key, if_pos hkey]
    rfl
  · intro key hkey
    rw [h3 key, if_neg hkey]
    have : ∀ m : List (String × String), key ∉ MapKeys m → MapIndex m key = none := by
      intro m
      induction m with
      | nil => intro _; rfl
      | cons p m ih =>
        obtain ⟨k, v⟩ := p
        intro hm
        simp only [MapKeys, List.map_cons, List.mem_cons, not_or] at hm
        have hne : ¬ k = key := fun e => hm.1 e.symm
        simp only [MapIndex, if_neg hne]
        exact ih hm.2
    exact this entries hkey

/-- C3 at the map `A` of the tests with a second key the environment does
not set. -/
theorem C3_map_destination_witness :
    ∃ entries' : List (String × String),
      Unmarshal platform64 (environOf [("STRING", "foo")])
          (some (.ptr (.map "env.A" stringType stringType false [("STRING", ""), ("OTHER", "x")]))) =
        (some (plug [.deref] (.map "env.A" stringType stringType false entries')),
          .returned none) ∧
      MapKeys entries' = MapKeys [("STRING", ""), ("OTHER", "x")] ∧
      (∀ key ∈ MapKeys [("STRING", ""), ("OTHER", "x")],
        MapIndex entries' key = some ((environOf [("STRING", "foo")] key).getD "")) ∧
      (∀ key, key ∉ MapKeys [("STRING", ""), ("OTHER", "x")] → MapIndex entries' key = none) :=
  C3_map_destination platform64 (environOf [("STRING", "foo")])
    (.map "env.A" stringType stringType false [("STRING", ""), ("OTHER", "x")])
    [.deref] "env.A" false [("STRING", ""), ("OTHER", "x")] (by rfl)

/-- C4: a settable field whose tag sets omitempty and whose lookup key is
absent from the environment or set to the empty string is passed over, whatever
its kind: the pass for the field neither fails nor assigns, the field holds
after the call what it held before, and when no earlier field fails `Unmarshal`
goes on with the fields after it. -/
theorem C4_omitempty_field (pf : Platform) (env : Environ) (target : Value) (fs : List Frame)
    (name : String) (pre post : List Field) (f : Field)
    (hres : indirect (.ptr target) = some (fs, .struct name (pre ++ f :: post), none))
    (hset : f.CanSet = true)
    (homit : (parseTag f.decl.Tag).omitEmpty = true)
    (hval : env (lookupKey f) = none ∨ env (lookupKey f) = some "") :
    unmarshalField pf env f = .next ∧
    (∃ fields' out, Unmarshal pf env (some (.ptr target)) =
        (some (plug fs (.struct name fields')), out) ∧
      fields'[pre.length]? = some f) ∧
    ((unmarshalFields pf env pre).2 = none →
      Unmarshal pf env (some (.ptr target)) =
        (some (plug fs (.struct name
          ((unmarshalFields pf env pre).1 ++ f :: (unmarshalFields pf env post).1))),
          .returned (unmarshalFields pf env post).2)) := by
  have hget : Getenv env (lookupKey f) = "" := by
    rcases hval with h | h <;> simp [Getenv, h]
  have hstep : unmarshalField pf env f = .next := by
    simp [unmarshalField, hset, parseTag_omitEmpty_not_ignored _ homit, homit, hget]
  refine ⟨hstep, ⟨_, _, Unmarshal_struct pf env target fs name _ hres, ?_⟩, ?_⟩
  · apply unmarshalFields_keep
    · exact getElem?_middle pre post f
    · intro v; rw [hstep]; exact fun h => by cases h
  · intro hreach
    rw [Unmarshal_at_field pf env target fs name pre post f hres hreach, hstep]

/-- C4 at a structure with an omitempty `int` field whose variable is set to
the empty string, followed by a string field. -/
theorem C4_omitempty_field_witness :
    Unmarshal platform64 (environOf [("N", ""), ("S", "foo")])
        (some (.ptr (.struct "env.G"
          [exportedField "N" ⟨"int", .Int⟩ ",omitempty" (.int 3),
           exportedField "S" stringType "" (.str "")]))) =
      (some (.ptr (.struct "env.G"
          [exportedField "N" ⟨"int", .Int⟩ ",omitempty" (.int 3),
           exportedField "S" stringType "" (.str "foo")])),
        .returned none) :=
  (C4_omitempty_field platform64 (environOf [("N", ""), ("S", "foo")])
    (.struct "env.G"
      [exportedField "N" ⟨"int", .Int⟩ ",omitempty" (.int 3),
       exportedField "S" stringType "" (.str "")])
    [.deref] "env.G" [] [exportedField "S" stringType "" (.str "")]
    (exportedField "N" ⟨"int", .Int⟩ ",omitempty" (.int 3))
    (by rfl) (by rfl) (by rfl) (by right; rfl)).2.2 (by rfl)

/-- C5: a field tagged `-` is passed over in every environment (its pass
neither fails nor assigns) and holds after the call what it held before; and
the outcome of `Unmarshal`, the destination afterwards and the error, is the same
in two environments that differ only at keys that no settable, non-ignored
field looks up. In particular, when no such field looks up the ignored field's
own name, the outcome does not depend on the environment's value there. -/
theorem C5_ignored_field (pf : Platform) (env1 env2 : Environ) (target : Value)
    (fs : List Frame) (name : String) (fields : List Field) (i : Nat) (f : Field)
    (hres : indirect (.ptr target) = some (fs, .struct name fields, none))
    (hf : fields[i]? = some f)
    (htag : f.decl.Tag = "-")
    (hdiff : ∀ key, env1 key ≠ env2 key → ∀ g ∈ fields, g.CanSet = true →
      (parseTag g.decl.Tag).ignored = false → lookupKey g ≠ key) :
    (∀ env, unmarshalField pf env f = .next) ∧
    (∃ fields' out, Unmarshal pf env1 (some (.ptr target)) =
        (some (plug fs (.struct name fields')), out) ∧
      fields'[i]? = some f) ∧
    Unmarshal pf env1 (some (.ptr target)) = Unmarshal pf env2 (some (.ptr target)) ∧
    (∀ x : Option String,
      (∀ g ∈ fields, g.CanSet = true → (parseTag g.decl.Tag).ignored = false →
        lookupKey g ≠ f.decl.Name) →
      Unmarshal pf (fun key => if key = f.decl.Name then x else env1 key) (some (.ptr target)) =
        Unmarshal pf env1 (some (.ptr target))) := by
  have hign : (parseTag f.decl.Tag).ignored = true := by rw [htag]; rfl
  have hstep : ∀ env, unmarshalField pf env f = .next := by
    intro env
    simp [unmarshalField, hign]
  refine ⟨hstep, ⟨_, _, Unmarshal_struct pf env1 target fs name _ hres, ?_⟩, ?_, ?_⟩
  · apply unmarshalFields_keep pf env1 fields i f hf
    intro v; rw [hstep]; exact fun h => by cases h
  · rw [Unmarshal_struct pf env1 target fs name _ hres,
      Unmarshal_struct pf env2 target fs name _ hres]
    have hc : unmarshalFields pf env1 fields = unmarshalFields pf env2 fields := by
      apply unmarshalFields_congr
      intro g hg hset hig
      by_contra hne
      exact hdiff _ hne g hg hset hig rfl
    rw [hc]
  · intro x hname
    rw [Unmarshal_struct pf _ target fs name _ hres,
      Unmarshal_struct pf env1 target fs name _ hres]
    have hc : unmarshalFields pf (fun key => if key = f.decl.Name then x else env1 key) fields =
        unmarshalFields pf env1 fields := by
      apply unmarshalFields_congr
      intro g hg hset hig
      simp only [if_neg (hname g hg hset hig)]
    rw [hc]

/-- C5 at the structure `C` of the tests, `Ignore string` tagged `-`, with a
second field after it: setting the variable `Ignore` changes nothing. -/
theorem C5_ignored_field_witness :
    Unmarshal platform64 (environOf [("Ignore", "foo"), ("S", "bar")])
        (some (.ptr (.struct "env.C"
          [exportedField "Ignore" stringType "-" (.str "kept"),
           exportedField "S" stringType "" (.str "")]))) =
      Unmarshal platform64 (environOf [("S", "bar")])
        (some (.ptr (.struct "env.C"
          [exportedField "Ignore" stringType "-" (.str "kept"),
           exportedField "S" stringType "" (.str "")]))) :=
  (C5_ignored_field platform64 (environOf [("Ignore", "foo"), ("S", "bar")])
    (environOf [("S", "bar")])
    (.struct "env.C"
      [exportedField "Ignore" stringType "-" (.str "kept"),
       exportedField "S" stringType "" (.str "")])
    [.deref] "env.C"
    [exportedField "Ignore" stringType "-" (.str "kept"),
     exportedField "S" stringType "" (.str "")]
    0 (exportedField "Ignore" stringType "-" (.str "kept"))
    (by rfl) (by rfl) (by rfl)
    (by
      intro key hne g hg _ hign hkey
      subst hkey
      simp only [List.mem_cons, List.mem_singleton, List.not_mem_nil, or_false] at hg
      rcases hg with rfl | rfl
      · exact absurd hign (by decide)
      · exact hne (by rfl))).2.2.1

/-- C6: `parseTag` on the value `s` of the `env` tag. For `s = ""` it answers
no options; for `s = "-"` ignored only; for every other `s` the field is not
ignored, the alias is the text of `s` before its first comma, and, `s` being
split in its comma-separated segments in the one way there is, the alias is the
first segment and omitEmpty is set exactly when a segment after the first is
`omitempty`. So a comma-free `NAME` gives alias `NAME` and nothing else,
`NAME,omitempty` gives alias `NAME` and omitEmpty, and `,omitempty` gives the
empty alias and omitEmpty. -/
theorem C6_parseTag :
    parseTag "" = ⟨false, false, ""⟩ ∧
    parseTag "-" = ⟨true, false, ""⟩ ∧
    (∀ s : String, s ≠ "" → s ≠ "-" →
      (parseTag s).ignored = false ∧
      (parseTag s).aliasName = String.mk (s.data.takeWhile fun c => decide (c ≠ ',')) ∧
      (∃ first rest, (∀ seg ∈ first :: rest, ',' ∉ seg) ∧
        s.data = [','].intercalate (first :: rest)) ∧
      (∀ first rest, (∀ seg ∈ first :: rest, ',' ∉ seg) →
        s.data = [','].intercalate (first :: rest) →
        (parseTag s).aliasName = String.mk first ∧
        ((parseTag s).omitEmpty = true ↔ "omitempty".data ∈ rest))) ∧
    (∀ NAME : String, NAME ≠ "" → NAME ≠ "-" → ',' ∉ NAME.data →
      parseTag NAME = ⟨false, false, NAME⟩) ∧
    (∀ NAME : String, ',' ∉ NAME.data → parseTag (NAME ++ ",omitempty") = ⟨false, true, NAME⟩) ∧
    parseTag ",omitempty" = ⟨false, true, ""⟩ := by
  refine ⟨rfl, rfl, ?_, ?_, ?_, by decide⟩
  · intro s h1 h2
    have hall : ∀ first rest, (∀ seg ∈ first :: rest, ',' ∉ seg) →
        s.data = [','].intercalate (first :: rest) →
        parseTag s = ⟨false, decide ("omitempty".data ∈ rest), String.mk first⟩ ∧
        s.data.takeWhile (fun c => decide (c ≠ ',')) = first := by
      intro first rest hseg hs
      refine ⟨parseTag_segments s h1 h2 first rest hseg hs, ?_⟩
      rw [hs]
      exact takeWhile_intercalate ',' first rest (hseg first (List.mem_cons_self _ _))
    obtain ⟨hjoin, hfree⟩ := Split_sound ',' s.data
    cases hsp : Split ',' s.data with
    | nil => exact absurd hsp (Split_ne_nil _ _)
    | cons first rest =>
      rw [hsp] at hjoin hfree
      obtain ⟨hp, htw⟩ := hall first rest hfree hjoin.symm
      refine ⟨by rw [hp], by rw [hp, htw], ⟨first, rest, hfree, hjoin.symm⟩, ?_⟩
      intro first' rest' hseg' hs'
      obtain ⟨hp', -⟩ := hall first' rest' hseg' hs'
      rw [hp']
      exact ⟨rfl, by simp⟩
  · intro NAME h1 h2 hc
    have := parseTag_segments NAME h1 h2 NAME.data [] (by simpa using hc)
      (by simp [List.intercalate, List.intersperse])
    simpa using this
  · intro NAME hc
    have hd : (NAME ++ ",omitempty").data = NAME.data ++ ",omitempty".data := rfl
    have h1 : NAME ++ ",omitempty" ≠ "" := by
      intro h
      have := congrArg (fun s : String => s.data.length) h
      simp [hd] at this
    have h2 : NAME ++ ",omitempty" ≠ "-" := by
      intro h
      have := congrArg (fun s : String => s.data.length) h
      simp [hd] at this
    have := parseTag_segments (NAME ++ ",omitempty") h1 h2 NAME.data ["omitempty".data]
      (by
        intro seg hseg
        simp only [List.mem_cons, List.mem_singleton, List.not_mem_nil, or_false] at hseg
        rcases hseg with rfl | rfl
        · exact hc
        · decide)
      (by rw [hd, intercalate_cons_cons]; simp [List.intercalate, List.intersperse])
    simpa using this

/-- C10: when `Unmarshal` on a structure returns an error raised at a field
(no field before it fails, the pass for it fails), every settable, non-ignored
field before it whose variable is not empty holds its converted value, and the
field and every field after it hold what they held before the call. -/
theorem C10_partial_binding (pf : Platform) (env : Environ) (target : Value) (fs : List Frame)
    (name : String) (pre post : List Field) (f : Field) (err : GoError)
    (hres : indirect (.ptr target) = some (fs, .struct name (pre ++ f :: post), none))
    (hreach : (unmarshalFields pf env pre).2 = none)
    (hfail : unmarshalField pf env f = .fail err) :
    Unmarshal pf env (some (.ptr target)) =
      (some (plug fs (.struct name ((unmarshalFields pf env pre).1 ++ f :: post))),
        .returned (some err)) ∧
    (unmarshalFields pf env pre).1.length = pre.length ∧
    (∀ (j : Nat) (g : Field), pre[j]? = some g → g.CanSet = true → (parseTag g.decl.Tag).ignored = false →
      Getenv env (lookupKey g) ≠ "" →
      ∃ v, convert pf (lookupKey g) (Getenv env (lookupKey g)) g.decl.Typ = .assign v ∧
        (unmarshalFields pf env pre).1[j]? = some ⟨g.decl, v⟩) := by
  refine ⟨?_, unmarshalFields_length pf env pre, ?_⟩
  · rw [Unmarshal_at_field pf env target fs name pre post f hres hreach, hfail]
  · intro j g hg hset hign hval
    have hconv := unmarshalField_convert pf env g hset hign hval
    rcases unmarshalFields_ok pf env pre hreach j g hg with ⟨hnext, -⟩ | ⟨v, hv, hget⟩
    · exfalso
      rw [hconv] at hnext
      exact convert_ne_next pf _ _ _ hnext
    · exact ⟨v, by rw [← hconv, hv], hget⟩

/-- C10 at a structure of three fields whose second, an `int8`, has a variable
that is no number: the first field is bound, the second and third are as
before. -/
theorem C10_partial_binding_witness :
    Unmarshal platform64 (environOf [("S", "foo"), ("N", "abc"), ("T", "bar")])
        (some (.ptr (.struct "env.H"
          [exportedField "S" stringType "" (.str ""),
           exportedField "N" ⟨"int8", .Int8⟩ "" (.int 0),
           exportedField "T" stringType "" (.str "")]))) =
      (some (.ptr (.struct "env.H"
          [exportedField "S" stringType "" (.str "foo"),
           exportedField "N" ⟨"int8", .Int8⟩ "" (.int 0),
           exportedField "T" stringType "" (.str "")])),
        .returned (some (.UnmarshalTypeError "N" "abc" ⟨"int8", .Int8⟩))) :=
  (C10_partial_binding platform64 (environOf [("S", "foo"), ("N", "abc"), ("T", "bar")])
    (.struct "env.H"
      [exportedField "S" stringType "" (.str ""),
       exportedField "N" ⟨"int8", .Int8⟩ "" (.int 0),
       exportedField "T" stringType "" (.str "")])
    [.deref] "env.H" [exportedField "S" stringType "" (.str "")]
    [exportedField "T" stringType "" (.str "")]
    (exportedField "N" ⟨"int8", .Int8⟩ "" (.int 0))
    (.UnmarshalTypeError "N" "abc" ⟨"int8", .Int8⟩)
    (by rfl) (by rfl) (by rfl)).1

/-- C11: the fields of a structure are processed in declared order and
binding stops at the first failure. The error `Unmarshal` returns is the error
of the lowest-index field whose pass fails, a missing required variable or the
type error of a failed conversion or an unsupported kind; every error it
returns is raised so, with the fields before that field bound and the rest
untouched; and it returns `nil` if and only if no settable, non-ignored field
fails. -/
theorem C11_first_failure (pf : Platform) (env : Environ) (target : Value) (fs : List Frame)
    (name : String) (fields : List Field)
    (hres : indirect (.ptr target) = some (fs, .struct name fields, none)) :
    (∀ (i : Nat) (f : Field) (err : GoError), fields[i]? = some f →
      unmarshalField pf env f = .fail err →
      (∀ (j : Nat) (g : Field) (e : GoError), j < i → fields[j]? = some g →
        unmarshalField pf env g ≠ .fail e) →
      (Unmarshal pf env (some (.ptr target))).2 = .returned (some err)) ∧
    (∀ err, (Unmarshal pf env (some (.ptr target))).2 = .returned (some err) →
      ∃ (pre post : List Field) (f : Field), fields = pre ++ f :: post ∧
        unmarshalField pf env f = .fail err ∧
        (∀ g ∈ pre, ∀ e, unmarshalField pf env g ≠ .fail e) ∧
        (err = .errorString ("env: environment variable " ++ lookupKey f ++ " is not set") ∨
          err = .UnmarshalTypeError (lookupKey f) (Getenv env (lookupKey f)) f.decl.Typ) ∧
        (Unmarshal pf env (some (.ptr target))).1 =
          some (plug fs (.struct name ((unmarshalFields pf env pre).1 ++ f :: post)))) ∧
    ((Unmarshal pf env (some (.ptr target))).2 = .returned none ↔
      ∀ f ∈ fields, f.CanSet = true → (parseTag f.decl.Tag).ignored = false →
        ∀ e, unmarshalField pf env f ≠ .fail e) ∧
    (∃ err, (Unmarshal pf env (some (.ptr target))).2 = .returned err) := by
  have hU := Unmarshal_struct pf env target fs name fields hres
  refine ⟨?_, ?_, ?_, ⟨_, by rw [hU]⟩⟩
  · intro i f err hf hstep hbefore
    rw [hU]
    simp only [unmarshalFields_first_fail pf env fields i f err hf hstep hbefore]
  · intro err herr
    rw [hU] at herr
    simp only [Outcome.returned.injEq] at herr
    obtain ⟨i, f, hf, hfail, hb⟩ := unmarshalFields_some pf env fields err herr
    obtain ⟨hlt, hget⟩ := List.getElem?_eq_some_iff.1 hf
    have hsplit : fields = fields.take i ++ f :: fields.drop (i + 1) := by
      rw [← hget]
      exact (List.take_append_drop i fields).symm.trans (by rw [List.drop_eq_getElem_cons hlt])
    have hpre : ∀ g ∈ fields.take i, ∀ e, unmarshalField pf env g ≠ .fail e := by
      intro g hg e
      obtain ⟨j, hj, hjg⟩ := List.getElem_of_mem hg
      have hji : j < i := by
        have := List.length_take_le i fields
        omega
      refine hb j g e hji ?_
      rw [List.getElem_take] at hjg
      rw [← hjg]
      exact List.getElem?_eq_getElem _
    refine ⟨fields.take i, fields.drop (i + 1), f, hsplit, hfail, hpre, ?_, ?_⟩
    · obtain ⟨-, -, h⟩ := unmarshalField_fail_cases pf env f err hfail
      rcases h with ⟨-, -, h⟩ | ⟨-, h⟩
      · left; exact h
      · right; exact h
    · have hreach := (unmarshalFields_none_iff pf env (fields.take i)).2 hpre
      have hres' : indirect (.ptr target) =
          some (fs, .struct name (fields.take i ++ f :: fields.drop (i + 1)), none) := by
        rw [← hsplit]; exact hres
      rw [Unmarshal_at_field pf env target fs name _ _ f hres' hreach, hfail]
  · rw [hU]
    simp only [Outcome.returned.injEq]
    rw [unmarshalFields_none_iff]
    constructor
    · intro h f hf _ _ e
      exact h f hf e
    · intro h f hf e hfail
      obtain ⟨hset, hign, -⟩ := unmarshalField_fail_cases pf env f e hfail
      exact h f hf hset hign e hfail

/-- C11 at a structure of three fields of which the second and the third
fail: the error is the second field's. -/
theorem C11_first_failure_witness :
    (Unmarshal platform64 (environOf [("S", "foo"), ("N", "abc")])
        (some (.ptr (.struct "env.H"
          [exportedField "S" stringType "" (.str ""),
           exportedField "N" ⟨"int8", .Int8⟩ "" (.int 0),
           exportedField "T" stringType "" (.str "")])))).2 =
      .returned (some (.UnmarshalTypeError "N" "abc" ⟨"int8", .Int8⟩)) :=
  (C11_first_failure platform64 (environOf [("S", "foo"), ("N", "abc")])
    (.struct "env.H"
      [exportedField "S" stringType "" (.str ""),
       exportedField "N" ⟨"int8", .Int8⟩ "" (.int 0),
       exportedField "T" stringType "" (.str "")])
    [.deref] "env.H"
    [exportedField "S" stringType "" (.str ""),
     exportedField "N" ⟨"int8", .Int8⟩ "" (.int 0),
     exportedField "T" stringType "" (.str "")]
    (by rfl)).1 1 (exportedField "N" ⟨"int8", .Int8⟩ "" (.int 0))
    (.UnmarshalTypeError "N" "abc" ⟨"int8", .Int8⟩) (by rfl) (by rfl)
    (by
      intro j g e hj hg
      have hj0 : j = 0 := by omega
      subst hj0
      simp only [List.getElem?_cons_zero, Option.some.injEq] at hg
      subst hg
      exact fun h => by cases h)

/-- C13: for an argument that is an untyped nil (`none`), a non-pointer
value or a typed nil pointer, that is for every argument that is not a non-nil
pointer, `Unmarshal` returns an `InvalidUnmarshalError` at once: the answer is
the same in every environment and the argument is as it was. For a non-nil
pointer it never returns an `InvalidUnmarshalError`. -/
theorem C13_invalid_argument (pf : Platform) (env : Environ) :
    (∃ typ, Unmarshal pf env none = (none, .returned (some (.InvalidUnmarshalError typ)))) ∧
    (∀ elem : GoType, ∃ typ, Unmarshal pf env (some (.nilPtr elem)) =
      (some (.nilPtr elem), .returned (some (.InvalidUnmarshalError typ)))) ∧
    (∀ v : Option Value, (∀ target, v ≠ some (.ptr target)) →
      ∃ typ, ∀ env' : Environ,
        Unmarshal pf env' v = (v, .returned (some (.InvalidUnmarshalError typ)))) ∧
    (∀ (target : Value) (typ : Option GoType),
      (Unmarshal pf env (some (.ptr target))).2 ≠
        .returned (some (.InvalidUnmarshalError typ))) := by
  refine ⟨⟨_, rfl⟩, fun elem => ⟨_, rfl⟩, ?_, fun target typ =>
    Unmarshal_ptr_not_invalid pf env target typ⟩
  intro v hv
  refine ⟨some reflectValueType, fun env' => ?_⟩
  cases v with
  | none => rfl
  | some x =>
    cases x with
    | ptr target => exact absurd rfl (hv target)
    | _ => rfl

/-- C18: a field that is not settable is passed over in every environment,
whatever its tag and its kind: its pass neither fails nor assigns, it holds
after the call what it held before, and the outcome of `Unmarshal` is the same
in two environments that differ only at keys that no settable, non-ignored
field looks up, so the field's own key is not read on its account. -/
theorem C18_unsettable_field (pf : Platform) (env1 env2 : Environ) (target : Value)
    (fs : List Frame) (name : String) (fields : List Field) (i : Nat) (f : Field)
    (hres : indirect (.ptr target) = some (fs, .struct name fields, none))
    (hf : fields[i]? = some f)
    (hset : f.CanSet = false)
    (hdiff : ∀ key, env1 key ≠ env2 key → ∀ g ∈ fields, g.CanSet = true →
      (parseTag g.decl.Tag).ignored = false → lookupKey g ≠ key) :
    (∀ env, unmarshalField pf env f = .next) ∧
    (∃ fields' out, Unmarshal pf env1 (some (.ptr target)) =
        (some (plug fs (.struct name fields')), out) ∧
      fields'[i]? = some f) ∧
    Unmarshal pf env1 (some (.ptr target)) = Unmarshal pf env2 (some (.ptr target)) ∧
    (∀ x : Option String,
      (∀ g ∈ fields, g.CanSet = true → (parseTag g.decl.Tag).ignored = false →
        lookupKey g ≠ lookupKey f) →
      Unmarshal pf (fun key => if key = lookupKey f then x else env1 key) (some (.ptr target)) =
        Unmarshal pf env1 (some (.ptr target))) := by
  have hstep : ∀ env, unmarshalField pf env f = .next := by
    intro env
    simp [unmarshalField, hset]
  refine ⟨hstep, ⟨_, _, Unmarshal_struct pf env1 target fs name _ hres, ?_⟩, ?_, ?_⟩
  · apply unmarshalFields_keep pf env1 fields i f hf
    intro v; rw [hstep]; exact fun h => by cases h
  · rw [Unmarshal_struct pf env1 target fs name _ hres,
      Unmarshal_struct pf env2 target fs name _ hres]
    have hc : unmarshalFields pf env1 fields = unmarshalFields pf env2 fields := by
      apply unmarshalFields_congr
      intro g hg hs hig
      by_contra hne
      exact hdiff _ hne g hg hs hig rfl
    rw [hc]
  · intro x hname
    rw [Unmarshal_struct pf _ target fs name _ hres,
      Unmarshal_struct pf env1 target fs name _ hres]
    have hc : unmarshalFields pf (fun key => if key = lookupKey f then x else env1 key) fields =
        unmarshalFields pf env1 fields := by
      apply unmarshalFields_congr
      intro g hg hs hig
      simp only [if_neg (hname g hg hs hig)]
    rw [hc]

/-- C18 at a structure with an unexported `int` field without a tag and a
string field: setting the variable `secret`, to a text that is no number,
changes nothing. -/
theorem C18_unsettable_field_witness :
    Unmarshal platform64 (environOf [("secret", "abc"), ("S", "bar")])
        (some (.ptr (.struct "env.U"
          [⟨⟨"secret", ⟨"int", .Int⟩, "", false⟩, .int 7⟩,
           exportedField "S" stringType "" (.str "")]))) =
      Unmarshal platform64 (environOf [("S", "bar")])
        (some (.ptr (.struct "env.U"
          [⟨⟨"secret", ⟨"int", .Int⟩, "", false⟩, .int 7⟩,
           exportedField "S" stringType "" (.str "")]))) :=
  (C18_unsettable_field platform64 (environOf [("secret", "abc"), ("S", "bar")])
    (environOf [("S", "bar")])
    (.struct "env.U"
      [⟨⟨"secret", ⟨"int", .Int⟩, "", false⟩, .int 7⟩,
       exportedField "S" stringType "" (.str "")])
    [.deref] "env.U"
    [⟨⟨"secret", ⟨"int", .Int⟩, "", false⟩, .int 7⟩,
     exportedField "S" stringType "" (.str "")]
    0 ⟨⟨"secret", ⟨"int", .Int⟩, "", false⟩, .int 7⟩
    (by rfl) (by rfl) (by rfl)
    (by
      intro key hne g hg hs _ hkey
      subst hkey
      simp only [List.mem_cons, List.mem_singleton, List.not_mem_nil, or_false] at hg
      rcases hg with rfl | rfl
      · exact absurd hs (by decide)
      · exact hne (by rfl))).2.2.1

/-- C19: the error `Unmarshal` returns for an untyped nil, for a non-pointer
value and for a typed nil pointer carries the type `reflect.Value` in all three
cases, so its message is `env: Unmarshal(non-pointer reflect.Value)` each time:
it is neither `env: Unmarshal(nil)` for the untyped nil nor
`env: Unmarshal(nil-pointer)` for the nil pointer, and it names `reflect.Value`
where the argument's type is `int`. -/
theorem C19_message_does_not_distinguish (pf : Platform) (env : Environ) (elem : GoType)
    (x : FieldVal) :
    (Unmarshal pf env none).2 =
      .returned (some (.InvalidUnmarshalError (some reflectValueType))) ∧
    (Unmarshal pf env (some (.other ⟨"int", .Int⟩ x))).2 =
      .returned (some (.InvalidUnmarshalError (some reflectValueType))) ∧
    (Unmarshal pf env (some (.nilPtr elem))).2 =
      .returned (some (.InvalidUnmarshalError (some reflectValueType))) ∧
    (GoError.InvalidUnmarshalError (some reflectValueType)).Error =
      "env: Unmarshal(non-pointer reflect.Value)" ∧
    (GoError.InvalidUnmarshalError (some reflectValueType)).Error ≠ "env: Unmarshal(nil)" ∧
    (GoError.InvalidUnmarshalError (some reflectValueType)).Error ≠
      "env: Unmarshal(non-pointer int)" ∧
    (GoError.InvalidUnmarshalError (some reflectValueType)).Error ≠
      "env: Unmarshal(nil-pointer)" :=
  ⟨rfl, rfl, rfl, by decide, by decide, by decide, by decide⟩

/-- C12: for a well-formed destination that is a non-nil pointer, `indirect`
resolves to a value `rv`, and `Unmarshal` fails with the `InvalidIndirectError`
of the type of `rv` if and only if `rv` is neither a structure nor a map whose
key kind and element kind are both string. In that case nothing is bound: the
destination afterwards is the value `indirect` resolved to, rebuilt under the
pointers passed. When `rv` is accepted `Unmarshal` returns no
`InvalidIndirectError` at all. -/
theorem C12_invalid_indirect (pf : Platform) (env : Environ) (target : Value)
    (hwf : target.WF = true) :
    ∃ (fs : List Frame) (rv : Value),
      indirect (.ptr target) =
        some (fs, rv,
          if acceptable rv = true then none else some (.InvalidIndirectError (typeOf rv))) ∧
      ((Unmarshal pf env (some (.ptr target))).2 =
          .returned (some (.InvalidIndirectError (typeOf rv))) ↔ acceptable rv = false) ∧
      (acceptable rv = false →
        Unmarshal pf env (some (.ptr target)) =
          (some (plug fs rv), .returned (some (.InvalidIndirectError (typeOf rv))))) ∧
      (acceptable rv = true → ∀ t,
        (Unmarshal pf env (some (.ptr target))).2 ≠
          .returned (some (.InvalidIndirectError t))) := by
  obtain ⟨⟨fs, rv⟩, hloop⟩ :=
    indirectLoop_some (depth (.ptr target) + 1) [] (.ptr target) (Nat.lt_succ_self _)
  have hrv : rv.WF = true :=
    indirectLoop_WF _ [] (.ptr target) (fs, rv) (by simpa [Value.WF] using hwf) hloop
  have hind : indirect (.ptr target) =
      some (fs, rv,
        if acceptable rv = true then none else some (.InvalidIndirectError (typeOf rv))) := by
    simp only [indirect, hloop, indirectCheck_eq rv hrv]
  have hrej : acceptable rv = false →
      Unmarshal pf env (some (.ptr target)) =
        (some (plug fs rv), .returned (some (.InvalidIndirectError (typeOf rv)))) := by
    intro ha
    simp [Unmarshal, hind, ha]
  have hacc : acceptable rv = true → ∀ t,
      (Unmarshal pf env (some (.ptr target))).2 ≠
        .returned (some (.InvalidIndirectError t)) := by
    intro ha t
    apply Unmarshal_accepted pf env target fs rv
    simp [hind, ha]
  refine ⟨fs, rv, hind, ⟨?_, ?_⟩, hrej, hacc⟩
  · intro h
    cases ha : acceptable rv with
    | false => rfl
    | true => exact absurd h (hacc ha _)
  · intro ha
    rw [hrej ha]

/-- C12 at a pointer to an `int`, at a pointer to a `map[int]string` and at
a pointer to a `map[string]int`: each is rejected with the error of its type
and is left as it was. -/
theorem C12_invalid_indirect_witness :
    Unmarshal platform64 (environOf []) (some (.ptr (.other ⟨"int", .Int⟩ (.int 0)))) =
      (some (.ptr (.other ⟨"int", .Int⟩ (.int 0))),
        .returned (some (.InvalidIndirectError (.basic ⟨"int", .Int⟩)))) ∧
    Unmarshal platform64 (environOf [])
        (some (.ptr (.map "map[int]string" ⟨"int", .Int⟩ stringType false []))) =
      (some (.ptr (.map "map[int]string" ⟨"int", .Int⟩ stringType false [])),
        .returned (some (.InvalidIndirectError
          (.map "map[int]string" ⟨"int", .Int⟩ stringType)))) ∧
    Unmarshal platform64 (environOf [])
        (some (.ptr (.map "map[string]int" stringType ⟨"int", .Int⟩ false []))) =
      (some (.ptr (.map "map[string]int" stringType ⟨"int", .Int⟩ false [])),
        .returned (some (.InvalidIndirectError
          (.map "map[string]int" stringType ⟨"int", .Int⟩)))) := by
  refine ⟨?_, ?_, ?_⟩
  · obtain ⟨fs, rv, hind, -, hrej, -⟩ := C12_invalid_indirect platform64 (environOf [])
      (.other ⟨"int", .Int⟩ (.int 0)) (by rfl)
    have hc : indirect (.ptr (.other ⟨"int", .Int⟩ (.int 0))) =
        some ([.deref], .other ⟨"int", .Int⟩ (.int 0),
          some (.InvalidIndirectError (.basic ⟨"int", .Int⟩))) := by rfl
    rw [hc] at hind
    simp only [Option.some.injEq, Prod.mk.injEq] at hind
    obtain ⟨rfl, rfl, -⟩ := hind
    exact hrej (by rfl)
  · obtain ⟨fs, rv, hind, -, hrej, -⟩ := C12_invalid_indirect platform64 (environOf [])
      (.map "map[int]string" ⟨"int", .Int⟩ stringType false []) (by rfl)
    have hc : indirect (.ptr (.map "map[int]string" ⟨"int", .Int⟩ stringType false [])) =
        some ([.deref], .map "map[int]string" ⟨"int", .Int⟩ stringType false [],
          some (.InvalidIndirectError (.map "map[int]string" ⟨"int", .Int⟩ stringType))) := by
      rfl
    rw [hc] at hind
    simp only [Option.some.injEq, Prod.mk.injEq] at hind
    obtain ⟨rfl, rfl, -⟩ := hind
    exact hrej (by rfl)
  · obtain ⟨fs, rv, hind, -, hrej, -⟩ := C12_invalid_indirect platform64 (environOf [])
      (.map "map[string]int" stringType ⟨"int", .Int⟩ false []) (by rfl)
    have hc : indirect (.ptr (.map "map[string]int" stringType ⟨"int", .Int⟩ false [])) =
        some ([.deref], .map "map[string]int" stringType ⟨"int", .Int⟩ false [],
          some (.InvalidIndirectError (.map "map[string]int" stringType ⟨"int", .Int⟩))) := by
      rfl
    rw [hc] at hind
    simp only [Option.some.injEq, Prod.mk.injEq] at hind
    obtain ⟨rfl, rfl, -⟩ := hind
    exact hrej (by rfl)

/-- C15: let the variable at the address `a` of any memory hold a nil
`**map[string]string`, as the variable `a` of `TestIndirect` does. Calling
`indirect` on the pointer to it returns no error after four iterations of its
loop, and returns the variable at the fresh address `n + 1`, `n` being the
number of variables before the call. In the memory it leaves, the variable at
`a` holds a pointer to the fresh variable at `n`, which holds a pointer to the
fresh variable at `n + 1`, which holds a map with a fresh, empty table; every
other variable and every other table is as it was. The returned value asserts
to `map[string]string`, and it is the map at the end of the caller's chain:
`(**a)[key]` has no entry before, and reads `val` after, `m[key] = val` on the
asserted map. The memory reads, from the caller's pointer, as the values of
`indirect` over owned values: before the call as its argument, after the call
as its result, and after the assignment as its result with the entry. -/
theorem C15_indirect_allocates (h : Memory) (a fuel : Nat) (key val : String)
    (ha : h.cells[a]? =
      some (.ptr (.ptr (.map "map[string]string" stringType stringType)) none))
    (hfuel : 4 ≤ fuel) :
    ∃ h1 : Memory,
      indirectAt fuel h
          (.value (.ptr (.ptr (.ptr (.map "map[string]string" stringType stringType)))
            (some a))) =
        .returned h1 (some (.loc (h.cells.length + 1))) none ∧
      h1.cells[a]? =
        some (.ptr (.ptr (.map "map[string]string" stringType stringType))
          (some h.cells.length)) ∧
      h1.cells[h.cells.length]? =
        some (.ptr (.map "map[string]string" stringType stringType)
          (some (h.cells.length + 1))) ∧
      h1.cells[h.cells.length + 1]? =
        some (.map "map[string]string" stringType stringType (some h.tables.length)) ∧
      h1.tables[h.tables.length]? = some [] ∧
      h1.cells.length = h.cells.length + 2 ∧
      h1.tables.length = h.tables.length + 1 ∧
      (∀ b, b < h.cells.length → b ≠ a → h1.cells[b]? = h.cells[b]?) ∧
      (∀ r, r < h.tables.length → h1.tables[r]? = h.tables[r]?) ∧
      h1.assertStringMap (.loc (h.cells.length + 1)) = some (some h.tables.length) ∧
      h1.indexThrough a key = none ∧
      (∃ h2 : Memory,
        h1.mapAssign (some h.tables.length) key val = some h2 ∧
        h2.cells = h1.cells ∧
        h2.tables[h.tables.length]? = some [(key, val)] ∧
        (∀ r, r < h.tables.length → h2.tables[r]? = h.tables[r]?) ∧
        h2.indexThrough a key = some val ∧
        h.toValue 3
            (.ptr (.ptr (.ptr (.map "map[string]string" stringType stringType))) (some a)) =
          some (.ptr (.nilPtr (.ptr (.map "map[string]string" stringType stringType)))) ∧
        indirect (.ptr (.nilPtr (.ptr (.map "map[string]string" stringType stringType)))) =
          some ([.deref, .deref, .deref],
            .map "map[string]string" stringType stringType false [], none) ∧
        h1.toValue 3
            (.ptr (.ptr (.ptr (.map "map[string]string" stringType stringType))) (some a)) =
          some (plug [.deref, .deref, .deref]
            (.map "map[string]string" stringType stringType false [])) ∧
        h2.toValue 3
            (.ptr (.ptr (.ptr (.map "map[string]string" stringType stringType))) (some a)) =
          some (plug [.deref, .deref, .deref]
            (.map "map[string]string" stringType stringType false
              (SetMapIndex [] key val)))) := by
  obtain ⟨k, rfl⟩ : ∃ k, fuel = k + 4 := ⟨fuel - 4, by omega⟩
  have hlt := cells_lt ha
  have hne : a ≠ h.cells.length := Nat.ne_of_lt hlt
  have e1 : indirectAt (k + 4) h
      (.value (.ptr (.ptr (.ptr (.map "map[string]string" stringType stringType)))
        (some a))) = indirectAt (k + 3) h (.loc a) :=
    indirectAt_ptr (k + 3) h _ _ a rfl
  obtain ⟨m1, e2, len1, at1, new1, keep1, tab1⟩ := indirectAt_nilPtr (k + 2) h a _ ha
  obtain ⟨m2, e3, len2, at2, new2, keep2, tab2⟩ :=
    indirectAt_nilPtr (k + 1) m1 h.cells.length _ new1
  rw [len1] at e3 at2 new2 keep2 len2
  obtain ⟨m3, e4, len3, at3, keep3, tab3⟩ :=
    indirectAt_nilMap k m2 (h.cells.length + 1) _ _ _ new2 rfl rfl
  rw [tab2, tab1] at at3 tab3
  have c_a : m3.cells[a]? =
      some (.ptr (.ptr (.map "map[string]string" stringType stringType))
        (some h.cells.length)) := by
    rw [keep3 a (by omega), keep2 a (by omega) (by omega), at1]
  have c_n : m3.cells[h.cells.length]? =
      some (.ptr (.map "map[string]string" stringType stringType)
        (some (h.cells.length + 1))) := by
    rw [keep3 _ (by omega), at2]
  have t_r : m3.tables[h.tables.length]? = some [] := by
    rw [tab3]; simp
  have t_keep : ∀ r, r < h.tables.length → m3.tables[r]? = h.tables[r]? := by
    intro r hr
    rw [tab3, List.getElem?_append_left hr]
  have t_set : (m3.tables.set h.tables.length (SetMapIndex [] key val))[h.tables.length]? =
      some [(key, val)] := by
    rw [tab3]; simp [SetMapIndex]
  refine ⟨m3, ?_, c_a, c_n, at3, t_r, by omega, by rw [tab3]; simp, ?_, t_keep, ?_, ?_, ?_⟩
  · rw [e1, e2, e3, e4]
  · intro b hb hba
    rw [keep3 b (by omega), keep2 b (by omega) (by omega), keep1 b hb hba]
  · simp [Memory.assertStringMap, Memory.load, at3]
  · simp [Memory.indexThrough, Memory.star, Memory.index, c_a, c_n, at3, t_r, MapIndex]
  · refine ⟨⟨m3.cells, m3.tables.set h.tables.length (SetMapIndex [] key val)⟩,
      ?_, rfl, t_set, ?_, ?_, ?_, by rfl, ?_, ?_⟩
    · simp [Memory.mapAssign, t_r]
    · intro r hr
      rw [← t_keep r hr]
      simp [List.getElem?_set, Nat.ne_of_gt hr]
    · simp [Memory.indexThrough, Memory.star, Memory.index, c_a, c_n, at3, t_set, MapIndex]
    · simp [Memory.toValue, ha]
    · simp [Memory.toValue, c_a, c_n, at3, t_r, plug]
    · simp [Memory.toValue, c_a, c_n, at3, t_set, plug]
      rfl

/-- C15 at the input of `TestIndirect`: the memory holds the variable `a`
alone, at address `0`; the entry written is `foo` to `bar`; and `TestIndirect`
passes. -/
theorem C15_indirect_allocates_witness :
    (∃ h1 : Memory,
      indirectAt 4 testIndirectMemory
          (.value (.ptr (.ptr (.ptr (.map "map[string]string" stringType stringType)))
            (some 0))) =
        .returned h1 (some (.loc 2)) none ∧
      h1.cells[0]? =
        some (.ptr (.ptr (.map "map[string]string" stringType stringType)) (some 1)) ∧
      h1.cells[1]? =
        some (.ptr (.map "map[string]string" stringType stringType) (some 2)) ∧
      h1.cells[2]? = some (.map "map[string]string" stringType stringType (some 0)) ∧
      h1.tables[0]? = some [] ∧
      h1.assertStringMap (.loc 2) = some (some 0) ∧
      ∃ h2 : Memory,
        h1.mapAssign (some 0) "foo" "bar" = some h2 ∧
        h2.indexThrough 0 "foo" = some "bar") ∧
    TestIndirect = none :=
  ⟨match C15_indirect_allocates testIndirectMemory 0 4 "foo" "bar" (by rfl) (by decide) with
    | ⟨h1, e, c0, c1, c2, t0, _, _, _, _, hm, _, h2, ea, _, _, _, er, _⟩ =>
      ⟨h1, e, c0, c1, c2, t0, hm, h2, ea, er⟩,
    by rfl⟩

/-- C16: `indirect` accepts a map whose key type or element type is a named
type of kind string, and `unmarshalMap` then panics on its first key: at the
type assertion on `map[env.K]string`, at the assignment on
`map[string]env.V`. It does not run to completion and does not return
`nil`. -/
theorem C16_named_string_map_panics (pf : Platform) (env : Environ) :
    indirect (.ptr (.map "map[env.K]string" ⟨"env.K", .String⟩ stringType false [("A", "")])) =
      some ([.deref], .map "map[env.K]string" ⟨"env.K", .String⟩ stringType false [("A", "")],
        none) ∧
    Unmarshal pf env
        (some (.ptr (.map "map[env.K]string" ⟨"env.K", .String⟩ stringType false [("A", "")]))) =
      (some (.ptr (.map "map[env.K]string" ⟨"env.K", .String⟩ stringType false [("A", "")])),
        .panicked "interface conversion: interface \x7b\x7d is env.K, not string") ∧
    indirect (.ptr (.map "map[string]env.V" stringType ⟨"env.V", .String⟩ false [("A", "")])) =
      some ([.deref], .map "map[string]env.V" stringType ⟨"env.V", .String⟩ false [("A", "")],
        none) ∧
    Unmarshal pf env
        (some (.ptr (.map "map[string]env.V" stringType ⟨"env.V", .String⟩ false [("A", "")]))) =
      (some (.ptr (.map "map[string]env.V" stringType ⟨"env.V", .String⟩ false [("A", "")])),
        .panicked
          "reflect.Value.SetMapIndex: value of type string is not assignable to type env.V") :=
  ⟨by rfl, by rfl, by rfl, by rfl⟩

/-- C17: the loop of `indirect` on a value of depth `d` ends within `d + 1`
iterations, so `indirect` returns; an iteration that does not leave the loop
goes on with a value of strictly smaller depth; and allowing more iterations
does not change what the loop answers. -/
theorem C17_indirect_terminates (rv : Value) :
    (∃ r, indirectLoop (depth rv + 1) [] rv = some r) ∧
    (∃ r, indirect rv = some r) ∧
    (∀ (fuel : Nat) (fs : List Frame), indirectLoop (fuel + 1) fs rv =
      match indirectNext rv with
      | some rv' => indirectLoop fuel (.deref :: (unwrapIface fs rv).1) rv'
      | none => some ((unwrapIface fs rv).1, makeMapIfNil (unwrapIface fs rv).2)) ∧
    (∀ rv', indirectNext rv = some rv' → depth rv' < depth rv) ∧
    (∀ (fuel : Nat) (r : List Frame × Value), indirectLoop fuel [] rv = some r →
      indirectLoop (depth rv + 1) [] rv = some r) :=
  ⟨indirectLoop_some (depth rv + 1) [] rv (Nat.lt_succ_self _), indirect_returns rv,
    fun fuel fs => indirectLoop_succ fuel fs rv, fun rv' h => indirectNext_depth rv rv' h,
    fun fuel r h => by
      obtain ⟨r', hr'⟩ := indirectLoop_some (depth rv + 1) [] rv (Nat.lt_succ_self _)
      rcases Nat.le_total fuel (depth rv + 1) with hle | hle
      · exact indirectLoop_mono fuel [] rv r h _ hle
      · have := indirectLoop_mono _ [] rv r' hr' _ hle
        rw [h] at this
        rw [hr', this]⟩

/-- C14, where the claim fails. With every field a string field and the
environment holding each field's assigned value at its lookup key: an empty
value for a field without omitempty makes `Unmarshal` fail; a field tagged `-`
and a field that is not exported keep what they held instead of the assigned
value; and an omitempty field assigned the empty value keeps a non-empty value
it held before. -/
theorem C14_round_trip_fails :
    (environOf [("Required", "")] "Required" = some "" ∧
      Unmarshal platform64 (environOf [("Required", "")])
          (some (.ptr (.struct "env.E" [exportedField "Required" stringType "" (.str "")]))) =
        (some (.ptr (.struct "env.E" [exportedField "Required" stringType "" (.str "")])),
          .returned (some (.errorString "env: environment variable Required is not set")))) ∧
    (environOf [("Ignore", "foo")] "Ignore" = some "foo" ∧
      Unmarshal platform64 (environOf [("Ignore", "foo")])
          (some (.ptr (.struct "env.C" [exportedField "Ignore" stringType "-" (.str "")]))) =
        (some (.ptr (.struct "env.C" [exportedField "Ignore" stringType "-" (.str "")])),
          .returned none)) ∧
    (environOf [("secret", "foo")] "secret" = some "foo" ∧
      Unmarshal platform64 (environOf [("secret", "foo")])
          (some (.ptr (.struct "env.U" [⟨⟨"secret", stringType, "", false⟩, .str ""⟩]))) =
        (some (.ptr (.struct "env.U" [⟨⟨"secret", stringType, "", false⟩, .str ""⟩])),
          .returned none)) ∧
    (environOf [("OMITEMPTY", "")] "OMITEMPTY" = some "" ∧
      Unmarshal platform64 (environOf [("OMITEMPTY", "")])
          (some (.ptr (.struct "env.D"
            [exportedField "OmitEmpty" stringType "OMITEMPTY,omitempty" (.str "old")]))) =
        (some (.ptr (.struct "env.D"
            [exportedField "OmitEmpty" stringType "OMITEMPTY,omitempty" (.str "old")])),
          .returned none)) :=
  ⟨⟨by rfl, by rfl⟩, ⟨by rfl, by rfl⟩, ⟨by rfl, by rfl⟩, ⟨by rfl, by rfl⟩⟩

/-- C14 as amended: for a structure whose fields are all settable,
non-ignored string fields, and an assignment of a string value to each field
that is not empty, or is empty for a field whose tag sets omitempty and that
held the empty string before the call: if the environment maps each field's
lookup key to the field's value, `Unmarshal` returns `nil` and afterwards every
field holds its assigned value. -/
theorem C14_round_trip (pf : Platform) (env : Environ) (target : Value) (fs : List Frame)
    (name : String) (fv : List (Field × String))
    (hres : indirect (.ptr target) = some (fs, .struct name (fv.map Prod.fst), none))
    (hall : ∀ p ∈ fv, p.1.CanSet = true ∧ (parseTag p.1.decl.Tag).ignored = false ∧
      p.1.decl.Typ.kind = .String ∧ env (lookupKey p.1) = some p.2 ∧
      (p.2 ≠ "" ∨ ((parseTag p.1.decl.Tag).omitEmpty = true ∧ p.1.val = .str ""))) :
    Unmarshal pf env (some (.ptr target)) =
      (some (plug fs (.struct name (fv.map fun p => ⟨p.1.decl, .str p.2⟩))),
        .returned none) := by
  rw [Unmarshal_struct pf env target fs name _ hres, unmarshalFields_round_trip pf env fv hall]

/-- C14 as amended, at a structure with an aliased field, an untagged field
and an omitempty field assigned the empty value. -/
theorem C14_round_trip_witness :
    Unmarshal platform64 (environOf [("STRING", "foo"), ("Name", "bar"), ("OPT", "")])
        (some (.ptr (.struct "env.R"
          [exportedField "String" stringType "STRING" (.str ""),
           exportedField "Name" stringType "" (.str "old"),
           exportedField "Opt" stringType "OPT,omitempty" (.str "")]))) =
      (some (.ptr (.struct "env.R"
          [exportedField "String" stringType "STRING" (.str "foo"),
           exportedField "Name" stringType "" (.str "bar"),
           exportedField "Opt" stringType "OPT,omitempty" (.str "")])),
        .returned none) :=
  C14_round_trip platform64 (environOf [("STRING", "foo"), ("Name", "bar"), ("OPT", "")])
    (.struct "env.R"
      [exportedField "String" stringType "STRING" (.str ""),
       exportedField "Name" stringType "" (.str "old"),
       exportedField "Opt" stringType "OPT,omitempty" (.str "")])
    [.deref] "env.R"
    [(exportedField "String" stringType "STRING" (.str ""), "foo"),
     (exportedField "Name" stringType "" (.str "old"), "bar"),
     (exportedField "Opt" stringType "OPT,omitempty" (.str ""), "")]
    (by rfl)
    (by
      intro p hp
      simp only [List.mem_cons, List.mem_singleton, List.not_mem_nil, or_false] at hp
      rcases hp with rfl | rfl | rfl
      · exact ⟨by rfl, by rfl, by rfl, by rfl, Or.inl (by decide)⟩
      · exact ⟨by rfl, by rfl, by rfl, by rfl, Or.inl (by decide)⟩
      · exact ⟨by rfl, by rfl, by rfl, by rfl, Or.inr ⟨by rfl, by rfl⟩⟩)

/-- C20: for a destination that resolves to a structure or to a
`map[string]string`, a second call of `Unmarshal` in the same environment, on
the destination as the first call left it, returns what the first call
returned, `nil` or the same error, and leaves the destination as the first call
left it. -/
theorem C20_idempotent (pf : Platform) (env : Environ) (target : Value) (fs : List Frame)
    (rv : Value) (hres : indirect (.ptr target) = some (fs, rv, none))
    (hb : isBindable rv = true) :
    Unmarshal pf env (Unmarshal pf env (some (.ptr target))).1 =
      Unmarshal pf env (some (.ptr target)) := by
  cases rv with
  | struct name fields =>
    have h1 := Unmarshal_struct pf env target fs name fields hres
    obtain ⟨target', hplug, hind⟩ := indirect_plug target fs _ _ hres
      (.struct name (unmarshalFields pf env fields).1) rfl
    have hc : indirectCheck (.struct name (unmarshalFields pf env fields).1) = none := by
      simp [indirectCheck, Value.Kind, typeOf, GoType.Kind]
    rw [hc] at hind
    have e1 : (Unmarshal pf env (some (.ptr target))).1 = some (.ptr target') := by
      rw [h1]; exact congrArg some hplug
    rw [e1, Unmarshal_struct pf env target' fs name _ hind, unmarshalFields_idem, h1]
  | map name key elem isNil entries =>
    simp only [isBindable, decide_eq_true_eq] at hb
    obtain ⟨rfl, rfl⟩ := hb
    have hloop : indirectLoop (depth (.ptr target) + 1) [] (.ptr target) =
        some (fs, .map name stringType stringType isNil entries) := by
      unfold indirect at hres
      split at hres
      · cases hres
      · rename_i fs' rv'' heq
        simp only [Option.some.injEq, Prod.mk.injEq] at hres
        rw [heq, hres.1, hres.2.1]
    have hnil := indirectLoop_exit_map _ _ _ _ _ _ _ _ _ hloop
    subst hnil
    have h1 := Unmarshal_map pf env target fs name _ _ false entries hres
    obtain ⟨ho, hkeys, hi⟩ :=
      unmarshalMapLoop_string env (MapKeys entries) entries (fun k hk => hk)
    obtain ⟨target', hplug, hind⟩ := indirect_plug target fs _ _ hres
      (.map name stringType stringType false
        (unmarshalMapLoop env stringType stringType (MapKeys entries) entries).1) rfl
    have hc : indirectCheck (.map name stringType stringType false
        (unmarshalMapLoop env stringType stringType (MapKeys entries) entries).1) = none := by
      simp [indirectCheck, Value.Kind, typeOf, GoType.Kind, stringType]
    rw [hc] at hind
    have e1 : (Unmarshal pf env (some (.ptr target))).1 = some (.ptr target') := by
      rw [h1]; exact congrArg some hplug
    have hfix := unmarshalMapLoop_fixed env
      (MapKeys (unmarshalMapLoop env stringType stringType (MapKeys entries) entries).1)
      (unmarshalMapLoop env stringType stringType (MapKeys entries) entries).1 (by
        intro k hmem
        rw [hkeys] at hmem
        rw [hi k, if_pos hmem])
    rw [e1, Unmarshal_map pf env target' fs name _ _ false _ hind, hfix, h1, ho]
  | _ => simp [isBindable] at hb

/-- C20 at a structure whose second field fails: the second call returns the
same error and leaves the bound first field as it is. -/
theorem C20_idempotent_witness :
    Unmarshal platform64 (environOf [("S", "foo"), ("N", "abc")])
        (Unmarshal platform64 (environOf [("S", "foo"), ("N", "abc")])
          (some (.ptr (.struct "env.H"
            [exportedField "S" stringType "" (.str ""),
             exportedField "N" ⟨"int8", .Int8⟩ "" (.int 0)])))).1 =
      Unmarshal platform64 (environOf [("S", "foo"), ("N", "abc")])
        (some (.ptr (.struct "env.H"
          [exportedField "S" stringType "" (.str ""),
           exportedField "N" ⟨"int8", .Int8⟩ "" (.int 0)]))) :=
  C20_idempotent platform64 (environOf [("S", "foo"), ("N", "abc")])
    (.struct "env.H"
      [exportedField "S" stringType "" (.str ""),
       exportedField "N" ⟨"int8", .Int8⟩ "" (.int 0)])
    [.deref]
    (.struct "env.H"
      [exportedField "S" stringType "" (.str ""),
       exportedField "N" ⟨"int8", .Int8⟩ "" (.int 0)])
    (by rfl) (by rfl)

end Env
